import Mathlib

/-!
# dartbuddy: the X01 checkout chart and turn state machine

A shallow embedding of `internal/model/oh1/outs.go`, `internal/model/oh1/game.go`,
the types, the board geometry and the spread of `internal/model/simulation.go`,
`internal/model/playerprofile.go` and the score loop of `SubmitScore` in
`internal/api/api.go`, followed by theorems about them.

Conventions of the embedding:

* Go `int` and the named integer types (`Multiplier`, `ScoringPreference`,
  `PlayerType`, `TurnResultType`) are `Int`; the constants keep their Go
  values.  Arithmetic on the scores of darts is exact: a dart is worth at
  most 60, and the sums stay far inside the 64-bit range.  The score loop of
  `SubmitScore`, whose scores come from a request unchecked, has Go's
  wrap-around (`goAdd`, `goSub`).
* `float64` is `Float` where a value is only carried along (spread, averages).
  The radii and angles of the board geometry are the rationals that finite
  float64 values denote; the sums, differences and quotients on the way from
  a landing point to a number are rounded to float64 (`roundF64`).
* A Go `map[int]Out` is the list of its bindings, newest first.
* A `panic` is `Except.error` carrying the panic message.
* Pointers to mutable records (`*Player`, `*Simulator`) become explicit
  state passing: a function returns the updated record.
* `fmt.Printf` output is not modelled.
-/

namespace Dartbuddy

/-! ## `internal/model/board.go` -/

def Bullseye : Int := 25
def Twenty : Int := 20
def Nineteen : Int := 19

/-! ## `internal/model/simulation.go` (types) -/

/-- Go `type Multiplier int`. -/
abbrev Multiplier := Int

def Miss : Multiplier := 0
def Single : Multiplier := 1
def Double : Multiplier := 2
def Triple : Multiplier := 3

/-- A single dart target with multiplier and number. -/
structure DartTarget where
  Multiplier : Multiplier
  Number : Int
  deriving DecidableEq, Repr

/-- The outcome of a single dart throw; Go embeds `DartTarget` in it. -/
structure DartResult extends DartTarget where
  Score : Int
  deriving DecidableEq, Repr

/-- Points of a target struck cleanly: number times multiplier, the
    expression `determineHit` uses (`number * int(multiplier)`); it gives 25
    for Single 25 and 50 for Double 25. -/
def DartTarget.value (t : DartTarget) : Int := t.Number * t.Multiplier

/-! ## `internal/model/playerprofile.go` -/

/-- Go `type PlayerType int`. -/
abbrev PlayerType := Int

def RealPlayer : PlayerType := 0
def SimulatedPlayer : PlayerType := 1

/-- Go `type ScoringPreference int`. -/
abbrev ScoringPreference := Int

def TwentiesScoringPreference : ScoringPreference := 0
def NinteensScoringPreference : ScoringPreference := 1

/-- A `uuid.UUID`, kept as a number. -/
abbrev UUID := Nat

structure PlayerProfile where
  ID : UUID
  Name : String
  PlayerType : PlayerType
  ThreeDA : Float
  ScoringPreference : ScoringPreference

def PlayerProfile.GetName (p : PlayerProfile) : String := p.Name

def PlayerProfile.GetType (p : PlayerProfile) : Dartbuddy.PlayerType := p.PlayerType

def PlayerProfile.GetScoringPreference (p : PlayerProfile) : Dartbuddy.ScoringPreference :=
  p.ScoringPreference

/-! ## `internal/model/oh1/outs.go` -/

/-- A complete checkout sequence for a given score. -/
structure Out where
  Score : Int
  Targets : List DartTarget
  deriving DecidableEq, Repr

/-- A Go `map[int]Out`: its bindings, the most recent assignment first. -/
abbrev OutMap := List (Int × Out)

/-- The assignment `m[k] = v`. -/
def OutMap.assign (m : OutMap) (k : Int) (v : Out) : OutMap := (k, v) :: m

/-- The lookup `v, exists := m[k]`; `none` stands for `exists == false`. -/
def OutMap.find (m : OutMap) (k : Int) : Option Out := List.lookup k m

/-- The official dart checkout chart. -/
structure OutChart where
  outs : OutMap
  deriving DecidableEq, Repr

/-- The assignments `oc.outs[k] = Out{s, targets}` of `initializeOuts`, in
    source order, each as the pair of the key `k` and the value. -/
def outAssignments : List (Int × Out) := [
  (2, Out.mk 2 [DartTarget.mk Double 1]),
  (3, Out.mk 3 [DartTarget.mk Single 1, DartTarget.mk Double 1]),
  (4, Out.mk 4 [DartTarget.mk Double 2]),
  (5, Out.mk 5 [DartTarget.mk Single 1, DartTarget.mk Double 2]),
  (6, Out.mk 6 [DartTarget.mk Double 3]),
  (7, Out.mk 7 [DartTarget.mk Single 3, DartTarget.mk Double 2]),
  (8, Out.mk 8 [DartTarget.mk Double 4]),
  (9, Out.mk 9 [DartTarget.mk Single 1, DartTarget.mk Double 4]),
  (10, Out.mk 10 [DartTarget.mk Double 5]),
  (11, Out.mk 11 [DartTarget.mk Single 3, DartTarget.mk Double 4]),
  (12, Out.mk 12 [DartTarget.mk Double 6]),
  (13, Out.mk 13 [DartTarget.mk Single 5, DartTarget.mk Double 4]),
  (14, Out.mk 14 [DartTarget.mk Double 7]),
  (15, Out.mk 15 [DartTarget.mk Single 7, DartTarget.mk Double 4]),
  (16, Out.mk 16 [DartTarget.mk Double 8]),
  (17, Out.mk 17 [DartTarget.mk Single 9, DartTarget.mk Double 4]),
  (18, Out.mk 18 [DartTarget.mk Double 9]),
  (19, Out.mk 19 [DartTarget.mk Single 3, DartTarget.mk Double 8]),
  (20, Out.mk 20 [DartTarget.mk Double 10]),
  (21, Out.mk 21 [DartTarget.mk Single 5, DartTarget.mk Double 8]),
  (22, Out.mk 22 [DartTarget.mk Double 11]),
  (23, Out.mk 23 [DartTarget.mk Single 7, DartTarget.mk Double 8]),
  (24, Out.mk 24 [DartTarget.mk Double 12]),
  (25, Out.mk 25 [DartTarget.mk Single 9, DartTarget.mk Double 8]),
  (26, Out.mk 26 [DartTarget.mk Double 13]),
  (27, Out.mk 27 [DartTarget.mk Single 11, DartTarget.mk Double 8]),
  (28, Out.mk 28 [DartTarget.mk Double 14]),
  (29, Out.mk 29 [DartTarget.mk Single 13, DartTarget.mk Double 8]),
  (30, Out.mk 30 [DartTarget.mk Double 15]),
  (31, Out.mk 31 [DartTarget.mk Single 15, DartTarget.mk Double 8]),
  (32, Out.mk 32 [DartTarget.mk Double 16]),
  (33, Out.mk 33 [DartTarget.mk Single 17, DartTarget.mk Double 8]),
  (34, Out.mk 34 [DartTarget.mk Double 17]),
  (35, Out.mk 35 [DartTarget.mk Single 3, DartTarget.mk Double 16]),
  (36, Out.mk 36 [DartTarget.mk Double 18]),
  (37, Out.mk 37 [DartTarget.mk Single 5, DartTarget.mk Double 16]),
  (38, Out.mk 38 [DartTarget.mk Double 19]),
  (39, Out.mk 39 [DartTarget.mk Single 7, DartTarget.mk Double 16]),
  (40, Out.mk 40 [DartTarget.mk Double 20]),
  (41, Out.mk 41 [DartTarget.mk Single 9, DartTarget.mk Double 16]),
  (42, Out.mk 42 [DartTarget.mk Single 10, DartTarget.mk Double 16]),
  (43, Out.mk 43 [DartTarget.mk Single 11, DartTarget.mk Double 16]),
  (44, Out.mk 44 [DartTarget.mk Single 12, DartTarget.mk Double 16]),
  (45, Out.mk 45 [DartTarget.mk Single 13, DartTarget.mk Double 16]),
  (46, Out.mk 46 [DartTarget.mk Single 6, DartTarget.mk Double 20]),
  (47, Out.mk 47 [DartTarget.mk Single 7, DartTarget.mk Double 20]),
  (48, Out.mk 48 [DartTarget.mk Single 8, DartTarget.mk Double 20]),
  (49, Out.mk 49 [DartTarget.mk Single 17, DartTarget.mk Double 16]),
  (50, Out.mk 50 [DartTarget.mk Single 18, DartTarget.mk Double 16]),
  (51, Out.mk 51 [DartTarget.mk Single 19, DartTarget.mk Double 16]),
  (52, Out.mk 52 [DartTarget.mk Single 12, DartTarget.mk Double 20]),
  (53, Out.mk 53 [DartTarget.mk Single 13, DartTarget.mk Double 20]),
  (54, Out.mk 54 [DartTarget.mk Single 14, DartTarget.mk Double 20]),
  (55, Out.mk 55 [DartTarget.mk Single 15, DartTarget.mk Double 20]),
  (56, Out.mk 56 [DartTarget.mk Single 16, DartTarget.mk Double 20]),
  (57, Out.mk 57 [DartTarget.mk Single 17, DartTarget.mk Double 20]),
  (58, Out.mk 58 [DartTarget.mk Single 18, DartTarget.mk Double 20]),
  (59, Out.mk 59 [DartTarget.mk Single 19, DartTarget.mk Double 20]),
  (60, Out.mk 60 [DartTarget.mk Single 20, DartTarget.mk Double 20]),
  (61, Out.mk 61 [DartTarget.mk Triple 15, DartTarget.mk Double 8]),
  (62, Out.mk 62 [DartTarget.mk Triple 10, DartTarget.mk Double 16]),
  (63, Out.mk 63 [DartTarget.mk Triple 13, DartTarget.mk Double 12]),
  (64, Out.mk 64 [DartTarget.mk Triple 16, DartTarget.mk Double 8]),
  (65, Out.mk 65 [DartTarget.mk Triple 19, DartTarget.mk Double 4]),
  (66, Out.mk 66 [DartTarget.mk Triple 10, DartTarget.mk Double 18]),
  (67, Out.mk 67 [DartTarget.mk Triple 17, DartTarget.mk Double 8]),
  (68, Out.mk 68 [DartTarget.mk Triple 20, DartTarget.mk Double 4]),
  (69, Out.mk 69 [DartTarget.mk Triple 15, DartTarget.mk Double 12]),
  (70, Out.mk 70 [DartTarget.mk Triple 10, DartTarget.mk Double 20]),
  (71, Out.mk 71 [DartTarget.mk Triple 13, DartTarget.mk Double 16]),
  (72, Out.mk 72 [DartTarget.mk Triple 16, DartTarget.mk Double 12]),
  (73, Out.mk 73 [DartTarget.mk Triple 19, DartTarget.mk Double 8]),
  (74, Out.mk 74 [DartTarget.mk Triple 14, DartTarget.mk Double 16]),
  (75, Out.mk 75 [DartTarget.mk Triple 17, DartTarget.mk Double 12]),
  (76, Out.mk 76 [DartTarget.mk Triple 20, DartTarget.mk Double 8]),
  (77, Out.mk 77 [DartTarget.mk Triple 19, DartTarget.mk Double 10]),
  (78, Out.mk 78 [DartTarget.mk Triple 18, DartTarget.mk Double 12]),
  (79, Out.mk 79 [DartTarget.mk Triple 19, DartTarget.mk Double 11]),
  (80, Out.mk 80 [DartTarget.mk Triple 20, DartTarget.mk Double 10]),
  (81, Out.mk 81 [DartTarget.mk Triple 19, DartTarget.mk Double 12]),
  (82, Out.mk 82 [DartTarget.mk Triple 14, DartTarget.mk Double 20]),
  (83, Out.mk 83 [DartTarget.mk Triple 17, DartTarget.mk Double 16]),
  (84, Out.mk 84 [DartTarget.mk Triple 20, DartTarget.mk Double 12]),
  (85, Out.mk 85 [DartTarget.mk Triple 15, DartTarget.mk Double 20]),
  (86, Out.mk 86 [DartTarget.mk Triple 18, DartTarget.mk Double 16]),
  (87, Out.mk 87 [DartTarget.mk Triple 17, DartTarget.mk Double 18]),
  (88, Out.mk 88 [DartTarget.mk Triple 16, DartTarget.mk Double 20]),
  (89, Out.mk 89 [DartTarget.mk Triple 19, DartTarget.mk Double 16]),
  (90, Out.mk 90 [DartTarget.mk Triple 20, DartTarget.mk Double 15]),
  (91, Out.mk 91 [DartTarget.mk Triple 17, DartTarget.mk Double 20]),
  (92, Out.mk 92 [DartTarget.mk Triple 20, DartTarget.mk Double 16]),
  (93, Out.mk 93 [DartTarget.mk Triple 19, DartTarget.mk Double 18]),
  (94, Out.mk 94 [DartTarget.mk Triple 18, DartTarget.mk Double 20]),
  (95, Out.mk 95 [DartTarget.mk Triple 19, DartTarget.mk Double 19]),
  (96, Out.mk 96 [DartTarget.mk Triple 20, DartTarget.mk Double 18]),
  (97, Out.mk 97 [DartTarget.mk Triple 19, DartTarget.mk Double 20]),
  (98, Out.mk 98 [DartTarget.mk Triple 20, DartTarget.mk Double 19]),
  (99, Out.mk 99 [DartTarget.mk Triple 19, DartTarget.mk Single 10, DartTarget.mk Double 16]),
  (100, Out.mk 100 [DartTarget.mk Triple 20, DartTarget.mk Double 20]),
  (101, Out.mk 101 [DartTarget.mk Triple 20, DartTarget.mk Single 1, DartTarget.mk Double 20]),
  (102, Out.mk 102 [DartTarget.mk Triple 20, DartTarget.mk Single 10, DartTarget.mk Double 16]),
  (103, Out.mk 103 [DartTarget.mk Triple 20, DartTarget.mk Single 3, DartTarget.mk Double 20]),
  (104, Out.mk 104 [DartTarget.mk Triple 18, DartTarget.mk Single 18, DartTarget.mk Double 16]),
  (105, Out.mk 105 [DartTarget.mk Triple 19, DartTarget.mk Single 16, DartTarget.mk Double 16]),
  (106, Out.mk 106 [DartTarget.mk Triple 20, DartTarget.mk Single 14, DartTarget.mk Double 16]),
  (107, Out.mk 107 [DartTarget.mk Triple 19, DartTarget.mk Single 18, DartTarget.mk Double 16]),
  (108, Out.mk 108 [DartTarget.mk Triple 20, DartTarget.mk Single 16, DartTarget.mk Double 16]),
  (109, Out.mk 109 [DartTarget.mk Triple 19, DartTarget.mk Single 20, DartTarget.mk Double 16]),
  (110, Out.mk 110 [DartTarget.mk Triple 20, DartTarget.mk Single 18, DartTarget.mk Double 16]),
  (111, Out.mk 111 [DartTarget.mk Triple 20, DartTarget.mk Single 19, DartTarget.mk Double 16]),
  (112, Out.mk 112 [DartTarget.mk Triple 20, DartTarget.mk Single 12, DartTarget.mk Double 20]),
  (113, Out.mk 113 [DartTarget.mk Triple 20, DartTarget.mk Single 13, DartTarget.mk Double 20]),
  (114, Out.mk 114 [DartTarget.mk Triple 20, DartTarget.mk Single 14, DartTarget.mk Double 20]),
  (115, Out.mk 115 [DartTarget.mk Triple 20, DartTarget.mk Single 15, DartTarget.mk Double 20]),
  (116, Out.mk 116 [DartTarget.mk Triple 20, DartTarget.mk Single 16, DartTarget.mk Double 20]),
  (117, Out.mk 117 [DartTarget.mk Triple 20, DartTarget.mk Single 17, DartTarget.mk Double 20]),
  (118, Out.mk 118 [DartTarget.mk Triple 20, DartTarget.mk Single 18, DartTarget.mk Double 20]),
  (119, Out.mk 119 [DartTarget.mk Triple 19, DartTarget.mk Triple 10, DartTarget.mk Double 16]),
  (120, Out.mk 120 [DartTarget.mk Triple 20, DartTarget.mk Single 20, DartTarget.mk Double 20]),
  (121, Out.mk 121 [DartTarget.mk Triple 17, DartTarget.mk Triple 10, DartTarget.mk Double 20]),
  (122, Out.mk 122 [DartTarget.mk Triple 18, DartTarget.mk Triple 20, DartTarget.mk Double 4]),
  (123, Out.mk 123 [DartTarget.mk Triple 19, DartTarget.mk Triple 16, DartTarget.mk Double 9]),
  (124, Out.mk 124 [DartTarget.mk Triple 20, DartTarget.mk Triple 16, DartTarget.mk Double 8]),
  (125, Out.mk 125 [DartTarget.mk Single 25, DartTarget.mk Triple 20, DartTarget.mk Double 20]),
  (126, Out.mk 126 [DartTarget.mk Triple 19, DartTarget.mk Triple 19, DartTarget.mk Double 6]),
  (127, Out.mk 127 [DartTarget.mk Triple 20, DartTarget.mk Triple 17, DartTarget.mk Double 8]),
  (128, Out.mk 128 [DartTarget.mk Triple 18, DartTarget.mk Triple 14, DartTarget.mk Double 16]),
  (129, Out.mk 129 [DartTarget.mk Triple 19, DartTarget.mk Triple 16, DartTarget.mk Double 12]),
  (130, Out.mk 130 [DartTarget.mk Triple 20, DartTarget.mk Triple 20, DartTarget.mk Double 5]),
  (131, Out.mk 131 [DartTarget.mk Triple 20, DartTarget.mk Triple 13, DartTarget.mk Double 16]),
  (132, Out.mk 132 [DartTarget.mk Triple 20, DartTarget.mk Triple 16, DartTarget.mk Double 12]),
  (133, Out.mk 133 [DartTarget.mk Triple 20, DartTarget.mk Triple 19, DartTarget.mk Double 8]),
  (134, Out.mk 134 [DartTarget.mk Triple 20, DartTarget.mk Triple 14, DartTarget.mk Double 16]),
  (135, Out.mk 135 [DartTarget.mk Triple 20, DartTarget.mk Triple 17, DartTarget.mk Double 12]),
  (136, Out.mk 136 [DartTarget.mk Triple 20, DartTarget.mk Triple 20, DartTarget.mk Double 8]),
  (137, Out.mk 137 [DartTarget.mk Triple 19, DartTarget.mk Triple 16, DartTarget.mk Double 16]),
  (138, Out.mk 138 [DartTarget.mk Triple 20, DartTarget.mk Triple 18, DartTarget.mk Double 12]),
  (139, Out.mk 139 [DartTarget.mk Triple 19, DartTarget.mk Triple 14, DartTarget.mk Double 20]),
  (140, Out.mk 140 [DartTarget.mk Triple 20, DartTarget.mk Triple 16, DartTarget.mk Double 16]),
  (141, Out.mk 141 [DartTarget.mk Triple 20, DartTarget.mk Triple 19, DartTarget.mk Double 12]),
  (142, Out.mk 142 [DartTarget.mk Triple 20, DartTarget.mk Triple 14, DartTarget.mk Double 20]),
  (143, Out.mk 143 [DartTarget.mk Triple 20, DartTarget.mk Triple 17, DartTarget.mk Double 16]),
  (144, Out.mk 144 [DartTarget.mk Triple 20, DartTarget.mk Triple 20, DartTarget.mk Double 12]),
  (145, Out.mk 145 [DartTarget.mk Triple 20, DartTarget.mk Triple 15, DartTarget.mk Double 20]),
  (146, Out.mk 146 [DartTarget.mk Triple 20, DartTarget.mk Triple 18, DartTarget.mk Double 16]),
  (147, Out.mk 147 [DartTarget.mk Triple 20, DartTarget.mk Triple 17, DartTarget.mk Double 18]),
  (148, Out.mk 148 [DartTarget.mk Triple 20, DartTarget.mk Triple 16, DartTarget.mk Double 20]),
  (149, Out.mk 149 [DartTarget.mk Triple 20, DartTarget.mk Triple 19, DartTarget.mk Double 16]),
  (150, Out.mk 150 [DartTarget.mk Triple 20, DartTarget.mk Triple 18, DartTarget.mk Double 18]),
  (151, Out.mk 151 [DartTarget.mk Triple 20, DartTarget.mk Triple 17, DartTarget.mk Double 20]),
  (152, Out.mk 152 [DartTarget.mk Triple 20, DartTarget.mk Triple 20, DartTarget.mk Double 16]),
  (153, Out.mk 153 [DartTarget.mk Triple 20, DartTarget.mk Triple 19, DartTarget.mk Double 18]),
  (154, Out.mk 154 [DartTarget.mk Triple 20, DartTarget.mk Triple 18, DartTarget.mk Double 20]),
  (155, Out.mk 155 [DartTarget.mk Triple 20, DartTarget.mk Triple 19, DartTarget.mk Double 19]),
  (156, Out.mk 156 [DartTarget.mk Triple 20, DartTarget.mk Triple 20, DartTarget.mk Double 18]),
  (157, Out.mk 157 [DartTarget.mk Triple 20, DartTarget.mk Triple 19, DartTarget.mk Double 20]),
  (158, Out.mk 158 [DartTarget.mk Triple 20, DartTarget.mk Triple 20, DartTarget.mk Double 19]),
  (160, Out.mk 160 [DartTarget.mk Triple 20, DartTarget.mk Triple 20, DartTarget.mk Double 20]),
  (161, Out.mk 161 [DartTarget.mk Triple 20, DartTarget.mk Triple 17, DartTarget.mk Double 25]),
  (164, Out.mk 164 [DartTarget.mk Triple 20, DartTarget.mk Triple 18, DartTarget.mk Double 25]),
  (167, Out.mk 167 [DartTarget.mk Triple 20, DartTarget.mk Triple 19, DartTarget.mk Double 25]),
  (170, Out.mk 170 [DartTarget.mk Triple 20, DartTarget.mk Triple 20, DartTarget.mk Double 25])
]

/-- Body of `initializeOuts`: performs the assignments in order. -/
def OutChart.initializeOuts (oc : OutChart) : OutChart :=
  { outs := outAssignments.foldl (fun m e => m.assign e.1 e.2) oc.outs }

/-- Creates and initializes a new chart. -/
def NewOutChart : OutChart :=
  OutChart.initializeOuts { outs := [] }

/-- Recommended checkout for a score; `none` is Go's `nil`. -/
def OutChart.GetOut (oc : OutChart) (score : Int) : Option Out :=
  match oc.outs.find score with
  | some out => some out
  | none => none

/-- Next target for a score; the `panic` on a score below 2 is `Except.error`. -/
def OutChart.GetNextTarget (oc : OutChart) (score : Int) (preference : ScoringPreference) :
    Except String DartTarget :=
  if score < 2 then
    .error "Score less than 2, cannot checkout - something is busted"
  else
    match oc.GetOut score with
    | some { Score := _, Targets := t :: _ } => .ok t
    | _ =>
      if preference = TwentiesScoringPreference then
        .ok { Multiplier := Triple, Number := Twenty }
      else if preference = NinteensScoringPreference then
        .ok { Multiplier := Triple, Number := Nineteen }
      else
        .ok { Multiplier := Triple, Number := Twenty }



/-! ## `internal/model/simulation.go` (the simulator, as an oracle) -/

/-- The throw simulator, as the game sees it.  `rng` is the state of its
    random source; `sample` is what `ThrowDart` computes from that state, the
    target aimed at and the spread: the outcome, and the state the source is
    left in.  The theorems about play hold for every `sample`; the body of the
    Go method is `ThrowDart` further down. -/
structure Simulator (ρ : Type) where
  rng : ρ
  sample : ρ → DartTarget → Float → DartResult × ρ

/-- One simulated throw: the outcome and the simulator afterwards. -/
def Simulator.ThrowDart {ρ : Type} (s : Simulator ρ) (target : DartTarget) (spread : Float) :
    DartResult × Simulator ρ :=
  ((s.sample s.rng target spread).1, { s with rng := (s.sample s.rng target spread).2 })

/-! ## `internal/model/oh1/game.go` -/

/-- The 01 player state; Go embeds the `PlayerProfile`. -/
structure Player extends PlayerProfile where
  spread : Float
  CurrentScore : Int
  Turns : Int
  TotalPoints : Int
  Throws : Int

/-- Modelled from the spec: `GetSpread`, which `ThrowDart` calls and the
    sources do not define, returns "the player's dispersion", the `spread`
    field. -/
def Player.GetSpread (p : Player) : Float := p.spread

def Player.CurrentThreeDA (p : Player) : Float :=
  if p.Throws = 0 then 0.0
  else Float.ofInt p.TotalPoints / Float.ofInt (Int.tdiv p.Throws 3)

structure Game (ρ : Type) where
  ID : UUID
  Simulator : Dartbuddy.Simulator ρ
  Players : List Player
  CurrentPlayer : Int
  StartScore : Int
  Turn : Int
  Outs : OutChart

/-- A new game; the fresh identifier and the fresh simulator are arguments. -/
def New01Game {ρ : Type} (id : UUID) (sim : Simulator ρ) (startingScore : Int) : Game ρ :=
  { ID := id
    StartScore := startingScore
    Simulator := sim
    Outs := NewOutChart
    Players := []
    CurrentPlayer := 0
    Turn := 0 }

def Game.Start {ρ : Type} (g : Game ρ) : Except String Unit :=
  if g.Players.length = 0 then .error "cannot start game with no players"
  else .ok ()

def Game.AddPlayer {ρ : Type} (g : Game ρ) (profile : PlayerProfile) : Game ρ :=
  { g with
    Players := g.Players ++ [{ toPlayerProfile := profile
                               spread := 0.0
                               CurrentScore := g.StartScore
                               Turns := 0
                               TotalPoints := 0
                               Throws := 0 }] }

/-- The current player; `none` is Go's `nil`, and an index outside the slice
    is the runtime panic of `g.Players[g.CurrentPlayer]`. -/
def Game.GetCurrentPlayer {ρ : Type} (g : Game ρ) : Except String (Option Player) :=
  if g.Players.length = 0 then .ok none
  else if 0 ≤ g.CurrentPlayer then
    match g.Players[g.CurrentPlayer.toNat]? with
    | some p => .ok (some p)
    | none => .error "index out of range"
  else .error "index out of range"

/-- Go's `%` truncates towards zero; a zero divisor panics. -/
def Game.NextPlayer {ρ : Type} (g : Game ρ) : Except String (Game ρ) :=
  if g.Players.length = 0 then .error "integer divide by zero"
  else .ok { g with CurrentPlayer := Int.tmod (g.CurrentPlayer + 1) g.Players.length }

/-- Go `type TurnResultType int`. -/
abbrev TurnResultType := Int

def ScoringTurn : TurnResultType := 0
def BustTurn : TurnResultType := 1
def WinTurn : TurnResultType := 2

/-- The result of a turn.  The Go field `Type` is `Typ` here. -/
structure TurnResult where
  Typ : TurnResultType
  PlayerName : String
  Results : List DartResult
  TotalScore : Int
  RemainingScore : Int
  CurrentThreeDA : Float

/-- Aims with the chart, then asks the simulator.  The Go method reads
    `g.Outs` and `g.Simulator`; here they are arguments, and the simulator
    comes back with its random source advanced. -/
def Game.ThrowDart {ρ : Type} (outs : OutChart) (sim : Dartbuddy.Simulator ρ) (_dart : Int)
    (currentScore : Int) (p : Player) : Except String (DartResult × Dartbuddy.Simulator ρ) :=
  match outs.GetNextTarget currentScore p.GetScoringPreference with
  | .error e => .error e
  | .ok target => .ok (sim.ThrowDart target p.GetSpread)

/-- What the dart loop of `PlayTurn` reads and writes: the player `p` and the
    simulator (both behind pointers in Go) and the locals `totalScore`,
    `currentScore` and `results`. -/
structure TurnVars (ρ : Type) where
  sim : Simulator ρ
  p : Player
  totalScore : Int
  currentScore : Int
  results : List DartResult

/-- How one pass of the loop body ends: with a `return` of a result, leaving
    the player and the simulator as given, or by falling through to the next
    pass. -/
inductive Flow (ρ : Type) where
  | ret (r : TurnResult) (p : Player) (sim : Simulator ρ)
  | next (v : TurnVars ρ)

/-- Body of the loop `for dart := range 3` of `PlayTurn`. -/
def dartBody {ρ : Type} (outs : OutChart) (dart : Int) (v : TurnVars ρ) :
    Except String (Flow ρ) :=
  match Game.ThrowDart outs v.sim dart v.currentScore v.p with
  | .error e => .error e
  | .ok (result, sim) =>
    let results := v.results ++ [result]
    let currentScore := v.currentScore - result.Score
    if currentScore < 0 ∨ (currentScore = 0 ∧ result.Multiplier ≠ Double) ∨
        currentScore = 1 then
      .ok (.ret { Typ := BustTurn
                  PlayerName := v.p.GetName
                  Results := results
                  TotalScore := v.totalScore
                  CurrentThreeDA := v.p.CurrentThreeDA
                  RemainingScore := 0 } v.p sim)
    else
      let p := { v.p with TotalPoints := v.p.TotalPoints + result.Score
                          Throws := v.p.Throws + 1 }
      let totalScore := v.totalScore + result.Score
      if currentScore = 0 then
        .ok (.ret { Typ := WinTurn
                    PlayerName := p.GetName
                    Results := results
                    TotalScore := totalScore
                    CurrentThreeDA := p.CurrentThreeDA
                    RemainingScore := currentScore } p sim)
      else
        .ok (.next { sim := sim
                     p := p
                     totalScore := totalScore
                     currentScore := currentScore
                     results := results })

/-- The loop `for dart := range 3`: `n` passes are left, the next is number
    `dart`. -/
def dartLoop {ρ : Type} (outs : OutChart) : Nat → Int → TurnVars ρ → Except String (Flow ρ)
  | 0, _, v => .ok (.next v)
  | n + 1, dart, v =>
    match dartBody outs dart v with
    | .error e => .error e
    | .ok (.ret r p sim) => .ok (.ret r p sim)
    | .ok (.next v1) => dartLoop outs n (dart + 1) v1

/-- Writes the player behind the pointer `p` and the simulator back into the
    game. -/
def Game.store {ρ : Type} (g : Game ρ) (p : Player) (sim : Dartbuddy.Simulator ρ) : Game ρ :=
  { g with Simulator := sim, Players := g.Players.set g.CurrentPlayer.toNat p }

/-- One turn of the current player.  The result `none` is Go's `nil`; the
    second component is the game after the call. -/
def Game.PlayTurn {ρ : Type} (g : Game ρ) : Except String (Option TurnResult × Game ρ) :=
  match g.GetCurrentPlayer with
  | .error e => .error e
  | .ok none => .error "invalid memory address or nil pointer dereference"
  | .ok (some p) =>
    if p.GetType = RealPlayer then .ok (none, g)
    else
      match dartLoop g.Outs 3 0
          { sim := g.Simulator, p := p, totalScore := 0, currentScore := p.CurrentScore,
            results := [] } with
      | .error e => .error e
      | .ok (.ret r p1 sim) => .ok (some r, g.store p1 sim)
      | .ok (.next v) =>
        let p1 := { v.p with CurrentScore := v.currentScore }
        let g1 := { g.store p1 v.sim with Turn := g.Turn + 1 }
        match g1.NextPlayer with
        | .error e => .error e
        | .ok g2 =>
          .ok (some { Typ := ScoringTurn
                      PlayerName := p1.GetName
                      TotalScore := v.totalScore
                      Results := v.results
                      CurrentThreeDA :=
                        Float.ofInt p1.TotalPoints / Float.ofInt (Int.tdiv p1.Throws 3)
                      RemainingScore := p1.CurrentScore }, g2)

/-! ## `internal/api/api.go` (the score loop of `SubmitScore`) -/

/-- Modelled from the spec: the `model.TurnResult` that `SubmitScore` fills in
    is not declared among the sources; these are the four fields the handler
    sets (player name, total score, remaining score, average). -/
structure SubmittedTurn where
  PlayerName : String
  TotalScore : Int
  RemainingScore : Int
  ThreeDA : Float

/-- What the loop over `req.Scores` reads and writes: the player behind the
    pointer `player` and the locals `totalScore` and `won`. -/
structure SubmitVars where
  player : Player
  totalScore : Int
  won : Bool

/-- The values of Go's `int`, 64 bits wide. -/
def isInt64 (x : Int) : Prop := -9223372036854775808 ≤ x ∧ x ≤ 9223372036854775807

instance (x : Int) : Decidable (isInt64 x) := by
  unfold isInt64
  infer_instance

/-- An integer brought into the range of `int` the way Go's arithmetic wraps
    around: modulo `2^64`. -/
def wrap64 (x : Int) : Int :=
  (x + 9223372036854775808) % 18446744073709551616 - 9223372036854775808

/-- Go's `a + b` on `int`: the sum, wrapped around.  Operands outside the
    range are no values of `int`; for them the sum is left as it is. -/
def goAdd (a b : Int) : Int :=
  if isInt64 a ∧ isInt64 b then wrap64 (a + b) else a + b

/-- Go's `a - b` on `int`: the difference, wrapped around.  Operands outside
    the range are no values of `int`; for them the difference is left as it
    is. -/
def goSub (a b : Int) : Int :=
  if isInt64 a ∧ isInt64 b then wrap64 (a - b) else a - b

/-- The loop `for _, score := range req.Scores` of `SubmitScore`.  The scores
    come from the request unchecked, so the arithmetic is Go's, with its
    wrap-around. -/
def submitLoop : List Int → SubmitVars → SubmitVars
  | [], v => v
  | score :: rest, v =>
    let player := { v.player with CurrentScore := goSub v.player.CurrentScore score
                                  TotalPoints := goAdd v.player.TotalPoints score
                                  Throws := goAdd v.player.Throws 1 }
    let totalScore := goAdd v.totalScore score
    if player.CurrentScore ≤ 0 then
      { player := player, totalScore := totalScore, won := true }
    else
      submitLoop rest { player := player, totalScore := totalScore, won := v.won }

/-- The handler `SubmitScore` past request decoding and game lookup, on the
    game of `oh1/game.go` (the `model.Game01` the handler names is not among
    the sources; it has the same fields and methods).  It returns the turn
    result, the flag `won` and the game afterwards.  A failing `Start` ends the
    request with an HTTP error and changes nothing: that is `Except.error`
    too. -/
def SubmitScore {ρ : Type} (g : Game ρ) (scores : List Int) :
    Except String (SubmittedTurn × Bool × Game ρ) :=
  match g.Start with
  | .error e => .error ("Failed to start game: " ++ e)
  | .ok () =>
    match g.GetCurrentPlayer with
    | .error e => .error e
    | .ok none => .error "invalid memory address or nil pointer dereference"
    | .ok (some player) =>
      let v := submitLoop scores { player := player, totalScore := 0, won := false }
      let result : SubmittedTurn :=
        { PlayerName := v.player.GetName
          TotalScore := v.totalScore
          RemainingScore := v.player.CurrentScore
          ThreeDA := Float.ofInt v.totalScore / Float.ofNat scores.length }
      let g1 := { g with Players := g.Players.set g.CurrentPlayer.toNat v.player }
      if v.won then .ok (result, true, g1)
      else
        match ({ g1 with Turn := g1.Turn + 1 }).NextPlayer with
        | .error e => .error e
        | .ok g2 => .ok (result, false, g2)


/-! ## float64 arithmetic

A finite float64 value is the rational it denotes; NaN and the infinities are
left out.  A float64 sum, difference, product or quotient is the exact result
rounded to the nearest float64, a tie going to the even significand. -/

/-- The nearest integer, a half going to the even neighbour. -/
def roundHalfEven (y : ℚ) : Int :=
  if y - ⌊y⌋ < 1 / 2 then ⌊y⌋
  else if 1 / 2 < y - ⌊y⌋ then ⌊y⌋ + 1
  else if ⌊y⌋ % 2 = 0 then ⌊y⌋
  else ⌊y⌋ + 1

/-- The float64 nearest to a rational: a significand of 53 bits at the
    exponent of the value, or at the least exponent -1074 for the subnormal
    values.  The overflow to an infinity, from `2^1024` on, is left out. -/
def roundF64 (x : ℚ) : ℚ :=
  if x = 0 then 0
  else
    let e := max (Int.log 2 |x| - 52) (-1074)
    if 0 < x then roundHalfEven (x / 2 ^ e) * 2 ^ e
    else -(roundHalfEven (-x / 2 ^ e) * 2 ^ e)

/-! ## `internal/model/board.go` and `internal/model/simulation.go` (geometry)

The constants are the float64 values that the Go constants convert to, and
comparisons of float64 values are exact. -/

/-- The clockwise order of the numbers, from the top. -/
def Board : List Int :=
  [20, 1, 18, 4, 13, 6, 10, 15, 2, 17, 3, 19, 7, 16, 8, 11, 14, 9, 12, 5]

/-- The float64 value of the constant `6.35`, which is
    6.3499999999999996447286321199499070644378662109375. -/
def DoubleBullRadius : ℚ := 3574732204225331 / 562949953421312

/-- The float64 value of the constant `15.9`, which is
    15.9000000000000003552713678800500929355621337890625. -/
def SingleBullRadius : ℚ := 8950904259398861 / 562949953421312

def TripleInnerRadius : ℚ := 99
def TripleOuterRadius : ℚ := 107
def DoubleInnerRadius : ℚ := 162
def DoubleOuterRadius : ℚ := 170
def BoardRadius : ℚ := 170

/-- The float64 value of `math.Pi`, 3.141592653589793; `math.Atan2` returns
    angles from `-piF` to `piF`. -/
def piF : ℚ := 884279719003555 / 281474976710656

/-- The float64 value of the constant `2.0 * math.Pi`, 6.283185307179586. -/
def twoPi : ℚ := 884279719003555 / 140737488355328

/-- The float64 value of the constant `2.0 * math.Pi / 20.0`,
    0.3141592653589793. -/
def segmentAngle : ℚ := 176855943800711 / 562949953421312

/-- The loop `for angle < 0 { angle += 2.0 * math.Pi }`, for at most `fuel`
    passes; `none` when the loop is still running after them. -/
def raiseAngle : Nat → ℚ → Option ℚ
  | 0, angle => if angle < 0 then none else some angle
  | fuel + 1, angle =>
    if angle < 0 then raiseAngle fuel (roundF64 (angle + twoPi)) else some angle

/-- The loop `for angle >= 2.0*math.Pi { angle -= 2.0 * math.Pi }`, for at
    most `fuel` passes; `none` when the loop is still running after them. -/
def lowerAngle : Nat → ℚ → Option ℚ
  | 0, angle => if twoPi ≤ angle then none else some angle
  | fuel + 1, angle =>
    if twoPi ≤ angle then lowerAngle fuel (roundF64 (angle - twoPi)) else some angle

/-- Go's `math.Round`: the nearest integer, halves away from zero. -/
def goRound (x : ℚ) : Int :=
  if 0 ≤ x then round x else -round (-x)

/-- The number at a given angle, with at most `fuel` passes of each loop.
    `none` is a loop that has not come to its end; an index outside `Board`
    is the runtime panic. -/
def getNumberFromAngle (fuel : Nat) (angle : ℚ) : Option (Except String Int) :=
  match raiseAngle fuel angle with
  | none => none
  | some angle =>
    match lowerAngle fuel angle with
    | none => none
    | some angle =>
      let segmentIndex := Int.tmod (goRound (roundF64 (angle / segmentAngle))) 20
      if 0 ≤ segmentIndex then
        match Board[segmentIndex.toNat]? with
        | some number => some (.ok number)
        | none => some (.error "index out of range")
      else some (.error "index out of range")

/-- What was hit, from the radius and the angle of the landing point; `fuel`
    and `none` as in `getNumberFromAngle`. -/
def determineHit (fuel : Nat) (radius angle : ℚ) : Option (Except String DartResult) :=
  if radius ≤ DoubleBullRadius then
    some (.ok { Number := Bullseye, Multiplier := Double, Score := 50 })
  else if radius ≤ SingleBullRadius then
    some (.ok { Number := Bullseye, Multiplier := Single, Score := 25 })
  else if radius > BoardRadius then
    some (.ok { Number := 0, Multiplier := Miss, Score := 0 })
  else
    match getNumberFromAngle fuel angle with
    | none => none
    | some (.error e) => some (.error e)
    | some (.ok number) =>
      let multiplier :=
        if radius ≥ DoubleInnerRadius ∧ radius ≤ DoubleOuterRadius then Double
        else if radius ≥ TripleInnerRadius ∧ radius ≤ TripleOuterRadius then Triple
        else Single
      some (.ok { Number := number, Multiplier := multiplier, Score := number * multiplier })

/-! ## `internal/model/simulation.go` (angle table, aim radius, spread) -/

/-- The `angleMap` of a simulator, a Go `map[int]float64`: its bindings, the
    most recent assignment first. -/
abbrev AngleMap := List (Int × ℚ)

/-- The assignment `m[k] = v`. -/
def AngleMap.assign (m : AngleMap) (k : Int) (v : ℚ) : AngleMap := (k, v) :: m

/-- The lookup `v, ok := m[k]`; `none` stands for `ok == false`. -/
def AngleMap.find (m : AngleMap) (k : Int) : Option ℚ := List.lookup k m

/-- Pre-computes the angles of all numbers.  The Go method writes
    `s.angleMap`; here the map goes in and comes back.  The product of a
    position below 20 and the sector width is a float64 as it stands
    (`centre_product_exact`), so it is written without rounding. -/
def initializeDartboard (angleMap : AngleMap) : AngleMap :=
  (Board.enum.foldl (fun m e => m.assign e.2 ((e.1 : ℚ) * segmentAngle)) angleMap).assign
    Bullseye 0

/-- The `angleMap` of the simulator `NewSimulator` returns. -/
def newAngleMap : AngleMap := initializeDartboard []

/-- The centre angle of a number; the Go method only reads `s.angleMap`. -/
def getAngleForNumber (angleMap : AngleMap) (number : Int) : ℚ :=
  match angleMap.find number with
  | some angle => angle
  | none => 0

/-- The radius to aim at for a multiplier. -/
def getTargetRadius (multiplier : Multiplier) : ℚ :=
  if multiplier = Triple then (TripleInnerRadius + TripleOuterRadius) / 2
  else if multiplier = Double then (DoubleInnerRadius + DoubleOuterRadius) / 2
  else if multiplier = Single then (TripleOuterRadius + DoubleInnerRadius) / 2
  else (TripleInnerRadius + TripleOuterRadius) / 2

/-- What `ThrowDart` takes from outside the repository: the normal deviates
    of the random source, with the state the source is left in, and the
    functions of package `math`.  `math.Atan2` returns an angle from `-π` to
    `π`; that is recorded with the function. -/
structure ThrowEnv (ρ : Type) where
  NormFloat64 : ρ → ℚ × ρ
  Sin : ℚ → ℚ
  Cos : ℚ → ℚ
  Sqrt : ℚ → ℚ
  Atan2 : ℚ → ℚ → ℚ
  atan2_range : ∀ y x, -piF ≤ Atan2 y x ∧ Atan2 y x ≤ piF

/-- One simulated throw: the outcome at the landing point and the state the
    random source is left in.  The Go method reads `s.angleMap` and `s.rng`;
    here they are arguments, and `fuel` is passed on to `determineHit`.  Every
    arithmetic operation is rounded on its own. -/
def ThrowDart {ρ : Type} (env : ThrowEnv ρ) (angleMap : AngleMap) (fuel : Nat) (rng : ρ)
    (target : DartTarget) (spread : ℚ) : Option (Except String DartResult) × ρ :=
  if target.Number = Bullseye then
    let n1 := env.NormFloat64 rng
    let hitX := roundF64 (n1.1 * spread)
    let n2 := env.NormFloat64 n1.2
    let hitY := roundF64 (n2.1 * spread)
    let hitRadius := env.Sqrt (roundF64 (roundF64 (hitX * hitX) + roundF64 (hitY * hitY)))
    let hitAngle := env.Atan2 hitX hitY
    (determineHit fuel hitRadius hitAngle, n2.2)
  else
    let targetAngle := getAngleForNumber angleMap target.Number
    let targetRadius := getTargetRadius target.Multiplier
    let targetX := roundF64 (targetRadius * env.Sin targetAngle)
    let targetY := roundF64 (targetRadius * env.Cos targetAngle)
    let n1 := env.NormFloat64 rng
    let hitX := roundF64 (targetX + roundF64 (n1.1 * spread))
    let n2 := env.NormFloat64 n1.2
    let hitY := roundF64 (targetY + roundF64 (n2.1 * spread))
    let hitRadius := env.Sqrt (roundF64 (roundF64 (hitX * hitX) + roundF64 (hitY * hitY)))
    let hitAngle := env.Atan2 hitX hitY
    (determineHit fuel hitRadius hitAngle, n2.2)

/-- Converts a 3DA to a spread.  A float64 division by zero gives `+Inf`
    here (1800 over `+0`), which the upper clamp turns into 50: that case is
    spelled out, since a rational division has no infinity. -/
def calculateSpread (threeDA : ℚ) : ℚ :=
  let k : ℚ := 1800
  let offset : ℚ := 20
  if threeDA + offset = 0 then 50
  else
    let spread := k / (threeDA + offset)
    let spread := if spread < 5 then 5 else spread
    if spread > 50 then 50 else spread

/-! ## `internal/model/playerprofile.go` (`NewPlayer`) -/

/-- A new profile; the fresh identifier is an argument.  The Go literal sets
    `ID`, `Name`, `ThreeDA` and `ScoringPreference` and leaves `PlayerType` at
    its zero value. -/
def NewPlayer (id : UUID) (name : String) (threeDA : Float)
    (scoringPreference : ScoringPreference) : PlayerProfile :=
  { ID := id
    Name := name
    ThreeDA := threeDA
    ScoringPreference := scoringPreference
    PlayerType := 0 }

/-! ## Averages, with float64 read as rationals -/

/-- The value of `CurrentThreeDA`: the same expression as
    `Player.CurrentThreeDA`, with the integer division `p.Throws/3` of the
    source; `none` is the float64 division by zero (`±Inf` or `NaN`). -/
def Player.CurrentThreeDAValue (p : Player) : Option ℚ :=
  if p.Throws = 0 then some 0
  else if Int.tdiv p.Throws 3 = 0 then none
  else some ((p.TotalPoints : ℚ) / ((Int.tdiv p.Throws 3 : Int) : ℚ))

/-- The `AverageScore` that `buildGameStateResponse` of `api.go` reports. -/
def AverageScore (p : Player) : ℚ :=
  if p.Throws > 0 then (p.TotalPoints : ℚ) / (p.Throws : ℚ) * 3 else 0
/-! ## Specification-side vocabulary -/

/-- The scores in 2..170 that the chart leaves without a checkout. -/
def chartGaps : List Int := [159, 162, 163, 165, 166, 168, 169]

/-- Boolean form of "the chart entry for `s` is a well-formed checkout". -/
def checkoutOk (s : Int) : Bool :=
  match NewOutChart.GetOut s with
  | some out =>
    out.Score == s && decide (1 ≤ out.Targets.length) && decide (out.Targets.length ≤ 3) &&
      (out.Targets.map DartTarget.value).sum == s &&
      (out.Targets.getLast?.map (fun t => t.Multiplier)) == some Double
  | none => false

/-- The aiming target used when the chart has nothing for the score. -/
def defaultTarget (preference : ScoringPreference) : DartTarget :=
  if preference = NinteensScoringPreference then
    { Multiplier := Triple, Number := Nineteen }
  else
    { Multiplier := Triple, Number := Twenty }


/-- The simulator of game `g`, with its random source in state `rng`, answers
    the throw that player `p` makes from remaining score `score` with the
    outcome `d` and leaves the source in state `rng1`. -/
def SimulatorReturns {ρ : Type} (g : Game ρ) (p : Player) (rng : ρ) (score : Int)
    (d : DartResult) (rng1 : ρ) : Prop :=
  ∀ t, g.Outs.GetNextTarget score p.GetScoringPreference = .ok t →
    g.Simulator.sample rng t p.GetSpread = (d, rng1)

/-- The bust rule: the candidate `c` left by outcome `d` is below zero, is one,
    or is zero off a ring that is not Double. -/
def IsBust (c : Int) (d : DartResult) : Prop :=
  c < 0 ∨ c = 1 ∨ (c = 0 ∧ d.Multiplier ≠ Double)

/-- The win rule: the candidate is zero off a Double. -/
def IsWin (c : Int) (d : DartResult) : Prop :=
  c = 0 ∧ d.Multiplier = Double

/-- The turn stopped at outcome `d`, the last of the darts `ds`, which left
    candidate `c`: a Win or a Bust as the rules say, never a Scoring turn. -/
def StopsAt (r : TurnResult) (ds : List DartResult) (c : Int) (d : DartResult) : Prop :=
  r.Results = ds ∧ (r.Typ = WinTurn ↔ IsWin c d) ∧ (r.Typ = BustTurn ↔ IsBust c d) ∧
    r.Typ ≠ ScoringTurn

/-- The player after outcome `d` has been counted in the statistics. -/
def Player.scored (p : Player) (d : DartResult) : Player :=
  { p with TotalPoints := p.TotalPoints + d.Score, Throws := p.Throws + 1 }

/-- The condition of the bust branch, as the code writes it. -/
def bustCond (c : Int) (d : DartResult) : Prop :=
  c < 0 ∨ (c = 0 ∧ d.Multiplier ≠ Double) ∨ c = 1

instance (c : Int) (d : DartResult) : Decidable (bustCond c d) := by
  unfold bustCond
  infer_instance

/-- The record returned from the bust branch. -/
def bustResult (p : Player) (results : List DartResult) (totalScore : Int) : TurnResult :=
  { Typ := BustTurn
    PlayerName := p.GetName
    Results := results
    TotalScore := totalScore
    CurrentThreeDA := p.CurrentThreeDA
    RemainingScore := 0 }

/-- The record returned from the win branch. -/
def winResult (p : Player) (results : List DartResult) (totalScore currentScore : Int) :
    TurnResult :=
  { Typ := WinTurn
    PlayerName := p.GetName
    Results := results
    TotalScore := totalScore
    CurrentThreeDA := p.CurrentThreeDA
    RemainingScore := currentScore }

/-- The record returned after three darts. -/
def scoringResult (p : Player) (results : List DartResult) (totalScore : Int) : TurnResult :=
  { Typ := ScoringTurn
    PlayerName := p.GetName
    TotalScore := totalScore
    Results := results
    CurrentThreeDA := Float.ofInt p.TotalPoints / Float.ofInt (Int.tdiv p.Throws 3)
    RemainingScore := p.CurrentScore }

/-- The simulator with its random source moved to state `rng`. -/
def Simulator.at {ρ : Type} (s : Simulator ρ) (rng : ρ) : Simulator ρ :=
  { s with rng := rng }

/-- The player with `c` committed as the remaining score. -/
def Player.commit (p : Player) (c : Int) : Player :=
  { p with CurrentScore := c }

/-- The game after the turn counter and the rotation have moved on. -/
def Game.advance {ρ : Type} (g : Game ρ) : Game ρ :=
  { g with
    Turn := g.Turn + 1
    CurrentPlayer := Int.tmod (g.CurrentPlayer + 1) g.Players.length }

/-- Normal form of `PlayTurn` for a simulated player `p` whose three throws
    the simulator answers with `d1`, `d2`, `d3` (moving its random source to
    `s1`, `s2`, `s3`): the result and the game after the call, by the first
    dart at which the loop returns. -/
def turnOutcome {ρ : Type} (g : Game ρ) (p : Player) (d1 d2 d3 : DartResult) (s1 s2 s3 : ρ) :
    Option TurnResult × Game ρ :=
  let c1 := p.CurrentScore - d1.Score
  let c2 := c1 - d2.Score
  let c3 := c2 - d3.Score
  let p1 := p.scored d1
  let p2 := p1.scored d2
  let p3 := p2.scored d3
  if bustCond c1 d1 then
    (some (bustResult p [d1] 0), g.store p (g.Simulator.at s1))
  else if c1 = 0 then
    (some (winResult p1 [d1] (0 + d1.Score) c1), g.store p1 (g.Simulator.at s1))
  else if bustCond c2 d2 then
    (some (bustResult p1 [d1, d2] (0 + d1.Score)), g.store p1 (g.Simulator.at s2))
  else if c2 = 0 then
    (some (winResult p2 [d1, d2] (0 + d1.Score + d2.Score) c2), g.store p2 (g.Simulator.at s2))
  else if bustCond c3 d3 then
    (some (bustResult p2 [d1, d2, d3] (0 + d1.Score + d2.Score)),
      g.store p2 (g.Simulator.at s3))
  else if c3 = 0 then
    (some (winResult p3 [d1, d2, d3] (0 + d1.Score + d2.Score + d3.Score) c3),
      g.store p3 (g.Simulator.at s3))
  else
    (some (scoringResult (p3.commit c3) [d1, d2, d3] (0 + d1.Score + d2.Score + d3.Score)),
      (g.store (p3.commit c3) (g.Simulator.at s3)).advance)

/-! ## Concrete games for the examples -/

/-- A simulator with injected deterministic randomness: its random source is
    the list of outcomes still to come, and each throw lands the next one
    (a miss once the list is used up). -/
def tapeSimulator (tape : List DartResult) : Simulator (List DartResult) :=
  { rng := tape
    sample := fun rest _ _ =>
      (rest.headD { Multiplier := Miss, Number := 0, Score := 0 }, rest.tail) }

/-- The profile of a simulated player who prefers the twenties. -/
def simProfile : PlayerProfile :=
  { ID := 1
    Name := "Sim"
    PlayerType := SimulatedPlayer
    ThreeDA := 60.0
    ScoringPreference := TwentiesScoringPreference }

/-- A game from `start` with one simulated player and the given outcomes to
    come. -/
def soloGame (start : Int) (tape : List DartResult) : Game (List DartResult) :=
  (New01Game 0 (tapeSimulator tape) start).AddPlayer simProfile

/-- A game from `start` with two simulated players and the given outcomes to
    come. -/
def duoGame (start : Int) (tape : List DartResult) : Game (List DartResult) :=
  ((New01Game 0 (tapeSimulator tape) start).AddPlayer simProfile).AddPlayer
    { simProfile with ID := 2, Name := "Sam" }

def S20 : DartResult := { Multiplier := Single, Number := 20, Score := 20 }
def S1 : DartResult := { Multiplier := Single, Number := 1, Score := 1 }
def S5 : DartResult := { Multiplier := Single, Number := 5, Score := 5 }
def D10 : DartResult := { Multiplier := Double, Number := 10, Score := 20 }
def T20 : DartResult := { Multiplier := Triple, Number := 20, Score := 60 }
def D25 : DartResult := { Multiplier := Double, Number := 25, Score := 50 }

/-! ## Reachable states -/

/-- The games reachable from a new game on `start` through `AddPlayer`,
    `PlayTurn` and those `SubmitScore` calls that `allowed` lets through. -/
inductive ReachableVia {ρ : Type} (allowed : Game ρ → List Int → Prop) (start : Int) :
    Game ρ → Prop where
  | new (id : UUID) (sim : Simulator ρ) : ReachableVia allowed start (New01Game id sim start)
  | addPlayer {g : Game ρ} (profile : PlayerProfile) :
      ReachableVia allowed start g → ReachableVia allowed start (g.AddPlayer profile)
  | playTurn {g g1 : Game ρ} {res : Option TurnResult} :
      ReachableVia allowed start g → g.PlayTurn = .ok (res, g1) → ReachableVia allowed start g1
  | submitScore {g g1 : Game ρ} {scores : List Int} {res : SubmittedTurn} {won : Bool} :
      ReachableVia allowed start g → allowed g scores →
      SubmitScore g scores = .ok (res, won, g1) → ReachableVia allowed start g1

/-- No score submission is allowed: play through `AddPlayer` and `PlayTurn`
    only. -/
def noSubmission {ρ : Type} : Game ρ → List Int → Prop := fun _ _ => False

/-- Every score submission is allowed. -/
def anySubmission {ρ : Type} : Game ρ → List Int → Prop := fun _ _ => True

/-- A submission of non-negative scores that add up to no more than the
    current player's remaining score. -/
def withinScore {ρ : Type} : Game ρ → List Int → Prop := fun g scores =>
  (∀ s ∈ scores, 0 ≤ s) ∧
    ∃ p, g.GetCurrentPlayer = .ok (some p) ∧ scores.sum ≤ p.CurrentScore

/-- The simulator never reports a negative score. -/
def NonnegScores {ρ : Type} (sim : Simulator ρ) : Prop :=
  ∀ rng t spread, 0 ≤ (sim.sample rng t spread).1.Score

/-- A real player's profile. -/
def realProfile : PlayerProfile :=
  { ID := 3
    Name := "Real"
    PlayerType := RealPlayer
    ThreeDA := 60.0
    ScoringPreference := TwentiesScoringPreference }

/-- A game from `start` with one real player. -/
def realGame (start : Int) : Game (List DartResult) :=
  (New01Game 0 (tapeSimulator []) start).AddPlayer realProfile

/-- No running value of the score loop of `SubmitScore` leaves the range of
    `int`: the remaining score, the points, the throws and the turn total
    after each of the submitted scores. -/
def StaysInt64 (p : Player) (scores : List Int) : Prop :=
  ∀ j, 1 ≤ j → j ≤ scores.length →
    isInt64 (p.CurrentScore - (scores.take j).sum) ∧
    isInt64 (p.TotalPoints + (scores.take j).sum) ∧
    isInt64 (p.Throws + j) ∧
    isInt64 ((scores.take j).sum)

/-! ## Landing points -/

/-- The ring of a landing point on the numbered part of the board, by its
    radius: Double from 162 to 170, Triple from 99 to 107, Single otherwise. -/
def ringOf (radius : ℚ) : Multiplier :=
  if 162 ≤ radius ∧ radius ≤ 170 then Double
  else if 99 ≤ radius ∧ radius ≤ 107 then Triple
  else Single

/-- An outcome whose score is number times multiplier and whose ring and
    number go together: Miss with 0, a ring with a number from 1 to 20, or
    Single or Double with the bullseye. -/
def ValidOutcome (d : DartResult) : Prop :=
  d.Score = d.Number * d.Multiplier ∧
    ((d.Multiplier = Miss ∧ d.Number = 0) ∨
      ((d.Multiplier = Single ∨ d.Multiplier = Double ∨ d.Multiplier = Triple) ∧
        1 ≤ d.Number ∧ d.Number ≤ 20) ∨
      ((d.Multiplier = Single ∨ d.Multiplier = Double) ∧ d.Number = 25))

/-- Library functions for examples: no deviation, and every landing point
    straight up at the given radius. -/
def straightUpEnv (radius : ℚ) : ThrowEnv Unit :=
  { NormFloat64 := fun _ => (0, ())
    Sin := fun _ => 0
    Cos := fun _ => 1
    Sqrt := fun _ => radius
    Atan2 := fun _ _ => 0
    atan2_range := fun _ _ => by
      unfold piF
      norm_num }

/-- The float64 angle -0.15707963267948968, one unit of the last place past
    half a sector width anticlockwise of the top. -/
def tieAngle : ℚ := -5659390201622753 / 36028797018963968

/-! ## Rotation and roster -/

/-- The games reachable from a new game through `AddPlayer`, `NextPlayer` and
    `PlayTurn`. -/
inductive ReachableRotating {ρ : Type} (start : Int) : Game ρ → Prop where
  | new (id : UUID) (sim : Simulator ρ) : ReachableRotating start (New01Game id sim start)
  | addPlayer {g : Game ρ} (profile : PlayerProfile) :
      ReachableRotating start g → ReachableRotating start (g.AddPlayer profile)
  | nextPlayer {g g1 : Game ρ} :
      ReachableRotating start g → g.NextPlayer = .ok g1 → ReachableRotating start g1
  | playTurn {g g1 : Game ρ} {res : Option TurnResult} :
      ReachableRotating start g → g.PlayTurn = .ok (res, g1) → ReachableRotating start g1

/-- `k` successive `NextPlayer` calls. -/
def nextPlayerTimes {ρ : Type} : Nat → Game ρ → Except String (Game ρ)
  | 0, g => .ok g
  | k + 1, g =>
    match g.NextPlayer with
    | .error e => .error e
    | .ok g1 => nextPlayerTimes k g1

/-- The games reachable from a new game through `PlayTurn` and `AddPlayer`
    of profiles that `NewPlayer` returned. -/
inductive ReachableNewPlayers {ρ : Type} (start : Int) : Game ρ → Prop where
  | new (id : UUID) (sim : Simulator ρ) : ReachableNewPlayers start (New01Game id sim start)
  | addPlayer {g : Game ρ} (id : UUID) (name : String) (threeDA : Float)
      (scoringPreference : ScoringPreference) :
      ReachableNewPlayers start g →
      ReachableNewPlayers start (g.AddPlayer (NewPlayer id name threeDA scoringPreference))
  | playTurn {g g1 : Game ρ} {res : Option TurnResult} :
      ReachableNewPlayers start g → g.PlayTurn = .ok (res, g1) → ReachableNewPlayers start g1

/-- The message of the panic in `GetNextTarget`. -/
def scorePanic : String := "Score less than 2, cannot checkout - something is busted"

/-- The game of `main.go`: 401 with Alice and Anthony from `NewPlayer`. -/
def mainGame : Game (List DartResult) :=
  ((New01Game 0 (tapeSimulator [T20, T20, T20]) 401).AddPlayer
    (NewPlayer 1 "Alice" 32.0 TwentiesScoringPreference)).AddPlayer
    (NewPlayer 2 "Anthony" 50.0 TwentiesScoringPreference)

/-! ## The checkout chart -/

set_option maxRecDepth 100000 in
theorem checkoutOk_range :
    ∀ n ∈ List.range 171, 2 ≤ n → (n : Int) ∉ chartGaps → checkoutOk (n : Int) = true := by
  decide

set_option maxRecDepth 100000 in
theorem getOut_range :
    ∀ n ∈ List.range 171,
      ((NewOutChart.GetOut (n : Int)).isSome = true ↔ (2 ≤ n ∧ (n : Int) ∉ chartGaps)) := by
  decide

set_option maxRecDepth 100000 in
theorem chart_keys_range : ∀ e ∈ NewOutChart.outs, 2 ≤ e.1 ∧ e.1 ≤ 170 := by
  decide

theorem getOut_none_of_outside (score : Int) (h : score < 2 ∨ 170 < score) :
    NewOutChart.GetOut score = none := by
  have hl : NewOutChart.outs.find score = none := by
    unfold OutMap.find
    rw [List.lookup_eq_none_iff]
    intro p hp
    have hr := chart_keys_range p hp
    simp only [bne_iff_ne, ne_eq]
    omega
  simp [OutChart.GetOut, hl]

theorem int_eq_toNat_of_range (s : Int) (h0 : 0 ≤ s) (h170 : s ≤ 170) :
    ((s.toNat : Nat) : Int) = s ∧ s.toNat ∈ List.range 171 := by
  refine ⟨Int.toNat_of_nonneg h0, ?_⟩
  rw [List.mem_range]
  omega

/-- C1: every score from 2 to 170 outside the seven gaps has a chart entry
    whose `Score` is that score, with one to three targets whose values add up
    to the score and whose last target is a Double. -/
theorem chart_entry_checks_out (s : Int) (h2 : 2 ≤ s) (h170 : s ≤ 170)
    (hgap : s ∉ chartGaps) :
    ∃ out last, NewOutChart.GetOut s = some out ∧ out.Score = s ∧
      1 ≤ out.Targets.length ∧ out.Targets.length ≤ 3 ∧
      (out.Targets.map DartTarget.value).sum = s ∧
      out.Targets.getLast? = some last ∧ last.Multiplier = Double := by
  obtain ⟨hs, hmem⟩ := int_eq_toNat_of_range s (by omega) h170
  have hchk := checkoutOk_range s.toNat hmem (by omega) (by rw [hs]; exact hgap)
  rw [hs] at hchk
  unfold checkoutOk at hchk
  cases hg : NewOutChart.GetOut s with
  | none => rw [hg] at hchk; simp at hchk
  | some out =>
    rw [hg] at hchk
    simp only [Bool.and_eq_true, beq_iff_eq, decide_eq_true_eq] at hchk
    obtain ⟨⟨⟨⟨hsc, hlen1⟩, hlen3⟩, hsum⟩, hlast⟩ := hchk
    cases hl : out.Targets.getLast? with
    | none => rw [hl] at hlast; simp at hlast
    | some last =>
      rw [hl] at hlast
      simp only [Option.map_some', Option.some.injEq] at hlast
      exact ⟨out, last, rfl, hsc, hlen1, hlen3, hsum, hl, hlast⟩

/-- Witness for C1 at the highest checkout, 170. -/
theorem chart_entry_checks_out_witness :
    ∃ out last, NewOutChart.GetOut 170 = some out ∧ out.Score = 170 ∧
      1 ≤ out.Targets.length ∧ out.Targets.length ≤ 3 ∧
      (out.Targets.map DartTarget.value).sum = 170 ∧
      out.Targets.getLast? = some last ∧ last.Multiplier = Double :=
  chart_entry_checks_out 170 (by decide) (by decide) (by decide)

/-- C2: `GetOut` on the chart of `NewOutChart` finds an entry exactly for the
    scores from 2 to 170 that are not one of the seven gaps. -/
theorem getOut_isSome_iff (score : Int) :
    NewOutChart.GetOut score ≠ none ↔
      (2 ≤ score ∧ score ≤ 170 ∧ score ∉ chartGaps) := by
  by_cases hr : 0 ≤ score ∧ score ≤ 170
  · obtain ⟨hs, hmem⟩ := int_eq_toNat_of_range score hr.1 hr.2
    have h := getOut_range score.toNat hmem
    rw [hs] at h
    rw [← Option.isSome_iff_ne_none, h]
    constructor
    · rintro ⟨h2, hg⟩
      exact ⟨by omega, hr.2, hg⟩
    · rintro ⟨h2, _, hg⟩
      exact ⟨by omega, hg⟩
  · have hnone := getOut_none_of_outside score (by omega)
    constructor
    · intro h; exact absurd hnone h
    · rintro ⟨h2, h170, _⟩; omega


set_option maxRecDepth 100000 in
theorem chart_targets_nonempty : ∀ e ∈ NewOutChart.outs, e.2.Targets ≠ [] := by
  decide

theorem mem_of_lookup_eq_some {k : Int} {v : Out} :
    ∀ {l : List (Int × Out)}, List.lookup k l = some v → (k, v) ∈ l
  | [], h => by simp at h
  | (k', v') :: l, h => by
    rw [List.lookup_cons] at h
    by_cases hk : k = k'
    · subst hk
      simp at h
      simp [h]
    · have hb : (k == k') = false := by simpa using hk
      rw [hb] at h
      exact List.mem_cons_of_mem _ (mem_of_lookup_eq_some h)

theorem getOut_targets_nonempty {score : Int} {out : Out}
    (h : NewOutChart.GetOut score = some out) : out.Targets ≠ [] := by
  have hl : NewOutChart.outs.find score = some out := by
    unfold OutChart.GetOut at h
    split at h
    · rename_i o ho; rw [ho]; exact h
    · simp at h
  exact chart_targets_nonempty _ (mem_of_lookup_eq_some hl)

theorem getNextTarget_of_entry (oc : OutChart) (score : Int) (preference : ScoringPreference)
    (h2 : 2 ≤ score) (out : Out) (t : DartTarget) (rest : List DartTarget)
    (hout : oc.GetOut score = some out) (ht : out.Targets = t :: rest) :
    oc.GetNextTarget score preference = .ok t := by
  unfold OutChart.GetNextTarget
  rw [if_neg (by omega), hout]
  cases out with
  | mk sc ts =>
    simp only at ht
    subst ht
    rfl

theorem getNextTarget_of_none (oc : OutChart) (score : Int) (preference : ScoringPreference)
    (h2 : 2 ≤ score) (hout : oc.GetOut score = none) :
    oc.GetNextTarget score preference = .ok (defaultTarget preference) := by
  unfold OutChart.GetNextTarget defaultTarget
  rw [if_neg (by omega), hout]
  simp only
  by_cases h0 : preference = TwentiesScoringPreference
  · have h1 : ¬ preference = NinteensScoringPreference := by
      rw [h0]; decide
    rw [if_pos h0, if_neg h1]
  · rw [if_neg h0]
    by_cases h1 : preference = NinteensScoringPreference
    · rw [if_pos h1, if_pos h1]
    · rw [if_neg h1, if_neg h1]

/-- C3: for a score of at least 2, `GetNextTarget` on the chart of
    `NewOutChart` returns the first target of the entry `GetOut` finds; when
    `GetOut` finds none it returns Triple 19 for the nineteens preference and
    Triple 20 for every other preference value. -/
theorem getNextTarget_first_or_default (score : Int) (preference : ScoringPreference)
    (h2 : 2 ≤ score) :
    (∀ out, NewOutChart.GetOut score = some out →
      ∃ t, out.Targets.head? = some t ∧
        NewOutChart.GetNextTarget score preference = .ok t) ∧
    (NewOutChart.GetOut score = none →
      (preference = NinteensScoringPreference →
        NewOutChart.GetNextTarget score preference =
          .ok { Multiplier := Triple, Number := Nineteen }) ∧
      (preference ≠ NinteensScoringPreference →
        NewOutChart.GetNextTarget score preference =
          .ok { Multiplier := Triple, Number := Twenty })) := by
  constructor
  · intro out hout
    have hne := getOut_targets_nonempty hout
    cases hts : out.Targets with
    | nil => exact absurd hts hne
    | cons t rest =>
      exact ⟨t, rfl, getNextTarget_of_entry _ score preference h2 out t rest hout hts⟩
  · intro hnone
    have h := getNextTarget_of_none NewOutChart score preference h2 hnone
    constructor
    · intro hp
      rw [h, defaultTarget, if_pos hp]
    · intro hp
      rw [h, defaultTarget, if_neg hp]

/-- Witness for C3 at score 171 (no entry) with the twenties preference. -/
theorem getNextTarget_first_or_default_witness :
    (∀ out, NewOutChart.GetOut 171 = some out →
      ∃ t, out.Targets.head? = some t ∧
        NewOutChart.GetNextTarget 171 TwentiesScoringPreference = .ok t) ∧
    (NewOutChart.GetOut 171 = none →
      (TwentiesScoringPreference = NinteensScoringPreference →
        NewOutChart.GetNextTarget 171 TwentiesScoringPreference =
          .ok { Multiplier := Triple, Number := Nineteen }) ∧
      (TwentiesScoringPreference ≠ NinteensScoringPreference →
        NewOutChart.GetNextTarget 171 TwentiesScoringPreference =
          .ok { Multiplier := Triple, Number := Twenty })) :=
  getNextTarget_first_or_default 171 TwentiesScoringPreference (by decide)

theorem getNextTarget_ok_of_ge (oc : OutChart) (score : Int) (preference : ScoringPreference)
    (h2 : 2 ≤ score) : ∃ t, oc.GetNextTarget score preference = .ok t := by
  cases hout : oc.GetOut score with
  | none => exact ⟨_, getNextTarget_of_none oc score preference h2 hout⟩
  | some out =>
    cases hts : out.Targets with
    | cons t rest => exact ⟨t, getNextTarget_of_entry oc score preference h2 out t rest hout hts⟩
    | nil =>
      refine ⟨defaultTarget preference, ?_⟩
      unfold OutChart.GetNextTarget defaultTarget
      rw [if_neg (by omega), hout]
      cases out with
      | mk sc ts =>
        simp only at hts
        subst hts
        simp only
        by_cases h0 : preference = TwentiesScoringPreference
        · have h1 : ¬ preference = NinteensScoringPreference := by
            rw [h0]; decide
          rw [if_pos h0, if_neg h1]
        · rw [if_neg h0]
          by_cases h1 : preference = NinteensScoringPreference
          · rw [if_pos h1, if_pos h1]
          · rw [if_neg h1, if_neg h1]

theorem getNextTarget_error_of_lt (oc : OutChart) (score : Int) (preference : ScoringPreference)
    (h2 : score < 2) :
    oc.GetNextTarget score preference =
      .error "Score less than 2, cannot checkout - something is busted" := by
  unfold OutChart.GetNextTarget
  rw [if_pos h2]

/-- C4: `GetNextTarget` panics exactly when the score is below 2; for a score
    below 2 it returns no target, and for a score of at least 2 it returns a
    target, on any chart and for any preference. -/
theorem getNextTarget_panics_iff (oc : OutChart) (score : Int)
    (preference : ScoringPreference) :
    ((∃ msg, oc.GetNextTarget score preference = .error msg) ↔ score < 2) ∧
    ((∃ t, oc.GetNextTarget score preference = .ok t) ↔ 2 ≤ score) := by
  by_cases h : score < 2
  · have he := getNextTarget_error_of_lt oc score preference h
    refine ⟨⟨fun _ => h, fun _ => ⟨_, he⟩⟩, ⟨?_, fun h2 => by omega⟩⟩
    rintro ⟨t, ht⟩
    rw [he] at ht
    cases ht
  · obtain ⟨t, ht⟩ := getNextTarget_ok_of_ge oc score preference (by omega)
    refine ⟨⟨?_, fun h2 => absurd h2 h⟩, ⟨fun _ => by omega, fun _ => ⟨t, ht⟩⟩⟩
    rintro ⟨msg, hm⟩
    rw [ht] at hm
    cases hm

/-! ## The turn state machine -/

theorem dartBody_of_sample {ρ : Type} (outs : OutChart) (dart : Int) (v : TurnVars ρ)
    (d : DartResult) (rng1 : ρ) (h2 : 2 ≤ v.currentScore)
    (hs : ∀ t, outs.GetNextTarget v.currentScore v.p.GetScoringPreference = .ok t →
      v.sim.sample v.sim.rng t v.p.GetSpread = (d, rng1)) :
    dartBody outs dart v =
      if bustCond (v.currentScore - d.Score) d then
        .ok (.ret (bustResult v.p (v.results ++ [d]) v.totalScore) v.p (v.sim.at rng1))
      else if v.currentScore - d.Score = 0 then
        .ok (.ret (winResult (v.p.scored d) (v.results ++ [d]) (v.totalScore + d.Score)
          (v.currentScore - d.Score)) (v.p.scored d) (v.sim.at rng1))
      else
        .ok (.next { sim := v.sim.at rng1
                     p := v.p.scored d
                     totalScore := v.totalScore + d.Score
                     currentScore := v.currentScore - d.Score
                     results := v.results ++ [d] }) := by
  obtain ⟨t, ht⟩ := getNextTarget_ok_of_ge outs v.currentScore v.p.GetScoringPreference h2
  have hst := hs t ht
  unfold dartBody Game.ThrowDart
  rw [ht]
  simp only [Simulator.ThrowDart, hst]
  rfl

theorem ge_two_of_continue {c : Int} {d : DartResult} (hb : ¬ bustCond c d) (h0 : ¬ c = 0) :
    2 ≤ c := by
  unfold bustCond at hb
  omega

theorem players_ne_nil_of_current {ρ : Type} {g : Game ρ} {p : Player}
    (hp : g.GetCurrentPlayer = .ok (some p)) :
    ¬ g.Players.length = 0 ∧ 0 ≤ g.CurrentPlayer ∧
      g.Players[g.CurrentPlayer.toNat]? = some p := by
  unfold Game.GetCurrentPlayer at hp
  by_cases hl : g.Players.length = 0
  · rw [if_pos hl] at hp
    cases hp
  · rw [if_neg hl] at hp
    by_cases hc : 0 ≤ g.CurrentPlayer
    · rw [if_pos hc] at hp
      cases hq : g.Players[g.CurrentPlayer.toNat]? with
      | none => rw [hq] at hp; cases hp
      | some q =>
        rw [hq] at hp
        simp only [Except.ok.injEq, Option.some.injEq] at hp
        exact ⟨hl, hc, by rw [hp]⟩
    · rw [if_neg hc] at hp
      cases hp

theorem playTurn_eq {ρ : Type} (g : Game ρ) (p : Player) (d1 d2 d3 : DartResult)
    (s1 s2 s3 : ρ)
    (hp : g.GetCurrentPlayer = .ok (some p)) (hsim : p.GetType ≠ RealPlayer)
    (hR : 2 ≤ p.CurrentScore)
    (h1 : SimulatorReturns g p g.Simulator.rng p.CurrentScore d1 s1)
    (h2 : SimulatorReturns g p s1 (p.CurrentScore - d1.Score) d2 s2)
    (h3 : SimulatorReturns g p s2 (p.CurrentScore - d1.Score - d2.Score) d3 s3) :
    g.PlayTurn = .ok (turnOutcome g p d1 d2 d3 s1 s2 s3) := by
  have hlen := (players_ne_nil_of_current hp).1
  unfold Game.PlayTurn turnOutcome
  rw [hp]
  simp only [if_neg hsim]
  rw [dartLoop, dartBody_of_sample g.Outs 0
    { sim := g.Simulator, p := p, totalScore := 0, currentScore := p.CurrentScore,
      results := [] } d1 s1 hR h1]
  by_cases hb1 : bustCond (p.CurrentScore - d1.Score) d1
  · simp only [if_pos hb1]
    rfl
  simp only [if_neg hb1]
  by_cases hw1 : p.CurrentScore - d1.Score = 0
  · simp only [if_pos hw1]
    rfl
  simp only [if_neg hw1]
  rw [dartLoop, dartBody_of_sample g.Outs (0 + 1)
    { sim := g.Simulator.at s1, p := p.scored d1, totalScore := 0 + d1.Score,
      currentScore := p.CurrentScore - d1.Score, results := [] ++ [d1] } d2 s2
    (ge_two_of_continue hb1 hw1) h2]
  by_cases hb2 : bustCond (p.CurrentScore - d1.Score - d2.Score) d2
  · simp only [if_pos hb2]
    rfl
  simp only [if_neg hb2]
  by_cases hw2 : p.CurrentScore - d1.Score - d2.Score = 0
  · simp only [if_pos hw2]
    rfl
  simp only [if_neg hw2]
  rw [dartLoop, dartBody_of_sample g.Outs (0 + 1 + 1)
    { sim := (g.Simulator.at s1).at s2, p := (p.scored d1).scored d2,
      totalScore := 0 + d1.Score + d2.Score,
      currentScore := p.CurrentScore - d1.Score - d2.Score,
      results := [] ++ [d1] ++ [d2] } d3 s3
    (ge_two_of_continue hb2 hw2) h3]
  by_cases hb3 : bustCond (p.CurrentScore - d1.Score - d2.Score - d3.Score) d3
  · simp only [if_pos hb3]
    rfl
  simp only [if_neg hb3]
  by_cases hw3 : p.CurrentScore - d1.Score - d2.Score - d3.Score = 0
  · simp only [if_pos hw3]
    rfl
  simp only [if_neg hw3]
  simp only [dartLoop, Game.NextPlayer, Game.store, Game.advance, List.length_set, if_neg hlen]
  rfl

theorem simulatorReturns_exists {ρ : Type} (g : Game ρ) (p : Player) (rng : ρ) (score : Int) :
    ∃ d rng1, SimulatorReturns g p rng score d rng1 := by
  cases ht : g.Outs.GetNextTarget score p.GetScoringPreference with
  | error e =>
    refine ⟨⟨⟨0, 0⟩, 0⟩, rng, ?_⟩
    intro t h
    rw [ht] at h
    cases h
  | ok t0 =>
    refine ⟨(g.Simulator.sample rng t0 p.GetSpread).1,
      (g.Simulator.sample rng t0 p.GetSpread).2, ?_⟩
    intro t h
    rw [ht] at h
    cases h
    rfl

theorem playTurn_error_of_lt {ρ : Type} (g : Game ρ) (p : Player)
    (hp : g.GetCurrentPlayer = .ok (some p)) (hsim : p.GetType ≠ RealPlayer)
    (hR : p.CurrentScore < 2) :
    g.PlayTurn = .error "Score less than 2, cannot checkout - something is busted" := by
  unfold Game.PlayTurn
  rw [hp]
  simp only [if_neg hsim]
  simp only [dartLoop, dartBody, Game.ThrowDart,
    getNextTarget_error_of_lt g.Outs p.CurrentScore p.GetScoringPreference hR]

theorem playTurn_real {ρ : Type} (g : Game ρ) (p : Player)
    (hp : g.GetCurrentPlayer = .ok (some p)) (hreal : p.GetType = RealPlayer) :
    g.PlayTurn = .ok (none, g) := by
  unfold Game.PlayTurn
  rw [hp]
  simp only [if_pos hreal]

theorem current_of_playTurn_ok {ρ : Type} {g : Game ρ} {x : Option TurnResult × Game ρ}
    (h : g.PlayTurn = .ok x) : ∃ p, g.GetCurrentPlayer = .ok (some p) := by
  unfold Game.PlayTurn at h
  cases hc : g.GetCurrentPlayer with
  | error e => rw [hc] at h; cases h
  | ok o =>
    cases o with
    | none => rw [hc] at h; cases h
    | some p => exact ⟨p, rfl⟩

/-- Every result that `PlayTurn` returns is described by `turnOutcome`. -/
theorem playTurn_cases {ρ : Type} {g g1 : Game ρ} {r : TurnResult}
    (h : g.PlayTurn = .ok (some r, g1)) :
    ∃ p d1 d2 d3 s1 s2 s3, g.GetCurrentPlayer = .ok (some p) ∧ p.GetType ≠ RealPlayer ∧
      2 ≤ p.CurrentScore ∧ (some r, g1) = turnOutcome g p d1 d2 d3 s1 s2 s3 := by
  obtain ⟨p, hp⟩ := current_of_playTurn_ok h
  have hsim : p.GetType ≠ RealPlayer := by
    intro hreal
    rw [playTurn_real g p hp hreal] at h
    cases h
  have hR : 2 ≤ p.CurrentScore := by
    by_contra hlt
    rw [playTurn_error_of_lt g p hp hsim (by omega)] at h
    cases h
  obtain ⟨d1, s1, h1⟩ := simulatorReturns_exists g p g.Simulator.rng p.CurrentScore
  obtain ⟨d2, s2, h2⟩ := simulatorReturns_exists g p s1 (p.CurrentScore - d1.Score)
  obtain ⟨d3, s3, h3⟩ :=
    simulatorReturns_exists g p s2 (p.CurrentScore - d1.Score - d2.Score)
  rw [playTurn_eq g p d1 d2 d3 s1 s2 s3 hp hsim hR h1 h2 h3] at h
  simp only [Except.ok.injEq] at h
  exact ⟨p, d1, d2, d3, s1, s2, s3, hp, hsim, hR, h.symm⟩

theorem getCurrentPlayer_store {ρ : Type} {g : Game ρ} {p : Player} (q : Player)
    (sim : Simulator ρ) (hp : g.GetCurrentPlayer = .ok (some p)) :
    (g.store q sim).GetCurrentPlayer = .ok (some q) := by
  obtain ⟨hl, hc, hi⟩ := players_ne_nil_of_current hp
  have hlt : g.CurrentPlayer.toNat < g.Players.length := by
    by_contra hge
    rw [List.getElem?_eq_none (by omega)] at hi
    cases hi
  unfold Game.GetCurrentPlayer Game.store
  simp only [List.length_set, if_neg hl, if_pos hc, List.getElem?_set_self hlt]

theorem typ_bustResult (p : Player) (rs : List DartResult) (t : Int) :
    (bustResult p rs t).Typ = BustTurn := rfl

theorem typ_winResult (p : Player) (rs : List DartResult) (t c : Int) :
    (winResult p rs t c).Typ = WinTurn := rfl

theorem typ_scoringResult (p : Player) (rs : List DartResult) (t : Int) :
    (scoringResult p rs t).Typ = ScoringTurn := rfl

theorem win_ne_bust : ¬ WinTurn = BustTurn := by decide

theorem scoring_ne_bust : ¬ ScoringTurn = BustTurn := by decide

theorem bust_ne_win : ¬ BustTurn = WinTurn := by decide

theorem scoring_ne_win : ¬ ScoringTurn = WinTurn := by decide

theorem bust_ne_scoring : ¬ BustTurn = ScoringTurn := by decide

theorem win_ne_scoring : ¬ WinTurn = ScoringTurn := by decide

/-- C6: when `PlayTurn` returns a Bust result the same player is still the
    current one and that player's `CurrentScore` is what it was before the
    call. -/
theorem bust_keeps_current_score {ρ : Type} (g g1 : Game ρ) (r : TurnResult)
    (h : g.PlayTurn = .ok (some r, g1)) (hb : r.Typ = BustTurn) :
    g1.CurrentPlayer = g.CurrentPlayer ∧
    ∃ p p1, g.GetCurrentPlayer = .ok (some p) ∧ g1.GetCurrentPlayer = .ok (some p1) ∧
      p1.CurrentScore = p.CurrentScore := by
  obtain ⟨p, d1, d2, d3, s1, s2, s3, hp, -, -, heq⟩ := playTurn_cases h
  unfold turnOutcome at heq
  simp only at heq
  split_ifs at heq <;>
    simp only [Prod.mk.injEq, Option.some.injEq] at heq <;>
    obtain ⟨rfl, rfl⟩ := heq <;>
    first
    | exact absurd hb win_ne_bust
    | exact absurd hb scoring_ne_bust
    | exact ⟨rfl, p, _, hp, getCurrentPlayer_store _ _ hp, rfl⟩

/-- Witness for C6: Single 20, Single 20, Single 1 from 41 busts and leaves
    the score at 41. -/
theorem bust_keeps_current_score_witness :
    ∃ r g1, (soloGame 41 [S20, S20, S1]).PlayTurn = .ok (some r, g1) ∧ r.Typ = BustTurn ∧
      g1.CurrentPlayer = (soloGame 41 [S20, S20, S1]).CurrentPlayer ∧
      ∃ p p1, (soloGame 41 [S20, S20, S1]).GetCurrentPlayer = .ok (some p) ∧
        g1.GetCurrentPlayer = .ok (some p1) ∧ p1.CurrentScore = p.CurrentScore :=
  ⟨_, _, rfl, rfl, bust_keeps_current_score (soloGame 41 [S20, S20, S1]) _ _ rfl rfl⟩

theorem not_ge_two_of_bust {c : Int} {d : DartResult} (hb : bustCond c d) : ¬ 2 ≤ c := by
  unfold bustCond at hb
  omega

theorem stopsAt_bust {c : Int} {d : DartResult} (q : Player) (ds : List DartResult) (t : Int)
    (hb : bustCond c d) : StopsAt (bustResult q ds t) ds c d := by
  unfold bustCond at hb
  refine ⟨rfl, ⟨fun hw => absurd hw bust_ne_win, ?_⟩, ⟨fun _ => ?_, fun _ => rfl⟩,
    bust_ne_scoring⟩
  · rintro ⟨h0, hm⟩
    rcases hb with hb | ⟨_, hb⟩ | hb
    · omega
    · exact absurd hm hb
    · omega
  · unfold IsBust
    tauto

theorem stopsAt_win {c : Int} {d : DartResult} (q : Player) (ds : List DartResult)
    (t c1 : Int) (hb : ¬ bustCond c d) (h0 : c = 0) :
    StopsAt (winResult q ds t c1) ds c d := by
  unfold bustCond at hb
  have hm : d.Multiplier = Double := by
    by_contra hne
    exact hb (Or.inr (Or.inl ⟨h0, hne⟩))
  refine ⟨rfl, ⟨fun _ => ⟨h0, hm⟩, fun _ => rfl⟩, ⟨fun hw => absurd hw win_ne_bust, ?_⟩,
    win_ne_scoring⟩
  rintro (hlt | h1 | ⟨_, hne⟩)
  · omega
  · omega
  · exact absurd hm hne

/-- C5: for a simulated current player with remaining score `R ≥ 2` whose
    throws the simulator answers with `d1`, `d2`, `d3`, `PlayTurn` returns a
    result that stops at the first dart whose candidate is not at least 2: it
    is a Win exactly when that candidate is 0 off a Double, a Bust exactly when
    the candidate is negative, is 1, or is 0 off another ring, and a Scoring
    turn exactly when all three candidates are at least 2. -/
theorem playTurn_stops_at_first_finish {ρ : Type} (g : Game ρ) (p : Player)
    (d1 d2 d3 : DartResult) (s1 s2 s3 : ρ)
    (hp : g.GetCurrentPlayer = .ok (some p)) (hsim : p.GetType ≠ RealPlayer)
    (hR : 2 ≤ p.CurrentScore)
    (h1 : SimulatorReturns g p g.Simulator.rng p.CurrentScore d1 s1)
    (h2 : SimulatorReturns g p s1 (p.CurrentScore - d1.Score) d2 s2)
    (h3 : SimulatorReturns g p s2 (p.CurrentScore - d1.Score - d2.Score) d3 s3) :
    ∃ r g1, g.PlayTurn = .ok (some r, g1) ∧
      (¬ 2 ≤ p.CurrentScore - d1.Score →
        StopsAt r [d1] (p.CurrentScore - d1.Score) d1) ∧
      (2 ≤ p.CurrentScore - d1.Score → ¬ 2 ≤ p.CurrentScore - d1.Score - d2.Score →
        StopsAt r [d1, d2] (p.CurrentScore - d1.Score - d2.Score) d2) ∧
      (2 ≤ p.CurrentScore - d1.Score → 2 ≤ p.CurrentScore - d1.Score - d2.Score →
        ¬ 2 ≤ p.CurrentScore - d1.Score - d2.Score - d3.Score →
        StopsAt r [d1, d2, d3] (p.CurrentScore - d1.Score - d2.Score - d3.Score) d3) ∧
      (r.Typ = ScoringTurn ↔
        2 ≤ p.CurrentScore - d1.Score ∧ 2 ≤ p.CurrentScore - d1.Score - d2.Score ∧
          2 ≤ p.CurrentScore - d1.Score - d2.Score - d3.Score) ∧
      (r.Typ = ScoringTurn → r.Results = [d1, d2, d3]) := by
  rw [playTurn_eq g p d1 d2 d3 s1 s2 s3 hp hsim hR h1 h2 h3]
  unfold turnOutcome
  simp only
  by_cases hb1 : bustCond (p.CurrentScore - d1.Score) d1
  · have hn := not_ge_two_of_bust hb1
    rw [if_pos hb1]
    exact ⟨_, _, rfl, fun _ => stopsAt_bust _ _ _ hb1, fun h => absurd h hn,
      fun h => absurd h hn, ⟨fun ht => absurd ht bust_ne_scoring, fun h => absurd h.1 hn⟩,
      fun ht => absurd ht bust_ne_scoring⟩
  rw [if_neg hb1]
  by_cases hw1 : p.CurrentScore - d1.Score = 0
  · have hn : ¬ 2 ≤ p.CurrentScore - d1.Score := by omega
    rw [if_pos hw1]
    exact ⟨_, _, rfl, fun _ => stopsAt_win _ _ _ _ hb1 hw1, fun h => absurd h hn,
      fun h => absurd h hn, ⟨fun ht => absurd ht win_ne_scoring, fun h => absurd h.1 hn⟩,
      fun ht => absurd ht win_ne_scoring⟩
  rw [if_neg hw1]
  have hc1 := ge_two_of_continue hb1 hw1
  by_cases hb2 : bustCond (p.CurrentScore - d1.Score - d2.Score) d2
  · have hn := not_ge_two_of_bust hb2
    rw [if_pos hb2]
    exact ⟨_, _, rfl, fun h => absurd hc1 h, fun _ _ => stopsAt_bust _ _ _ hb2,
      fun _ h => absurd h hn, ⟨fun ht => absurd ht bust_ne_scoring, fun h => absurd h.2.1 hn⟩,
      fun ht => absurd ht bust_ne_scoring⟩
  rw [if_neg hb2]
  by_cases hw2 : p.CurrentScore - d1.Score - d2.Score = 0
  · have hn : ¬ 2 ≤ p.CurrentScore - d1.Score - d2.Score := by omega
    rw [if_pos hw2]
    exact ⟨_, _, rfl, fun h => absurd hc1 h, fun _ _ => stopsAt_win _ _ _ _ hb2 hw2,
      fun _ h => absurd h hn, ⟨fun ht => absurd ht win_ne_scoring, fun h => absurd h.2.1 hn⟩,
      fun ht => absurd ht win_ne_scoring⟩
  rw [if_neg hw2]
  have hc2 := ge_two_of_continue hb2 hw2
  by_cases hb3 : bustCond (p.CurrentScore - d1.Score - d2.Score - d3.Score) d3
  · have hn := not_ge_two_of_bust hb3
    rw [if_pos hb3]
    exact ⟨_, _, rfl, fun h => absurd hc1 h, fun _ h => absurd hc2 h,
      fun _ _ _ => stopsAt_bust _ _ _ hb3,
      ⟨fun ht => absurd ht bust_ne_scoring, fun h => absurd h.2.2 hn⟩,
      fun ht => absurd ht bust_ne_scoring⟩
  rw [if_neg hb3]
  by_cases hw3 : p.CurrentScore - d1.Score - d2.Score - d3.Score = 0
  · have hn : ¬ 2 ≤ p.CurrentScore - d1.Score - d2.Score - d3.Score := by omega
    rw [if_pos hw3]
    exact ⟨_, _, rfl, fun h => absurd hc1 h, fun _ h => absurd hc2 h,
      fun _ _ _ => stopsAt_win _ _ _ _ hb3 hw3,
      ⟨fun ht => absurd ht win_ne_scoring, fun h => absurd h.2.2 hn⟩,
      fun ht => absurd ht win_ne_scoring⟩
  rw [if_neg hw3]
  have hc3 := ge_two_of_continue hb3 hw3
  exact ⟨_, _, rfl, fun h => absurd hc1 h, fun _ h => absurd hc2 h,
    fun _ _ h => absurd hc3 h, ⟨fun _ => ⟨hc1, hc2, hc3⟩, fun _ => rfl⟩, fun _ => rfl⟩

/-- Witness for C5: from 40, Single 20 then Double 10 stops at the second
    dart with a Win. -/
theorem playTurn_stops_at_first_finish_witness :
    ∃ r g1, (soloGame 40 [S20, D10]).PlayTurn = .ok (some r, g1) ∧
      r.Results = [S20, D10] ∧ r.Typ = WinTurn := by
  obtain ⟨r, g1, h, -, hstop, -, -, -⟩ :=
    playTurn_stops_at_first_finish (soloGame 40 [S20, D10])
      { toPlayerProfile := simProfile, spread := 0.0, CurrentScore := 40, Turns := 0,
        TotalPoints := 0, Throws := 0 }
      S20 D10 { Multiplier := Miss, Number := 0, Score := 0 } [D10] [] []
      rfl (by decide) (by decide) (fun _ _ => rfl) (fun _ _ => rfl) (fun _ _ => rfl)
  obtain ⟨hres, hwin, -, -⟩ := hstop (by decide) (by decide)
  exact ⟨r, g1, h, hres, hwin.2 ⟨by decide, by decide⟩⟩

/-- C7, the code at the failing input: from 41 with no points and no throws
    counted, Single 20 then Single 20 busts on the second dart, and the Bust
    leaves the player with 20 points and 1 throw counted. -/
theorem bust_after_scoring_dart_counts_statistics :
    ∃ r g1 p p1, (soloGame 41 [S20, S20, S1]).PlayTurn = .ok (some r, g1) ∧
      r.Typ = BustTurn ∧
      (soloGame 41 [S20, S20, S1]).GetCurrentPlayer = .ok (some p) ∧
      g1.GetCurrentPlayer = .ok (some p1) ∧
      p.TotalPoints = 0 ∧ p.Throws = 0 ∧ p1.TotalPoints = 20 ∧ p1.Throws = 1 :=
  ⟨_, _, _, _, rfl, rfl, rfl, rfl, rfl, rfl, rfl, rfl⟩

/-- C8, the code at the failing input: from 40, Single 20 then Double 10 is a
    Win whose result reports 0 remaining, and the winner's `CurrentScore` is
    still 40 after the call. -/
theorem win_leaves_current_score_uncommitted :
    ∃ r g1 p1, (soloGame 40 [S20, D10]).PlayTurn = .ok (some r, g1) ∧
      r.Typ = WinTurn ∧ r.RemainingScore = 0 ∧
      g1.GetCurrentPlayer = .ok (some p1) ∧ p1.CurrentScore = 40 :=
  ⟨_, _, _, rfl, rfl, rfl, rfl, rfl⟩

theorem scored_totalPoints (p : Player) (d : DartResult) :
    (p.scored d).TotalPoints = p.TotalPoints + d.Score := rfl

theorem scored_throws (p : Player) (d : DartResult) :
    (p.scored d).Throws = p.Throws + 1 := rfl

theorem scored_currentScore (p : Player) (d : DartResult) :
    (p.scored d).CurrentScore = p.CurrentScore := rfl

/-- C9: when `PlayTurn` returns a Win result for a player who started the turn
    on `R`, the result has `TotalScore = R` and `RemainingScore = 0`, and the
    player's `TotalPoints` has grown by `R` and `Throws` by the number of darts
    thrown in the turn. -/
theorem win_totals {ρ : Type} (g g1 : Game ρ) (r : TurnResult)
    (h : g.PlayTurn = .ok (some r, g1)) (hw : r.Typ = WinTurn) :
    ∃ p p1, g.GetCurrentPlayer = .ok (some p) ∧ g1.GetCurrentPlayer = .ok (some p1) ∧
      r.TotalScore = p.CurrentScore ∧ r.RemainingScore = 0 ∧
      p1.TotalPoints = p.TotalPoints + p.CurrentScore ∧
      p1.Throws = p.Throws + r.Results.length := by
  obtain ⟨p, d1, d2, d3, s1, s2, s3, hp, -, -, heq⟩ := playTurn_cases h
  unfold turnOutcome at heq
  simp only at heq
  split_ifs at heq with hb1 hw1 hb2 hw2 hb3 hw3 <;>
    simp only [Prod.mk.injEq, Option.some.injEq] at heq <;>
    obtain ⟨rfl, rfl⟩ := heq
  · exact absurd hw bust_ne_win
  · refine ⟨p, _, hp, getCurrentPlayer_store _ _ hp, ?_, hw1, ?_, ?_⟩
    · show 0 + d1.Score = p.CurrentScore
      omega
    · rw [scored_totalPoints]
      omega
    · rw [scored_throws]
      rfl
  · exact absurd hw bust_ne_win
  · refine ⟨p, _, hp, getCurrentPlayer_store _ _ hp, ?_, hw2, ?_, ?_⟩
    · show 0 + d1.Score + d2.Score = p.CurrentScore
      omega
    · rw [scored_totalPoints, scored_totalPoints]
      omega
    · rw [scored_throws, scored_throws]
      show p.Throws + 1 + 1 = p.Throws + 2
      omega
  · exact absurd hw bust_ne_win
  · refine ⟨p, _, hp, getCurrentPlayer_store _ _ hp, ?_, hw3, ?_, ?_⟩
    · show 0 + d1.Score + d2.Score + d3.Score = p.CurrentScore
      omega
    · rw [scored_totalPoints, scored_totalPoints, scored_totalPoints]
      omega
    · rw [scored_throws, scored_throws, scored_throws]
      show p.Throws + 1 + 1 + 1 = p.Throws + 3
      omega
  · exact absurd hw scoring_ne_win

/-- Witness for C9: Triple 20, Triple 20, Double 25 from 170 is a Win with
    total 170 and remaining 0. -/
theorem win_totals_witness :
    ∃ r g1, (soloGame 170 [T20, T20, D25]).PlayTurn = .ok (some r, g1) ∧
      r.Typ = WinTurn ∧ r.TotalScore = 170 ∧ r.RemainingScore = 0 ∧
      ∃ p p1, (soloGame 170 [T20, T20, D25]).GetCurrentPlayer = .ok (some p) ∧
        g1.GetCurrentPlayer = .ok (some p1) ∧
        r.TotalScore = p.CurrentScore ∧ r.RemainingScore = 0 ∧
        p1.TotalPoints = p.TotalPoints + p.CurrentScore ∧
        p1.Throws = p.Throws + r.Results.length :=
  ⟨_, _, rfl, rfl, rfl, rfl, win_totals (soloGame 170 [T20, T20, D25]) _ _ rfl rfl⟩

theorem current_index_lt {ρ : Type} {g : Game ρ} {p : Player}
    (hp : g.GetCurrentPlayer = .ok (some p)) :
    0 ≤ g.CurrentPlayer ∧ g.CurrentPlayer < g.Players.length ∧
      g.CurrentPlayer.toNat < g.Players.length := by
  obtain ⟨_, hc, hi⟩ := players_ne_nil_of_current hp
  have hlt : g.CurrentPlayer.toNat < g.Players.length := by
    by_contra hge
    rw [List.getElem?_eq_none (by omega)] at hi
    cases hi
  exact ⟨hc, by omega, hlt⟩

/-- C10: when `PlayTurn` returns a Scoring result for player `i` of `n` who
    started the turn on `R`, three darts were thrown; with their scores
    `s1, s2, s3` the player's `CurrentScore` is `R - (s1 + s2 + s3)`,
    `TotalPoints` has grown by `s1 + s2 + s3` and `Throws` by 3, the result has
    `TotalScore = s1 + s2 + s3` and `RemainingScore` equal to the new
    `CurrentScore`, `Turn` has grown by one, `CurrentPlayer` is `(i + 1) mod n`,
    and every other player is unchanged. -/
theorem scoring_turn_effects {ρ : Type} (g g1 : Game ρ) (r : TurnResult)
    (h : g.PlayTurn = .ok (some r, g1)) (hs : r.Typ = ScoringTurn) :
    ∃ p p1 d1 d2 d3, g.GetCurrentPlayer = .ok (some p) ∧ r.Results = [d1, d2, d3] ∧
      0 ≤ g.CurrentPlayer ∧ g.CurrentPlayer < g.Players.length ∧
      g1.Players[g.CurrentPlayer.toNat]? = some p1 ∧
      p1.CurrentScore = p.CurrentScore - (d1.Score + d2.Score + d3.Score) ∧
      p1.TotalPoints = p.TotalPoints + (d1.Score + d2.Score + d3.Score) ∧
      p1.Throws = p.Throws + 3 ∧
      r.TotalScore = d1.Score + d2.Score + d3.Score ∧
      r.RemainingScore = p1.CurrentScore ∧
      g1.Turn = g.Turn + 1 ∧
      g1.CurrentPlayer = (g.CurrentPlayer + 1) % (g.Players.length : Int) ∧
      g1.Players.length = g.Players.length ∧
      ∀ j, j ≠ g.CurrentPlayer.toNat → g1.Players[j]? = g.Players[j]? := by
  obtain ⟨p, d1, d2, d3, s1, s2, s3, hp, -, -, heq⟩ := playTurn_cases h
  obtain ⟨hc0, hclt, hlt⟩ := current_index_lt hp
  unfold turnOutcome at heq
  simp only at heq
  split_ifs at heq with hb1 hw1 hb2 hw2 hb3 hw3 <;>
    simp only [Prod.mk.injEq, Option.some.injEq] at heq <;>
    obtain ⟨rfl, rfl⟩ := heq
  · exact absurd hs bust_ne_scoring
  · exact absurd hs win_ne_scoring
  · exact absurd hs bust_ne_scoring
  · exact absurd hs win_ne_scoring
  · exact absurd hs bust_ne_scoring
  · exact absurd hs win_ne_scoring
  · refine ⟨p, _, d1, d2, d3, hp, rfl, hc0, hclt, List.getElem?_set_self hlt, ?_, ?_, ?_, ?_,
      rfl, rfl, ?_, List.length_set _ _ _, ?_⟩
    · show p.CurrentScore - d1.Score - d2.Score - d3.Score = _
      omega
    · show p.TotalPoints + d1.Score + d2.Score + d3.Score = _
      omega
    · show p.Throws + 1 + 1 + 1 = _
      omega
    · show 0 + d1.Score + d2.Score + d3.Score = _
      omega
    · show Int.tmod (g.CurrentPlayer + 1) ((g.Players.set _ _).length : Int) = _
      rw [List.length_set]
      exact Int.tmod_eq_emod (by omega) (by omega)
    · intro j hj
      exact List.getElem?_set_ne (Ne.symm hj)

/-- Witness for C10: with two players on 501, Triple 20, Single 20, Single 5
    is a Scoring turn of 85 that leaves 416 and hands over to player 1. -/
theorem scoring_turn_effects_witness :
    ∃ r g1, (duoGame 501 [T20, S20, S5]).PlayTurn = .ok (some r, g1) ∧
      r.Typ = ScoringTurn ∧ r.TotalScore = 85 ∧ r.RemainingScore = 416 ∧
      g1.CurrentPlayer = 1 ∧
      ∃ p p1 d1 d2 d3, (duoGame 501 [T20, S20, S5]).GetCurrentPlayer = .ok (some p) ∧
        r.Results = [d1, d2, d3] ∧
        0 ≤ (duoGame 501 [T20, S20, S5]).CurrentPlayer ∧
        (duoGame 501 [T20, S20, S5]).CurrentPlayer <
          (duoGame 501 [T20, S20, S5]).Players.length ∧
        g1.Players[(duoGame 501 [T20, S20, S5]).CurrentPlayer.toNat]? = some p1 ∧
        p1.CurrentScore = p.CurrentScore - (d1.Score + d2.Score + d3.Score) ∧
        p1.TotalPoints = p.TotalPoints + (d1.Score + d2.Score + d3.Score) ∧
        p1.Throws = p.Throws + 3 ∧
        r.TotalScore = d1.Score + d2.Score + d3.Score ∧
        r.RemainingScore = p1.CurrentScore ∧
        g1.Turn = (duoGame 501 [T20, S20, S5]).Turn + 1 ∧
        g1.CurrentPlayer =
          ((duoGame 501 [T20, S20, S5]).CurrentPlayer + 1) %
            ((duoGame 501 [T20, S20, S5]).Players.length : Int) ∧
        g1.Players.length = (duoGame 501 [T20, S20, S5]).Players.length ∧
        ∀ j, j ≠ (duoGame 501 [T20, S20, S5]).CurrentPlayer.toNat →
          g1.Players[j]? = (duoGame 501 [T20, S20, S5]).Players[j]? :=
  ⟨_, _, rfl, rfl, rfl, rfl, rfl,
    scoring_turn_effects (duoGame 501 [T20, S20, S5]) _ _ rfl rfl⟩

/-! ## Frame of a turn -/

theorem playTurn_none_eq {ρ : Type} {g g1 : Game ρ} (h : g.PlayTurn = .ok (none, g1)) :
    g1 = g := by
  obtain ⟨p, hp⟩ := current_of_playTurn_ok h
  by_cases hreal : p.GetType = RealPlayer
  · rw [playTurn_real g p hp hreal] at h
    simp only [Except.ok.injEq, Prod.mk.injEq, true_and] at h
    exact h.symm
  · by_cases hR : 2 ≤ p.CurrentScore
    · obtain ⟨d1, s1, h1⟩ := simulatorReturns_exists g p g.Simulator.rng p.CurrentScore
      obtain ⟨d2, s2, h2⟩ := simulatorReturns_exists g p s1 (p.CurrentScore - d1.Score)
      obtain ⟨d3, s3, h3⟩ :=
        simulatorReturns_exists g p s2 (p.CurrentScore - d1.Score - d2.Score)
      rw [playTurn_eq g p d1 d2 d3 s1 s2 s3 hp hreal hR h1 h2 h3] at h
      unfold turnOutcome at h
      simp only [Except.ok.injEq] at h
      split_ifs at h <;> simp only [Prod.mk.injEq] at h <;> exact absurd h.1 (by simp)
    · rw [playTurn_error_of_lt g p hp hreal (by omega)] at h
      cases h

/-- What a turn that returned a result did to the game: only the current
    player's slot and the simulator's random source were written; after a Bust
    or a Win the score, the rotation and the turn counter are as before, after
    a Scoring turn the committed score is at least 2. -/
theorem playTurn_summary {ρ : Type} {g g1 : Game ρ} {r : TurnResult}
    (h : g.PlayTurn = .ok (some r, g1)) :
    ∃ p q, g.GetCurrentPlayer = .ok (some p) ∧ 2 ≤ p.CurrentScore ∧
      g1.Players = g.Players.set g.CurrentPlayer.toNat q ∧
      g1.StartScore = g.StartScore ∧ g1.Outs = g.Outs ∧
      g1.Simulator.sample = g.Simulator.sample ∧
      ((r.Typ = BustTurn ∧ q.CurrentScore = p.CurrentScore ∧ r.RemainingScore = 0 ∧
          g1.CurrentPlayer = g.CurrentPlayer ∧ g1.Turn = g.Turn) ∨
        (r.Typ = WinTurn ∧ q.CurrentScore = p.CurrentScore ∧ r.RemainingScore = 0 ∧
          g1.CurrentPlayer = g.CurrentPlayer ∧ g1.Turn = g.Turn) ∨
        (r.Typ = ScoringTurn ∧ 2 ≤ q.CurrentScore ∧ r.RemainingScore = q.CurrentScore ∧
          g1.Turn = g.Turn + 1)) := by
  obtain ⟨p, d1, d2, d3, s1, s2, s3, hp, -, hR, heq⟩ := playTurn_cases h
  unfold turnOutcome at heq
  simp only at heq
  split_ifs at heq with hb1 hw1 hb2 hw2 hb3 hw3 <;>
    simp only [Prod.mk.injEq, Option.some.injEq] at heq <;>
    obtain ⟨rfl, rfl⟩ := heq
  · exact ⟨p, _, hp, hR, rfl, rfl, rfl, rfl, Or.inl ⟨rfl, rfl, rfl, rfl, rfl⟩⟩
  · exact ⟨p, _, hp, hR, rfl, rfl, rfl, rfl, Or.inr (Or.inl ⟨rfl, rfl, hw1, rfl, rfl⟩)⟩
  · exact ⟨p, _, hp, hR, rfl, rfl, rfl, rfl, Or.inl ⟨rfl, rfl, rfl, rfl, rfl⟩⟩
  · exact ⟨p, _, hp, hR, rfl, rfl, rfl, rfl, Or.inr (Or.inl ⟨rfl, rfl, hw2, rfl, rfl⟩)⟩
  · exact ⟨p, _, hp, hR, rfl, rfl, rfl, rfl, Or.inl ⟨rfl, rfl, rfl, rfl, rfl⟩⟩
  · exact ⟨p, _, hp, hR, rfl, rfl, rfl, rfl, Or.inr (Or.inl ⟨rfl, rfl, hw3, rfl, rfl⟩)⟩
  · exact ⟨p, _, hp, hR, rfl, rfl, rfl, rfl,
      Or.inr (Or.inr ⟨rfl, ge_two_of_continue hb3 hw3, rfl, rfl⟩)⟩

/-- C11: a `PlayTurn` call that does not return a Scoring result (a Win, a
    Bust, or no result) leaves `CurrentPlayer` and `Turn` as they were, so the
    two change only on a Scoring result; after a Bust or a Win the same player
    is the current one. -/
theorem rotation_moves_only_on_scoring {ρ : Type} (g g1 : Game ρ) (res : Option TurnResult)
    (h : g.PlayTurn = .ok (res, g1)) (hns : ∀ r, res = some r → r.Typ ≠ ScoringTurn) :
    g1.CurrentPlayer = g.CurrentPlayer ∧ g1.Turn = g.Turn ∧
      ∀ r, res = some r → ∃ q, g1.GetCurrentPlayer = .ok (some q) ∧
        g1.Players[g.CurrentPlayer.toNat]? = some q := by
  cases res with
  | none =>
    have hg := playTurn_none_eq h
    subst hg
    exact ⟨rfl, rfl, fun r hr => by cases hr⟩
  | some r =>
    obtain ⟨p, q, hp, -, hpl, -, -, -, hcase⟩ := playTurn_summary h
    obtain ⟨-, -, hlt⟩ := current_index_lt hp
    have hq : g1.Players[g.CurrentPlayer.toNat]? = some q := by
      rw [hpl]
      exact List.getElem?_set_self hlt
    have hcur : g1.CurrentPlayer = g.CurrentPlayer → g1.GetCurrentPlayer = .ok (some q) := by
      intro hc
      obtain ⟨hl, hc0, -⟩ := players_ne_nil_of_current hp
      unfold Game.GetCurrentPlayer
      have hl1 : ¬ g1.Players.length = 0 := by
        rw [hpl, List.length_set]
        exact hl
      rw [if_neg hl1, hc, if_pos hc0, hq]
    rcases hcase with ⟨-, -, -, hc, ht⟩ | ⟨-, -, -, hc, ht⟩ | ⟨hs, -⟩
    · exact ⟨hc, ht, fun _ _ => ⟨q, hcur hc, hq⟩⟩
    · exact ⟨hc, ht, fun _ _ => ⟨q, hcur hc, hq⟩⟩
    · exact absurd hs (hns r rfl)

/-- Witness for C11: the Win from 40 with Single 20, Double 10 leaves the
    rotation and the turn counter alone. -/
theorem rotation_moves_only_on_scoring_witness :
    ∃ r g1, (soloGame 40 [S20, D10]).PlayTurn = .ok (some r, g1) ∧ r.Typ = WinTurn ∧
      g1.CurrentPlayer = (soloGame 40 [S20, D10]).CurrentPlayer ∧
      g1.Turn = (soloGame 40 [S20, D10]).Turn :=
  ⟨_, _, rfl, rfl,
    (rotation_moves_only_on_scoring (soloGame 40 [S20, D10]) _ _ rfl
      (fun r hr => by cases hr; decide)).1,
    (rotation_moves_only_on_scoring (soloGame 40 [S20, D10]) _ _ rfl
      (fun r hr => by cases hr; decide)).2.1⟩

/-- C14: when the current player is a real player `PlayTurn` returns no result
    and the game after the call is the game before it: scores, statistics,
    `Turn`, `CurrentPlayer` and the simulator's random source are untouched. -/
theorem real_player_turn_suspends {ρ : Type} (g : Game ρ) (p : Player)
    (hp : g.GetCurrentPlayer = .ok (some p)) (hreal : p.GetType = RealPlayer) :
    g.PlayTurn = .ok (none, g) := by
  unfold Game.PlayTurn
  rw [hp]
  simp only [if_pos hreal]

/-- Witness for C14: a game whose only player is real. -/
theorem real_player_turn_suspends_witness :
    (realGame 501).PlayTurn = .ok (none, realGame 501) :=
  real_player_turn_suspends (realGame 501)
    { toPlayerProfile := realProfile, spread := 0.0, CurrentScore := 501, Turns := 0,
      TotalPoints := 0, Throws := 0 } rfl rfl

/-- C16, the code at the failing input: the Bust from 41 with Single 20,
    Single 20 returns a result whose `RemainingScore` is 0, while the player's
    remaining score after the turn is 41. -/
theorem bust_result_remaining_is_zero :
    ∃ r g1 p1, (soloGame 41 [S20, S20, S1]).PlayTurn = .ok (some r, g1) ∧
      r.Typ = BustTurn ∧ g1.GetCurrentPlayer = .ok (some p1) ∧
      p1.CurrentScore = 41 ∧ r.RemainingScore = 0 :=
  ⟨_, _, _, rfl, rfl, rfl, rfl, rfl⟩

/-! ## Reachable states of simulated play -/

theorem mem_of_getElem?_eq_some {α : Type} {l : List α} {i : Nat} {a : α}
    (h : l[i]? = some a) : a ∈ l := by
  rw [List.getElem?_eq_some] at h
  obtain ⟨hi, rfl⟩ := h
  exact List.getElem_mem hi

theorem current_mem_players {ρ : Type} {g : Game ρ} {p : Player}
    (hp : g.GetCurrentPlayer = .ok (some p)) : p ∈ g.Players :=
  mem_of_getElem?_eq_some (players_ne_nil_of_current hp).2.2

/-- A property of remaining scores that holds of every score from 2 up and of
    every player before a turn holds of every player after it. -/
theorem playTurn_preserves_scores {ρ : Type} {g g1 : Game ρ} {res : Option TurnResult}
    (P : Int → Prop) (hP : ∀ c, 2 ≤ c → P c) (h : g.PlayTurn = .ok (res, g1))
    (hall : ∀ p ∈ g.Players, P p.CurrentScore) : ∀ p ∈ g1.Players, P p.CurrentScore := by
  cases res with
  | none =>
    rw [playTurn_none_eq h]
    exact hall
  | some r =>
    obtain ⟨p, q, hp, -, hpl, -, -, -, hcase⟩ := playTurn_summary h
    have hpm := current_mem_players hp
    have hq : P q.CurrentScore := by
      rcases hcase with ⟨-, hc, -⟩ | ⟨-, hc, -⟩ | ⟨-, hc, -⟩
      · rw [hc]; exact hall p hpm
      · rw [hc]; exact hall p hpm
      · exact hP _ hc
    intro x hx
    rw [hpl] at hx
    rcases List.mem_or_eq_of_mem_set hx with hx | hx
    · exact hall x hx
    · rw [hx]; exact hq

theorem playTurn_startScore {ρ : Type} {g g1 : Game ρ} {res : Option TurnResult}
    (h : g.PlayTurn = .ok (res, g1)) : g1.StartScore = g.StartScore := by
  cases res with
  | none => rw [playTurn_none_eq h]
  | some r =>
    obtain ⟨p, q, -, -, -, hs, -⟩ := playTurn_summary h
    exact hs

theorem addPlayer_scores {ρ : Type} (g : Game ρ) (profile : PlayerProfile) (P : Int → Prop)
    (hs : P g.StartScore) (hall : ∀ p ∈ g.Players, P p.CurrentScore) :
    ∀ p ∈ (g.AddPlayer profile).Players, P p.CurrentScore := by
  intro p hp
  unfold Game.AddPlayer at hp
  simp only [List.mem_append, List.mem_singleton] at hp
  rcases hp with hp | hp
  · exact hall p hp
  · rw [hp]; exact hs

theorem reachable_simulated_scores {ρ : Type} {start : Int} {g : Game ρ} (h2 : 2 ≤ start)
    (hr : ReachableVia noSubmission start g) :
    g.StartScore = start ∧ ∀ p ∈ g.Players, 2 ≤ p.CurrentScore := by
  induction hr with
  | new id sim =>
    refine ⟨rfl, ?_⟩
    intro p hp
    simp [New01Game] at hp
  | addPlayer profile _ ih =>
    refine ⟨ih.1, addPlayer_scores _ profile (fun c => 2 ≤ c) ?_ ih.2⟩
    show 2 ≤ _
    rw [ih.1]
    exact h2
  | playTurn _ hstep ih =>
    exact ⟨(playTurn_startScore hstep).trans ih.1,
      playTurn_preserves_scores (fun c => 2 ≤ c) (fun _ hc => hc) hstep ih.2⟩
  | submitScore _ hadm _ _ => exact absurd hadm id

/-- C12: in a game created on a starting score of at least 2, in every state
    reachable through `AddPlayer` and `PlayTurn` no player's `CurrentScore` is
    1, and no Scoring or Win result that `PlayTurn` returns from such a state
    has `RemainingScore` 1. -/
theorem remaining_one_unreachable {ρ : Type} (start : Int) (g : Game ρ) (h2 : 2 ≤ start)
    (hr : ReachableVia noSubmission start g) :
    (∀ p ∈ g.Players, p.CurrentScore ≠ 1) ∧
    ∀ r g1, g.PlayTurn = .ok (some r, g1) → r.Typ = ScoringTurn ∨ r.Typ = WinTurn →
      r.RemainingScore ≠ 1 := by
  constructor
  · intro p hp
    have := (reachable_simulated_scores h2 hr).2 p hp
    omega
  · intro r g1 h _
    obtain ⟨p, q, -, -, -, -, -, -, hcase⟩ := playTurn_summary h
    rcases hcase with ⟨-, -, hrem, -⟩ | ⟨-, -, hrem, -⟩ | ⟨-, hq, hrem, -⟩
    · rw [hrem]; decide
    · rw [hrem]; decide
    · rw [hrem]; omega

/-- Witness for C12: two players on 501 after one Scoring turn of 85. -/
theorem remaining_one_unreachable_witness :
    ∃ r g1, (duoGame 501 [T20, S20, S5]).PlayTurn = .ok (some r, g1) ∧
      (∀ p ∈ g1.Players, p.CurrentScore ≠ 1) ∧
      ∀ r2 g2, g1.PlayTurn = .ok (some r2, g2) → r2.Typ = ScoringTurn ∨ r2.Typ = WinTurn →
        r2.RemainingScore ≠ 1 :=
  ⟨_, _, rfl,
    remaining_one_unreachable 501 _ (by decide)
      (ReachableVia.playTurn
        (ReachableVia.addPlayer _
          (ReachableVia.addPlayer simProfile (ReachableVia.new 0 (tapeSimulator [T20, S20, S5]))))
        rfl)⟩

/-! ## Score submission -/

theorem wrap64_of_isInt64 {x : Int} (h : isInt64 x) : wrap64 x = x := by
  unfold isInt64 at h
  unfold wrap64
  omega

/-- A difference inside the range is not wrapped. -/
theorem goSub_exact {a b : Int} (h : isInt64 (a - b)) : goSub a b = a - b := by
  unfold goSub
  split_ifs
  · exact wrap64_of_isInt64 h
  · rfl

/-- A sum inside the range is not wrapped. -/
theorem goAdd_exact {a b : Int} (h : isInt64 (a + b)) : goAdd a b = a + b := by
  unfold goAdd
  split_ifs
  · exact wrap64_of_isInt64 h
  · rfl

/-- Taking a non-negative score off one that is at least as large does not
    wrap. -/
theorem goSub_within {a b : Int} (h0 : 0 ≤ b) (hb : b ≤ a) : goSub a b = a - b := by
  unfold goSub
  split_ifs with h
  · apply wrap64_of_isInt64
    unfold isInt64 at *
    omega
  · rfl

/-- The loop of `SubmitScore`, while its running values stay in the range of
    `int`, applies a prefix of the scores: the shortest one that brings the
    remaining score to 0 or below (then `won` is set), or all of them. -/
theorem submitLoop_spec (scores : List Int) :
    ∀ v : SubmitVars,
      (∀ j, 1 ≤ j → j ≤ scores.length →
        isInt64 (v.player.CurrentScore - (scores.take j).sum) ∧
        isInt64 (v.player.TotalPoints + (scores.take j).sum) ∧
        isInt64 (v.player.Throws + j) ∧
        isInt64 (v.totalScore + (scores.take j).sum)) →
      ∃ k, k ≤ scores.length ∧
      (submitLoop scores v).player.CurrentScore =
        v.player.CurrentScore - (scores.take k).sum ∧
      (submitLoop scores v).player.TotalPoints =
        v.player.TotalPoints + (scores.take k).sum ∧
      (submitLoop scores v).player.Throws = v.player.Throws + k ∧
      (submitLoop scores v).totalScore = v.totalScore + (scores.take k).sum ∧
      (∀ j, 1 ≤ j → j < k → 0 < v.player.CurrentScore - (scores.take j).sum) ∧
      (((submitLoop scores v).won = true ∧ 1 ≤ k ∧
          v.player.CurrentScore - (scores.take k).sum ≤ 0) ∨
        ((submitLoop scores v).won = v.won ∧ k = scores.length ∧
          ∀ j, 1 ≤ j → j ≤ k → 0 < v.player.CurrentScore - (scores.take j).sum)) := by
  induction scores with
  | nil =>
    intro v _
    refine ⟨0, le_refl _, ?_, ?_, ?_, ?_, ?_, Or.inr ⟨rfl, rfl, ?_⟩⟩
    · simp [submitLoop]
    · simp [submitLoop]
    · simp [submitLoop]
    · simp [submitLoop]
    · intro j h1 hj; omega
    · intro j h1 hj; omega
  | cons s rest ih =>
    intro v hin
    obtain ⟨i1, i2, i3, i4⟩ := hin 1 (le_refl _) (by simp)
    simp only [List.take_succ_cons, List.take_zero, List.sum_cons, List.sum_nil, add_zero,
      Nat.cast_one] at i1 i2 i3 i4
    have e1 := goSub_exact i1
    have e2 := goAdd_exact i2
    have e3 := goAdd_exact i3
    have e4 := goAdd_exact i4
    by_cases hle : v.player.CurrentScore - s ≤ 0
    · refine ⟨1, by simp, ?_, ?_, ?_, ?_, ?_, Or.inl ⟨?_, le_refl _, ?_⟩⟩
      · simp [submitLoop, e1, e2, e3, e4, hle]
      · simp [submitLoop, e1, e2, e3, e4, hle]
      · simp [submitLoop, e1, e2, e3, e4, hle]
      · simp [submitLoop, e1, e2, e3, e4, hle]
      · intro j h1 hj; omega
      · simp [submitLoop, e1, e2, e3, e4, hle]
      · simpa using hle
    · obtain ⟨k, hk, hcs, htp, hth, hts, hpre, hend⟩ :=
        ih { player := { v.player with CurrentScore := v.player.CurrentScore - s
                                       TotalPoints := v.player.TotalPoints + s
                                       Throws := v.player.Throws + 1 }
             totalScore := v.totalScore + s
             won := v.won }
          (by
            intro j h1 hj
            obtain ⟨j1, j2, j3, j4⟩ := hin (j + 1) (by omega) (by simpa using hj)
            simp only [List.take_succ_cons, List.sum_cons] at j1 j2 j3 j4
            unfold isInt64 at *
            push_cast at j3
            simp only
            omega)
      have hstep : submitLoop (s :: rest) v =
          submitLoop rest
            { player := { v.player with CurrentScore := v.player.CurrentScore - s
                                        TotalPoints := v.player.TotalPoints + s
                                        Throws := v.player.Throws + 1 }
              totalScore := v.totalScore + s
              won := v.won } := by
        simp [submitLoop, e1, e2, e3, e4, hle]
      simp only at hcs htp hth hts hpre hend
      have hshort : ∀ j, j < k + 1 → 1 ≤ j →
          0 < v.player.CurrentScore - ((s :: rest).take j).sum := by
        intro j hj h1
        obtain ⟨i, rfl⟩ : ∃ i, j = i + 1 := ⟨j - 1, by omega⟩
        rw [List.take_succ_cons, List.sum_cons]
        by_cases hi : i = 0
        · subst hi
          simp only [List.take_zero, List.sum_nil]
          omega
        · have := hpre i (by omega) (by omega)
          omega
      refine ⟨k + 1, by simpa using hk, ?_, ?_, ?_, ?_, ?_, ?_⟩
      · rw [hstep, hcs, List.take_succ_cons, List.sum_cons]; omega
      · rw [hstep, htp, List.take_succ_cons, List.sum_cons]; omega
      · rw [hstep, hth]; omega
      · rw [hstep, hts, List.take_succ_cons, List.sum_cons]; omega
      · intro j h1 hj
        exact hshort j hj h1
      · rcases hend with ⟨hw, hk1, hfin⟩ | ⟨hw, hkl, hall⟩
        · left
          refine ⟨by rw [hstep]; exact hw, by omega, ?_⟩
          rw [List.take_succ_cons, List.sum_cons]
          omega
        · right
          refine ⟨by rw [hstep]; exact hw, by simp [hkl], ?_⟩
          intro j h1 hj
          by_cases hjk : j < k + 1
          · exact hshort j hjk h1
          · have hjeq : j = k + 1 := by omega
            subst hjeq
            rw [List.take_succ_cons, List.sum_cons]
            by_cases hk0 : k = 0
            · subst hk0
              simp only [List.take_zero, List.sum_nil]
              omega
            · have := hall k (by omega) (le_refl _)
              omega

/-- The loop of `SubmitScore` on non-negative scores that add up to no more
    than the remaining score takes a prefix of them off it, with no
    wrap-around. -/
theorem submitLoop_within (scores : List Int) :
    ∀ v : SubmitVars, (∀ s ∈ scores, 0 ≤ s) → scores.sum ≤ v.player.CurrentScore →
      ∃ k, (submitLoop scores v).player.CurrentScore =
        v.player.CurrentScore - (scores.take k).sum := by
  induction scores with
  | nil =>
    intro v _ _
    exact ⟨0, by simp [submitLoop]⟩
  | cons s rest ih =>
    intro v hnonneg hsum
    have hs0 : 0 ≤ s := hnonneg s (List.mem_cons_self _ _)
    have hrest : ∀ x ∈ rest, 0 ≤ x := fun x hx => hnonneg x (List.mem_cons_of_mem _ hx)
    have hrsum : 0 ≤ rest.sum := List.sum_nonneg hrest
    rw [List.sum_cons] at hsum
    have e1 := @goSub_within v.player.CurrentScore s hs0 (by omega)
    by_cases hle : v.player.CurrentScore - s ≤ 0
    · exact ⟨1, by simp [submitLoop, e1, hle]⟩
    · obtain ⟨k, hk⟩ :=
        ih { player := { v.player with CurrentScore := v.player.CurrentScore - s
                                       TotalPoints := goAdd v.player.TotalPoints s
                                       Throws := goAdd v.player.Throws 1 }
             totalScore := goAdd v.totalScore s
             won := v.won } hrest (by simp only; omega)
      have hstep : submitLoop (s :: rest) v =
          submitLoop rest
            { player := { v.player with CurrentScore := v.player.CurrentScore - s
                                        TotalPoints := goAdd v.player.TotalPoints s
                                        Throws := goAdd v.player.Throws 1 }
              totalScore := goAdd v.totalScore s
              won := v.won } := by
        simp [submitLoop, e1, hle]
      refine ⟨k + 1, ?_⟩
      rw [hstep, hk, List.take_succ_cons, List.sum_cons]
      simp only
      omega

theorem submitScore_eq {ρ : Type} (g : Game ρ) (p : Player) (scores : List Int)
    (hp : g.GetCurrentPlayer = .ok (some p)) :
    SubmitScore g scores =
      .ok ({ PlayerName := (submitLoop scores ⟨p, 0, false⟩).player.GetName
             TotalScore := (submitLoop scores ⟨p, 0, false⟩).totalScore
             RemainingScore := (submitLoop scores ⟨p, 0, false⟩).player.CurrentScore
             ThreeDA := Float.ofInt (submitLoop scores ⟨p, 0, false⟩).totalScore /
               Float.ofNat scores.length },
           (submitLoop scores ⟨p, 0, false⟩).won,
           if (submitLoop scores ⟨p, 0, false⟩).won = true then
             { g with Players :=
                 g.Players.set g.CurrentPlayer.toNat (submitLoop scores ⟨p, 0, false⟩).player }
           else
             { g with
               Players :=
                 g.Players.set g.CurrentPlayer.toNat (submitLoop scores ⟨p, 0, false⟩).player
               Turn := g.Turn + 1
               CurrentPlayer := Int.tmod (g.CurrentPlayer + 1) g.Players.length }) := by
  have hl := (players_ne_nil_of_current hp).1
  unfold SubmitScore Game.Start
  rw [if_neg hl]
  simp only [hp]
  by_cases hw : (submitLoop scores ⟨p, 0, false⟩).won = true
  · simp only [hw, if_true]
  · simp only [hw, Game.NextPlayer, List.length_set, if_neg hl]
    simp

/-- C17, as amended: for a current player on `R` and submitted scores with
    which no running value of the loop (remaining score, points, throws, turn
    total) leaves the range of `int`, `SubmitScore` applies the shortest
    non-empty prefix of the scores that brings `R` to 0 or below, or all of
    them when there is none: the player's remaining score becomes `R` minus
    the sum applied and the result's `TotalScore` is that sum; the turn is a
    win exactly when such a prefix exists; `Turn` and the rotation advance
    exactly when it is not a win; simulator and chart are left alone. -/
theorem submitScore_applies_shortest_finish {ρ : Type} (g : Game ρ) (p : Player)
    (scores : List Int) (hp : g.GetCurrentPlayer = .ok (some p))
    (hin : StaysInt64 p scores) :
    ∃ res won g1 q k, SubmitScore g scores = .ok (res, won, g1) ∧ k ≤ scores.length ∧
      (∀ j, 1 ≤ j → j < k → 0 < p.CurrentScore - (scores.take j).sum) ∧
      (won = true → 1 ≤ k ∧ p.CurrentScore - (scores.take k).sum ≤ 0) ∧
      (won = false → k = scores.length) ∧
      (won = true ↔
        ∃ j, 1 ≤ j ∧ j ≤ scores.length ∧ p.CurrentScore - (scores.take j).sum ≤ 0) ∧
      g1.Players[g.CurrentPlayer.toNat]? = some q ∧
      q.CurrentScore = p.CurrentScore - (scores.take k).sum ∧
      res.TotalScore = (scores.take k).sum ∧
      res.RemainingScore = q.CurrentScore ∧
      (won = true → g1.Turn = g.Turn ∧ g1.CurrentPlayer = g.CurrentPlayer) ∧
      (won = false → g1.Turn = g.Turn + 1 ∧
        g1.CurrentPlayer = (g.CurrentPlayer + 1) % (g.Players.length : Int)) ∧
      g1.Simulator = g.Simulator ∧ g1.Outs = g.Outs := by
  obtain ⟨hc0, hclt, hlt⟩ := current_index_lt hp
  obtain ⟨k, hk, hcs, -, -, hts, hpre, hend⟩ := submitLoop_spec scores ⟨p, 0, false⟩
    (by
      intro j h1 hj
      obtain ⟨j1, j2, j3, j4⟩ := hin j h1 hj
      exact ⟨j1, j2, j3, by simpa using j4⟩)
  simp only at hcs hts hpre hend
  rw [submitScore_eq g p scores hp]
  refine ⟨_, _, _, (submitLoop scores ⟨p, 0, false⟩).player, k, rfl, hk, hpre, ?_, ?_, ?_, ?_,
    hcs, ?_, rfl, ?_, ?_, ?_, ?_⟩
  · intro hw
    rcases hend with ⟨-, h1, hfin⟩ | ⟨hw2, -, -⟩
    · exact ⟨h1, hfin⟩
    · rw [hw] at hw2
      cases hw2
  · intro hw
    rcases hend with ⟨hw2, -, -⟩ | ⟨-, hkl, -⟩
    · rw [hw] at hw2
      cases hw2
    · exact hkl
  · constructor
    · intro hw
      rcases hend with ⟨-, h1, hfin⟩ | ⟨hw2, -, -⟩
      · exact ⟨k, h1, hk, hfin⟩
      · rw [hw] at hw2
        cases hw2
    · rintro ⟨j, h1, hj, hfin⟩
      rcases hend with ⟨hw, -, -⟩ | ⟨-, hkl, hall⟩
      · exact hw
      · have := hall j h1 (by omega)
        omega
  · split_ifs <;> exact List.getElem?_set_self hlt
  · show (submitLoop scores ⟨p, 0, false⟩).totalScore = (scores.take k).sum
    rw [hts]
    omega
  · intro hw
    rw [if_pos hw]
    exact ⟨rfl, rfl⟩
  · intro hw
    rw [if_neg (by rw [hw]; decide)]
    exact ⟨rfl, Int.tmod_eq_emod (by omega) (by omega)⟩
  · split_ifs <;> rfl
  · split_ifs <;> rfl

/-- Witness for C17 (amended): 60, 60, 60 submitted on 180 gives remaining 0
    and a win. -/
theorem submitScore_applies_shortest_finish_witness :
    ∃ res g1, SubmitScore (realGame 180) [60, 60, 60] = .ok (res, true, g1) ∧
      res.RemainingScore = 0 ∧ res.TotalScore = 180 ∧
      ∃ res2 won g2 q k, SubmitScore (realGame 180) [60, 60, 60] = .ok (res2, won, g2) ∧
        k ≤ 3 ∧ g2.Players[0]? = some q ∧
        q.CurrentScore = 180 - (List.take k [60, 60, 60]).sum := by
  obtain ⟨res2, won, g2, q, k, h, hk, -, -, -, -, hq, hcs, -⟩ :=
    submitScore_applies_shortest_finish (realGame 180)
      { toPlayerProfile := realProfile, spread := 0.0, CurrentScore := 180, Turns := 0,
        TotalPoints := 0, Throws := 0 } [60, 60, 60] rfl
      (by
        intro j h1 hj
        have hj3 : j ≤ 3 := hj
        interval_cases j <;> decide)
  exact ⟨_, _, rfl, rfl, rfl, res2, won, g2, q, k, h, hk, hq, hcs⟩

/-- C17, counterexample: on 501 the submitted score -9223372036854775808, the
    least `int`, wraps the remaining score round to -9223372036854775307 and
    the turn is a win, although 501 less that score is above 0 and so no
    prefix of the submission brings the remaining score to 0 or below. -/
theorem submitted_minimum_wraps_to_win :
    ∃ res g1 q, SubmitScore (realGame 501) [-9223372036854775808] = .ok (res, true, g1) ∧
      g1.Players[0]? = some q ∧ q.CurrentScore = -9223372036854775307 ∧
      res.RemainingScore = -9223372036854775307 ∧
      isInt64 (-9223372036854775808) ∧
      (501 : Int) - (List.take 1 [(-9223372036854775808 : Int)]).sum = 9223372036854776309 ∧
      ¬ ∃ j, 1 ≤ j ∧ j ≤ [(-9223372036854775808 : Int)].length ∧
        (501 : Int) - (List.take j [(-9223372036854775808 : Int)]).sum ≤ 0 := by
  refine ⟨_, _, _, rfl, rfl, rfl, rfl, by decide, by decide, ?_⟩
  rintro ⟨j, h1, hj, hle⟩
  have hj1 : j = 1 := by
    simp only [List.length_singleton] at hj
    omega
  subst hj1
  simp at hle

/-! ## Remaining scores over a whole game -/

theorem simulatorReturns_exists_nonneg {ρ : Type} (g : Game ρ) (p : Player) (rng : ρ)
    (score : Int) (hnn : NonnegScores g.Simulator) :
    ∃ d rng1, SimulatorReturns g p rng score d rng1 ∧ 0 ≤ d.Score := by
  cases ht : g.Outs.GetNextTarget score p.GetScoringPreference with
  | error e =>
    refine ⟨⟨⟨0, 0⟩, 0⟩, rng, ?_, le_refl _⟩
    intro t h
    rw [ht] at h
    cases h
  | ok t0 =>
    refine ⟨(g.Simulator.sample rng t0 p.GetSpread).1,
      (g.Simulator.sample rng t0 p.GetSpread).2, ?_, hnn rng t0 p.GetSpread⟩
    intro t h
    rw [ht] at h
    cases h
    rfl

theorem playTurn_cases_nonneg {ρ : Type} {g g1 : Game ρ} {r : TurnResult}
    (h : g.PlayTurn = .ok (some r, g1)) (hnn : NonnegScores g.Simulator) :
    ∃ p d1 d2 d3 s1 s2 s3, g.GetCurrentPlayer = .ok (some p) ∧
      0 ≤ d1.Score ∧ 0 ≤ d2.Score ∧ 0 ≤ d3.Score ∧
      (some r, g1) = turnOutcome g p d1 d2 d3 s1 s2 s3 := by
  obtain ⟨p, hp⟩ := current_of_playTurn_ok h
  have hsim : p.GetType ≠ RealPlayer := by
    intro hreal
    rw [playTurn_real g p hp hreal] at h
    cases h
  have hR : 2 ≤ p.CurrentScore := by
    by_contra hlt
    rw [playTurn_error_of_lt g p hp hsim (by omega)] at h
    cases h
  obtain ⟨d1, s1, h1, hd1⟩ :=
    simulatorReturns_exists_nonneg g p g.Simulator.rng p.CurrentScore hnn
  obtain ⟨d2, s2, h2, hd2⟩ :=
    simulatorReturns_exists_nonneg g p s1 (p.CurrentScore - d1.Score) hnn
  obtain ⟨d3, s3, h3, hd3⟩ :=
    simulatorReturns_exists_nonneg g p s2 (p.CurrentScore - d1.Score - d2.Score) hnn
  rw [playTurn_eq g p d1 d2 d3 s1 s2 s3 hp hsim hR h1 h2 h3] at h
  simp only [Except.ok.injEq] at h
  exact ⟨p, d1, d2, d3, s1, s2, s3, hp, hd1, hd2, hd3, h.symm⟩

theorem set_current_score_le {ρ : Type} {g : Game ρ} {p q : Player}
    (hp : g.GetCurrentPlayer = .ok (some p)) (hq : q.CurrentScore ≤ p.CurrentScore)
    (i : Nat) (x x1 : Player) (hx : g.Players[i]? = some x)
    (hx1 : (g.Players.set g.CurrentPlayer.toNat q)[i]? = some x1) :
    x1.CurrentScore ≤ x.CurrentScore := by
  obtain ⟨-, -, hcur⟩ := players_ne_nil_of_current hp
  by_cases hi : g.CurrentPlayer.toNat = i
  · subst hi
    rw [hcur] at hx
    have hlt := (current_index_lt hp).2.2
    rw [List.getElem?_set_self hlt] at hx1
    cases hx
    cases hx1
    exact hq
  · rw [List.getElem?_set_ne hi, hx] at hx1
    cases hx1
    exact le_refl _

/-- With a simulator that reports no negative score, a turn leaves no
    player's remaining score higher than it was. -/
theorem playTurn_score_le {ρ : Type} {g g1 : Game ρ} {res : Option TurnResult}
    (h : g.PlayTurn = .ok (res, g1)) (hnn : NonnegScores g.Simulator)
    (i : Nat) (x x1 : Player) (hx : g.Players[i]? = some x) (hx1 : g1.Players[i]? = some x1) :
    x1.CurrentScore ≤ x.CurrentScore := by
  cases res with
  | none =>
    rw [playTurn_none_eq h, hx] at hx1
    cases hx1
    exact le_refl _
  | some r =>
    obtain ⟨p, d1, d2, d3, s1, s2, s3, hp, hd1, hd2, hd3, heq⟩ := playTurn_cases_nonneg h hnn
    unfold turnOutcome at heq
    simp only at heq
    split_ifs at heq <;>
      simp only [Prod.mk.injEq, Option.some.injEq] at heq <;>
      obtain ⟨rfl, rfl⟩ := heq
    · refine set_current_score_le hp ?_ i x x1 hx hx1
      exact le_refl _
    · refine set_current_score_le hp ?_ i x x1 hx hx1
      exact le_refl _
    · refine set_current_score_le hp ?_ i x x1 hx hx1
      exact le_refl _
    · refine set_current_score_le hp ?_ i x x1 hx hx1
      exact le_refl _
    · refine set_current_score_le hp ?_ i x x1 hx hx1
      exact le_refl _
    · refine set_current_score_le hp ?_ i x x1 hx hx1
      exact le_refl _
    · refine set_current_score_le hp ?_ i x x1 hx hx1
      show p.CurrentScore - d1.Score - d2.Score - d3.Score ≤ p.CurrentScore
      omega

theorem sum_take_bounds (l : List Int) (hl : ∀ s ∈ l, 0 ≤ s) (k : Nat) :
    0 ≤ (l.take k).sum ∧ (l.take k).sum ≤ l.sum := by
  have h1 : 0 ≤ (l.take k).sum :=
    List.sum_nonneg (fun s hs => hl s (List.mem_of_mem_take hs))
  have h2 : 0 ≤ (l.drop k).sum :=
    List.sum_nonneg (fun s hs => hl s (List.mem_of_mem_drop hs))
  have h3 := List.sum_take_add_sum_drop l k
  exact ⟨h1, by omega⟩

theorem current_of_submitScore_ok {ρ : Type} {g : Game ρ} {scores : List Int}
    {x : SubmittedTurn × Bool × Game ρ} (h : SubmitScore g scores = .ok x) :
    ∃ p, g.GetCurrentPlayer = .ok (some p) := by
  unfold SubmitScore at h
  cases hs : g.Start with
  | error e => rw [hs] at h; cases h
  | ok u =>
    rw [hs] at h
    cases hc : g.GetCurrentPlayer with
    | error e => rw [hc] at h; cases h
    | ok o =>
      cases o with
      | none => rw [hc] at h; cases h
      | some p => exact ⟨p, rfl⟩

/-- What a score submission does to the players: the current player's slot
    gets the remaining score less the sum of the prefix applied. -/
theorem submitScore_players {ρ : Type} {g g1 : Game ρ} {scores : List Int}
    {res : SubmittedTurn} {won : Bool} (h : SubmitScore g scores = .ok (res, won, g1))
    (hadm : withinScore g scores) :
    ∃ p q k, g.GetCurrentPlayer = .ok (some p) ∧
      g1.Players = g.Players.set g.CurrentPlayer.toNat q ∧
      g1.StartScore = g.StartScore ∧
      q.CurrentScore = p.CurrentScore - (scores.take k).sum := by
  obtain ⟨p, hp⟩ := current_of_submitScore_ok h
  obtain ⟨hnonneg, p0, hp0, hsum⟩ := hadm
  rw [hp] at hp0
  simp only [Except.ok.injEq, Option.some.injEq] at hp0
  subst hp0
  obtain ⟨k, hcs⟩ := submitLoop_within scores ⟨p, 0, false⟩ hnonneg hsum
  rw [submitScore_eq g p scores hp] at h
  simp only [Except.ok.injEq, Prod.mk.injEq] at h
  obtain ⟨-, -, hg⟩ := h
  refine ⟨p, (submitLoop scores ⟨p, 0, false⟩).player, k, hp, ?_, ?_, hcs⟩
  · rw [← hg]
    split_ifs <;> rfl
  · rw [← hg]
    split_ifs <;> rfl

theorem reachable_within_scores {ρ : Type} {start : Int} {g : Game ρ} (h2 : 2 ≤ start)
    (hr : ReachableVia withinScore start g) :
    g.StartScore = start ∧ ∀ p ∈ g.Players, 0 ≤ p.CurrentScore := by
  induction hr with
  | new id sim =>
    refine ⟨rfl, ?_⟩
    intro p hp
    simp [New01Game] at hp
  | addPlayer profile _ ih =>
    refine ⟨ih.1, addPlayer_scores _ profile (fun c => 0 ≤ c) ?_ ih.2⟩
    show 0 ≤ _
    rw [ih.1]
    omega
  | playTurn _ hstep ih =>
    exact ⟨(playTurn_startScore hstep).trans ih.1,
      playTurn_preserves_scores (fun c => 0 ≤ c) (fun _ hc => by omega) hstep ih.2⟩
  | submitScore _ hadm hstep ih =>
    obtain ⟨p, q, k, hp, hpl, hst, hq⟩ := submitScore_players hstep hadm
    obtain ⟨hnonneg, p0, hp0, hsum⟩ := hadm
    rw [hp0] at hp
    simp only [Except.ok.injEq, Option.some.injEq] at hp
    subst hp
    have hb := sum_take_bounds _ hnonneg k
    refine ⟨hst.trans ih.1, ?_⟩
    intro x hx
    rw [hpl] at hx
    rcases List.mem_or_eq_of_mem_set hx with hx | hx
    · exact ih.2 x hx
    · rw [hx, hq]
      omega

/-- C13, counterexample: from a new game on 20 with one player, submitting a
    single score of 60 is accepted as a win and leaves that player's remaining
    score at -40. -/
theorem submitted_overshoot_goes_negative :
    ∃ res g1, SubmitScore (realGame 20) [60] = .ok (res, true, g1) ∧
      ReachableVia anySubmission 20 g1 ∧ ∃ p ∈ g1.Players, p.CurrentScore = -40 :=
  ⟨_, _, rfl,
    @ReachableVia.submitScore _ _ _ _ _ [60] _ _
      (ReachableVia.addPlayer realProfile (ReachableVia.new 0 (tapeSimulator [])))
      trivial rfl,
    _, List.mem_singleton.mpr rfl, rfl⟩

/-- C13, amended: in every state reachable from a new game on a starting score
    of at least 2 through `AddPlayer`, `PlayTurn` and submissions of
    non-negative scores that add up to no more than the current player's
    remaining score, no player's remaining score is negative; and from such a
    state neither a turn of a simulator that reports no negative score nor
    such a submission leaves any player's remaining score higher than it
    was. -/
theorem scores_nonneg_and_nonincreasing {ρ : Type} (start : Int) (g : Game ρ) (h2 : 2 ≤ start)
    (hr : ReachableVia withinScore start g) :
    (∀ p ∈ g.Players, 0 ≤ p.CurrentScore) ∧
    (∀ res g1, g.PlayTurn = .ok (res, g1) → NonnegScores g.Simulator →
      ∀ (i : Nat) (x x1 : Player), g.Players[i]? = some x → g1.Players[i]? = some x1 →
        x1.CurrentScore ≤ x.CurrentScore) ∧
    (∀ scores res won g1, withinScore g scores → SubmitScore g scores = .ok (res, won, g1) →
      ∀ (i : Nat) (x x1 : Player), g.Players[i]? = some x → g1.Players[i]? = some x1 →
        x1.CurrentScore ≤ x.CurrentScore) := by
  refine ⟨(reachable_within_scores h2 hr).2, ?_, ?_⟩
  · intro res g1 h hnn i x x1 hx hx1
    exact playTurn_score_le h hnn i x x1 hx hx1
  · intro scores res won g1 hadm h i x x1 hx hx1
    obtain ⟨p, q, k, hp, hpl, -, hq⟩ := submitScore_players h hadm
    obtain ⟨hnonneg, p0, hp0, hsum⟩ := hadm
    have hb := sum_take_bounds _ hnonneg k
    rw [hpl] at hx1
    exact set_current_score_le hp (by rw [hq]; omega) i x x1 hx hx1

/-- Witness for C13 (amended): 60, 60, 60 submitted on 501. -/
theorem scores_nonneg_and_nonincreasing_witness :
    ∃ res g1, SubmitScore (realGame 501) [60, 60, 60] = .ok (res, false, g1) ∧
      (∀ p ∈ g1.Players, 0 ≤ p.CurrentScore) :=
  ⟨_, _, rfl,
    (scores_nonneg_and_nonincreasing 501 _ (by decide)
      (@ReachableVia.submitScore _ _ _ _ _ [60, 60, 60] _ _
        (ReachableVia.addPlayer realProfile (ReachableVia.new 0 (tapeSimulator [])))
        ⟨by decide, _, rfl, by decide⟩ rfl)).1⟩

/-! ## After a win -/

/-- C15: after the Win from 40 with Single 20, Double 10, a second
    `PlayTurn` call on the same game throws Single 20, Single 5, Single 1 and
    moves the player from 40 to 14 with 5 throws counted instead of 2.  That
    call plays on because the Win left the player's remaining score at 40;
    with the remaining score of the Win result in its place the same call
    stops in the panic of `GetNextTarget`, and no dart is thrown. -/
theorem play_continues_after_win :
    ∃ r1 g1 r2 g2 p1 p2,
      (soloGame 40 [S20, D10, S20, S5, S1]).PlayTurn = .ok (some r1, g1) ∧
      r1.Typ = WinTurn ∧ r1.RemainingScore = 0 ∧
      g1.PlayTurn = .ok (some r2, g2) ∧ r2.Results = [S20, S5, S1] ∧
      g1.GetCurrentPlayer = .ok (some p1) ∧ g2.GetCurrentPlayer = .ok (some p2) ∧
      p1.CurrentScore = 40 ∧ p2.CurrentScore = 14 ∧ p1.Throws = 2 ∧ p2.Throws = 5 ∧
      g1.Simulator.rng = [S20, S5, S1] ∧ g2.Simulator.rng = [] ∧
      (g1.store { p1 with CurrentScore := r1.RemainingScore } g1.Simulator).PlayTurn =
        .error scorePanic :=
  ⟨_, _, _, _, _, _, rfl, rfl, rfl, rfl, rfl, rfl, rfl, rfl, rfl, rfl, rfl, rfl, rfl, rfl⟩
/-! ## float64 rounding -/

theorem roundHalfEven_cases (y : ℚ) :
    roundHalfEven y = ⌊y⌋ ∨ (roundHalfEven y = ⌊y⌋ + 1 ∧ 1 / 2 ≤ y - ⌊y⌋) := by
  unfold roundHalfEven
  split_ifs with h1 h2 h3
  · exact Or.inl rfl
  · exact Or.inr ⟨rfl, le_of_lt h2⟩
  · exact Or.inl rfl
  · exact Or.inr ⟨rfl, not_lt.mp h1⟩

theorem roundHalfEven_le {y : ℚ} {z : Int} (h : y ≤ z) : roundHalfEven y ≤ z := by
  have hf : ⌊y⌋ ≤ z := by
    have := Int.floor_le y
    exact_mod_cast le_trans this h
  rcases roundHalfEven_cases y with h1 | ⟨h1, h2⟩
  · rw [h1]
    exact hf
  · rw [h1]
    have hlt : (⌊y⌋ : ℚ) < z := by linarith
    have : ⌊y⌋ < z := by exact_mod_cast hlt
    omega

theorem le_roundHalfEven {y : ℚ} {z : Int} (h : (z : ℚ) ≤ y) : z ≤ roundHalfEven y := by
  have hf : z ≤ ⌊y⌋ := Int.le_floor.mpr h
  rcases roundHalfEven_cases y with h1 | ⟨h1, -⟩ <;> rw [h1] <;> omega

theorem roundHalfEven_eq {y : ℚ} {m : Int} (h : |y - m| < 1 / 2) : roundHalfEven y = m := by
  rw [abs_lt] at h
  obtain ⟨hlo, hhi⟩ := h
  have h1 := Int.floor_le y
  have h2 := Int.lt_floor_add_one y
  unfold roundHalfEven
  split_ifs with c1 c2 c3
  · have ha : (⌊y⌋ : ℚ) < m + 1 := by linarith
    have hb : (m : ℚ) < ⌊y⌋ + 1 := by linarith
    have ha1 : ⌊y⌋ < m + 1 := by exact_mod_cast ha
    have hb1 : m < ⌊y⌋ + 1 := by exact_mod_cast hb
    omega
  · have ha : (⌊y⌋ : ℚ) < m := by linarith
    have hb : (m : ℚ) < ⌊y⌋ + 2 := by linarith
    have ha1 : ⌊y⌋ < m := by exact_mod_cast ha
    have hb1 : m < ⌊y⌋ + 2 := by exact_mod_cast hb
    omega
  · exfalso
    have he : y - ⌊y⌋ = 1 / 2 := le_antisymm (not_lt.mp c2) (not_lt.mp c1)
    have ha : (⌊y⌋ : ℚ) < m := by linarith
    have hb : (m : ℚ) < ⌊y⌋ + 1 := by linarith
    have ha1 : ⌊y⌋ < m := by exact_mod_cast ha
    have hb1 : m < ⌊y⌋ + 1 := by exact_mod_cast hb
    omega
  · exfalso
    have he : y - ⌊y⌋ = 1 / 2 := le_antisymm (not_lt.mp c2) (not_lt.mp c1)
    have ha : (⌊y⌋ : ℚ) < m := by linarith
    have hb : (m : ℚ) < ⌊y⌋ + 1 := by linarith
    have ha1 : ⌊y⌋ < m := by exact_mod_cast ha
    have hb1 : m < ⌊y⌋ + 1 := by exact_mod_cast hb
    omega

theorem roundHalfEven_error (y : ℚ) : |(roundHalfEven y : ℚ) - y| ≤ 1 / 2 := by
  have h1 := Int.floor_le y
  have h2 := Int.lt_floor_add_one y
  rw [abs_le]
  unfold roundHalfEven
  split_ifs with c1 c2 c3
  · constructor <;> linarith
  · push_cast
    constructor <;> linarith
  · have he : y - ⌊y⌋ = 1 / 2 := le_antisymm (not_lt.mp c2) (not_lt.mp c1)
    constructor <;> linarith
  · have he : y - ⌊y⌋ = 1 / 2 := le_antisymm (not_lt.mp c2) (not_lt.mp c1)
    push_cast
    constructor <;> linarith

theorem roundF64_zero : roundF64 0 = 0 := by
  unfold roundF64
  rw [if_pos rfl]

theorem roundF64_of_pos {x : ℚ} (hx : 0 < x) :
    roundF64 x =
      roundHalfEven (x / 2 ^ max (Int.log 2 x - 52) (-1074)) *
        2 ^ max (Int.log 2 x - 52) (-1074) := by
  unfold roundF64
  rw [if_neg (ne_of_gt hx), abs_of_pos hx]
  simp only [if_pos hx]

theorem log2_le {x : ℚ} (hx : 0 < x) {k : Int} (h : x < 2 ^ (k + 1)) : Int.log 2 x ≤ k := by
  have h1 : x < ((2 : ℕ) : ℚ) ^ (k + 1) := by
    rw [Nat.cast_ofNat]
    exact h
  have := (Int.lt_zpow_iff_log_lt (by norm_num : 1 < 2) hx).mp h1
  omega

theorem log2_eq {x : ℚ} (hx : 0 < x) {k : Int} (hlo : 2 ^ k ≤ x) (hhi : x < 2 ^ (k + 1)) :
    Int.log 2 x = k := by
  have h1 : ((2 : ℕ) : ℚ) ^ k ≤ x := by
    rw [Nat.cast_ofNat]
    exact hlo
  have := (Int.zpow_le_iff_le_log (by norm_num : 1 < 2) hx).mp h1
  have := log2_le hx hhi
  omega

theorem two_zpow_pos (e : Int) : (0 : ℚ) < 2 ^ e := zpow_pos (by norm_num) e

/-- A multiple of a power of two is a whole number of every smaller power. -/
theorem multiple_of_smaller (N E e : Int) (h : e ≤ E) :
    ∃ z : Int, (N : ℚ) * 2 ^ E / 2 ^ e = z := by
  refine ⟨N * 2 ^ (E - e).toNat, ?_⟩
  have hd : ((E - e).toNat : Int) = E - e := Int.toNat_of_nonneg (by omega)
  have h2 : (2 : ℚ) ^ E / 2 ^ e = 2 ^ (E - e) := by
    rw [zpow_sub₀ (by norm_num : (2 : ℚ) ≠ 0)]
  rw [mul_div_assoc, h2]
  push_cast
  rw [← zpow_natCast, hd]

/-- Rounding does not step over a value `N × 2^E` of the float64 grid at the
    exponent of `x`: from below. -/
theorem roundF64_le {x : ℚ} (hx : 0 < x) (N E : Int) (hE : -1074 ≤ E)
    (hlog : Int.log 2 x - 52 ≤ E) (h : x ≤ N * 2 ^ E) : roundF64 x ≤ N * 2 ^ E := by
  rw [roundF64_of_pos hx]
  set e := max (Int.log 2 x - 52) (-1074) with he
  have hle : e ≤ E := max_le hlog hE
  obtain ⟨z, hz⟩ := multiple_of_smaller N E e hle
  have hpos := two_zpow_pos e
  have h1 : x / 2 ^ e ≤ z := by
    rw [← hz]
    exact div_le_div_of_nonneg_right h (le_of_lt hpos)
  have h2 : (roundHalfEven (x / 2 ^ e) : ℚ) ≤ z := by exact_mod_cast roundHalfEven_le h1
  have h3 : (N : ℚ) * 2 ^ E = z * 2 ^ e := by
    rw [← hz]
    field_simp
  rw [h3]
  exact mul_le_mul_of_nonneg_right h2 (le_of_lt hpos)

/-- Rounding does not step over a value `N × 2^E` of the float64 grid at the
    exponent of `x`: from above. -/
theorem le_roundF64 {x : ℚ} (hx : 0 < x) (N E : Int) (hE : -1074 ≤ E)
    (hlog : Int.log 2 x - 52 ≤ E) (h : (N : ℚ) * 2 ^ E ≤ x) :
    (N : ℚ) * 2 ^ E ≤ roundF64 x := by
  rw [roundF64_of_pos hx]
  set e := max (Int.log 2 x - 52) (-1074) with he
  have hle : e ≤ E := max_le hlog hE
  obtain ⟨z, hz⟩ := multiple_of_smaller N E e hle
  have hpos := two_zpow_pos e
  have h1 : (z : ℚ) ≤ x / 2 ^ e := by
    rw [← hz]
    exact div_le_div_of_nonneg_right h (le_of_lt hpos)
  have h2 : (z : ℚ) ≤ roundHalfEven (x / 2 ^ e) := by exact_mod_cast le_roundHalfEven h1
  have h3 : (N : ℚ) * 2 ^ E = z * 2 ^ e := by
    rw [← hz]
    field_simp
  rw [h3]
  exact mul_le_mul_of_nonneg_right h2 (le_of_lt hpos)

/-- The value of the rounding at a point between two powers of two. -/
theorem roundF64_eval {x : ℚ} (k m : Int) (hlo : 2 ^ k ≤ x) (hhi : x < 2 ^ (k + 1))
    (hk : -1022 ≤ k) (hm : |x / 2 ^ (k - 52) - m| < 1 / 2) :
    roundF64 x = m * 2 ^ (k - 52) := by
  have hx : 0 < x := lt_of_lt_of_le (two_zpow_pos k) hlo
  rw [roundF64_of_pos hx, log2_eq hx hlo hhi, max_eq_left (by omega), roundHalfEven_eq hm]

/-- Rounding moves a value below `2^(K+1)` by at most half a unit of the last
    place at that size. -/
theorem roundF64_error {x : ℚ} (hx : 0 < x) (K : Int) (hK : -1022 ≤ K)
    (h : x < 2 ^ (K + 1)) : |roundF64 x - x| ≤ 2 ^ (K - 53) := by
  rw [roundF64_of_pos hx]
  set e := max (Int.log 2 x - 52) (-1074) with he
  have hle : e ≤ K - 52 := max_le (by have := log2_le hx h; omega) (by omega)
  have hpos := two_zpow_pos e
  have herr := roundHalfEven_error (x / 2 ^ e)
  have h1 : (roundHalfEven (x / 2 ^ e) : ℚ) * 2 ^ e - x =
      ((roundHalfEven (x / 2 ^ e) : ℚ) - x / 2 ^ e) * 2 ^ e := by
    field_simp
  have h2 : (2 : ℚ) ^ e ≤ 2 ^ (K - 52) := zpow_le_zpow_right₀ (by norm_num) hle
  have h3 : (2 : ℚ) ^ (K - 52) = 2 * 2 ^ (K - 53) := by
    rw [show K - 52 = 1 + (K - 53) by ring, zpow_add₀ (by norm_num : (2 : ℚ) ≠ 0)]
    norm_num
  rw [h1, abs_mul, abs_of_pos hpos]
  have hp53 := two_zpow_pos (K - 53)
  nlinarith [abs_nonneg ((roundHalfEven (x / 2 ^ e) : ℚ) - x / 2 ^ e)]

theorem roundF64_neg {x : ℚ} (hx : 0 < x) : roundF64 (-x) = -roundF64 x := by
  rw [roundF64_of_pos hx]
  unfold roundF64
  rw [if_neg (by linarith : ¬ (-x = 0)), abs_neg, abs_of_pos hx]
  simp only [if_neg (by linarith : ¬ (0 < -x)), neg_neg]

/-- A natural number below `2^53` is a float64. -/
theorem roundF64_natCast (i : Nat) (hi : i < 2 ^ 53) : roundF64 (i : ℚ) = i := by
  rcases Nat.eq_zero_or_pos i with h0 | hpos
  · rw [h0]
    exact roundF64_zero
  · have hx : (0 : ℚ) < (i : ℚ) := by exact_mod_cast hpos
    have hlt : (i : ℚ) < 2 ^ ((52 : Int) + 1) := by
      have : (i : ℚ) < ((2 ^ 53 : Nat) : ℚ) := by exact_mod_cast hi
      norm_num at this ⊢
      exact this
    have hlog := log2_le hx hlt
    have hval : (i : ℚ) = ((i : Int) : ℚ) * 2 ^ (0 : Int) := by simp
    apply le_antisymm
    · have := roundF64_le hx (i : Int) 0 (by norm_num) (by omega) (le_of_eq hval)
      rw [← hval] at this
      exact this
    · have := le_roundF64 hx (i : Int) 0 (by norm_num) (by omega) (le_of_eq hval.symm)
      rw [← hval] at this
      exact this

/-- The thresholds of the bull are the float64 values of 6.35 and 15.9. -/
theorem bull_radii_rounded :
    roundF64 6.35 = DoubleBullRadius ∧ roundF64 15.9 = SingleBullRadius := by
  constructor
  · rw [roundF64_eval 2 7149464408450662 (by norm_num) (by norm_num) (by norm_num)
      (by norm_num [abs_lt])]
    unfold DoubleBullRadius
    norm_num
  · rw [roundF64_eval 3 8950904259398861 (by norm_num) (by norm_num) (by norm_num)
      (by norm_num [abs_lt])]
    unfold SingleBullRadius
    norm_num

/-! ## The landing point -/

theorem twoPi_pos : (0 : ℚ) < twoPi := by
  unfold twoPi
  norm_num

theorem segmentAngle_pos : (0 : ℚ) < segmentAngle := by
  unfold segmentAngle
  norm_num

theorem twenty_segments : segmentAngle * 20 = twoPi := by
  unfold segmentAngle twoPi
  norm_num

theorem piF_twice : piF * 2 = twoPi := by
  unfold piF twoPi
  norm_num

/-- The float64 product of a position and the sector width is exact. -/
theorem centre_product_exact (i : Nat) (hi : i < 20) :
    roundF64 ((i : ℚ) * segmentAngle) = (i : ℚ) * segmentAngle := by
  rcases Nat.eq_zero_or_pos i with h0 | hpos
  · rw [h0, Nat.cast_zero, zero_mul]
    exact roundF64_zero
  · have hs := segmentAngle_pos
    have hx : (0 : ℚ) < (i : ℚ) * segmentAngle := mul_pos (by exact_mod_cast hpos) hs
    have h8 : (i : ℚ) * segmentAngle < 2 ^ ((2 : Int) + 1) := by
      have h20 : (i : ℚ) < 20 := by exact_mod_cast hi
      have : (i : ℚ) * segmentAngle < 20 * segmentAngle := mul_lt_mul_of_pos_right h20 hs
      have h2 : (20 : ℚ) * segmentAngle < 8 := by
        unfold segmentAngle
        norm_num
      norm_num
      linarith
    have hlog := log2_le hx h8
    have hval : (i : ℚ) * segmentAngle =
        (((i : Int) * 176855943800711 : Int) : ℚ) * 2 ^ (-49 : Int) := by
      unfold segmentAngle
      push_cast
      norm_num
      ring
    apply le_antisymm
    · have := roundF64_le hx ((i : Int) * 176855943800711) (-49) (by norm_num) (by omega)
        (le_of_eq hval)
      rw [← hval] at this
      exact this
    · have := le_roundF64 hx ((i : Int) * 176855943800711) (-49) (by norm_num) (by omega)
        (le_of_eq hval.symm)
      rw [← hval] at this
      exact this

theorem raiseAngle_of_nonneg (fuel : Nat) {a : ℚ} (h : 0 ≤ a) : raiseAngle fuel a = some a := by
  cases fuel <;> simp [raiseAngle, not_lt.mpr h]

theorem lowerAngle_of_lt (fuel : Nat) {a : ℚ} (h : a < twoPi) : lowerAngle fuel a = some a := by
  cases fuel <;> simp [lowerAngle, not_le.mpr h]

/-- One pass of the first loop on a negative landing angle. -/
theorem raised_range {a : ℚ} (hlo : -piF ≤ a) (hneg : a < 0) :
    piF ≤ roundF64 (a + twoPi) ∧ roundF64 (a + twoPi) ≤ twoPi ∧
      |roundF64 (a + twoPi) - (a + twoPi)| ≤ 1 / 2 ^ 51 := by
  have hpi := piF_twice
  have hpipos : (0 : ℚ) < piF := by
    unfold piF
    norm_num
  have hx : 0 < a + twoPi := by linarith
  have h8 : a + twoPi < 2 ^ ((2 : Int) + 1) := by
    have : twoPi < 8 := by
      unfold twoPi
      norm_num
    norm_num
    linarith
  have hlog := log2_le hx h8
  have hp : piF = ((884279719003555 : Int) : ℚ) * 2 ^ (-48 : Int) := by
    unfold piF
    norm_num
  have ht : twoPi = ((884279719003555 : Int) : ℚ) * 2 ^ (-47 : Int) := by
    unfold twoPi
    norm_num
  refine ⟨?_, ?_, ?_⟩
  · have := le_roundF64 hx 884279719003555 (-48) (by norm_num) (by omega)
      (by rw [← hp]; linarith)
    rw [← hp] at this
    exact this
  · have := roundF64_le hx 884279719003555 (-47) (by norm_num) (by omega)
      (by rw [← ht]; linarith)
    rw [← ht] at this
    exact this
  · have := roundF64_error hx 2 (by norm_num) h8
    norm_num at this ⊢
    exact this

/-- The two loops on a landing angle: each takes at most one pass, and the
    result is the angle itself, the rounded sum with `2π`, or 0 when that sum
    rounds to `2π`. -/
theorem normalise_landing (fuel : Nat) {a : ℚ} (hlo : -piF ≤ a) (hhi : a ≤ piF) :
    ∃ r a1, raiseAngle (fuel + 1) a = some r ∧ lowerAngle (fuel + 1) r = some a1 ∧
      0 ≤ a1 ∧ a1 < twoPi ∧
      ((0 ≤ a ∧ a1 = a) ∨
        (a < 0 ∧ roundF64 (a + twoPi) < twoPi ∧ a1 = roundF64 (a + twoPi)) ∨
        (a < 0 ∧ roundF64 (a + twoPi) = twoPi ∧ a1 = 0)) := by
  have hpi := piF_twice
  have hpipos : (0 : ℚ) < piF := by
    unfold piF
    norm_num
  by_cases hneg : a < 0
  · obtain ⟨h1, h2, -⟩ := raised_range hlo hneg
    have hr : raiseAngle (fuel + 1) a = some (roundF64 (a + twoPi)) := by
      rw [raiseAngle, if_pos hneg, raiseAngle_of_nonneg fuel (by linarith)]
    rcases lt_or_eq_of_le h2 with hlt | heq
    · exact ⟨_, _, hr, lowerAngle_of_lt _ hlt, by linarith, hlt, Or.inr (Or.inl ⟨hneg, hlt, rfl⟩)⟩
    · refine ⟨_, 0, hr, ?_, le_refl _, twoPi_pos, Or.inr (Or.inr ⟨hneg, heq, rfl⟩)⟩
      rw [heq, lowerAngle, if_pos (le_refl _), sub_self, roundF64_zero,
        lowerAngle_of_lt fuel twoPi_pos]
  · have h0 : 0 ≤ a := not_lt.mp hneg
    have hlt : a < twoPi := by linarith
    exact ⟨a, a, raiseAngle_of_nonneg _ h0, lowerAngle_of_lt _ hlt, h0, hlt, Or.inl ⟨h0, rfl⟩⟩

/-- Far from zero the first loop makes no headway: at -1e17 the sum with
    `2π` rounds back to -1e17, and no number of passes ends the loop. -/
theorem raiseAngle_stuck (fuel : Nat) : raiseAngle fuel (-100000000000000000) = none := by
  have hpos : roundF64 (100000000000000000 - twoPi) = 100000000000000000 := by
    unfold twoPi
    rw [roundF64_eval 56 6250000000000000 (by norm_num) (by norm_num) (by norm_num)
      (by norm_num [abs_lt])]
    norm_num
  have hstep : roundF64 (-100000000000000000 + twoPi) = -100000000000000000 := by
    have hneg : (-100000000000000000 : ℚ) + twoPi = -(100000000000000000 - twoPi) := by ring
    rw [hneg, roundF64_neg (by unfold twoPi; norm_num), hpos]
  induction fuel with
  | zero => simp [raiseAngle]
  | succ n ih =>
    rw [raiseAngle, if_pos (by norm_num), hstep]
    exact ih

/-- At -1e17 `getNumberFromAngle` does not return, whatever the fuel. -/
theorem getNumberFromAngle_stuck (fuel : Nat) :
    getNumberFromAngle fuel (-100000000000000000) = none := by
  unfold getNumberFromAngle
  rw [raiseAngle_stuck]

theorem goRound_of_nonneg {x : ℚ} (h : 0 ≤ x) : goRound x = round x := by
  unfold goRound
  rw [if_pos h]

theorem goRound_range {x : ℚ} (h0 : 0 ≤ x) (h20 : x ≤ 20) :
    0 ≤ goRound x ∧ goRound x ≤ 20 := by
  rw [goRound_of_nonneg h0, round_eq]
  constructor
  · exact Int.floor_nonneg.mpr (by linarith)
  · have hlt : ⌊x + 1 / 2⌋ < 21 := by
      rw [Int.floor_lt]
      push_cast
      linarith
    omega

/-- The float64 quotient of a normalised angle by the sector width. -/
theorem quotient_range {a1 : ℚ} (h0 : 0 ≤ a1) (h2 : a1 < twoPi) :
    0 ≤ roundF64 (a1 / segmentAngle) ∧ roundF64 (a1 / segmentAngle) ≤ 20 ∧
      |roundF64 (a1 / segmentAngle) - a1 / segmentAngle| ≤ 1 / 2 ^ 49 := by
  rcases eq_or_lt_of_le h0 with hz | hpos
  · rw [← hz, zero_div, roundF64_zero]
    norm_num
  · have hx : 0 < a1 / segmentAngle := div_pos hpos segmentAngle_pos
    have h20 : a1 / segmentAngle < 20 := by
      rw [div_lt_iff₀ segmentAngle_pos, mul_comm, twenty_segments]
      exact h2
    have h32 : a1 / segmentAngle < 2 ^ ((4 : Int) + 1) := by
      norm_num
      linarith
    have hlog := log2_le hx h32
    refine ⟨?_, ?_, ?_⟩
    · have := le_roundF64 hx 0 0 (by norm_num) (by omega) (by norm_num; exact le_of_lt hx)
      norm_num at this
      exact this
    · have := roundF64_le hx 20 0 (by norm_num) (by omega) (by norm_num; exact le_of_lt h20)
      norm_num at this
      exact this
    · have := roundF64_error hx 4 (by norm_num) h32
      norm_num at this ⊢
      exact this

theorem board_numbers : ∀ n ∈ Board, 1 ≤ n ∧ n ≤ 20 := by
  decide

theorem board_length : Board.length = 20 := rfl

theorem board_index {i : Int} (h0 : 0 ≤ i) (h20 : i < 20) :
    ∃ n, Board[i.toNat]? = some n ∧ 1 ≤ n ∧ n ≤ 20 := by
  have hlt : i.toNat < Board.length := by
    rw [board_length]
    omega
  refine ⟨Board[i.toNat], List.getElem?_eq_getElem hlt, ?_⟩
  exact board_numbers _ (List.getElem_mem hlt)

theorem segmentIndex_range {q : Int} (h0 : 0 ≤ q) :
    Int.tmod q 20 = q % 20 ∧ 0 ≤ Int.tmod q 20 ∧ Int.tmod q 20 < 20 := by
  have h := Int.tmod_eq_emod h0 (by decide : (0 : Int) ≤ 20)
  rw [h]
  refine ⟨rfl, ?_, ?_⟩ <;> omega

/-- Past the two loops the number is read from `Board`. -/
theorem getNumberFromAngle_of_normalised {fuel : Nat} {a r a1 : ℚ}
    (hr : raiseAngle fuel a = some r) (hl : lowerAngle fuel r = some a1)
    (h0 : 0 ≤ a1) (h2 : a1 < twoPi) :
    ∃ n, getNumberFromAngle fuel a = some (.ok n) ∧ 1 ≤ n ∧ n ≤ 20 ∧
      Board[(goRound (roundF64 (a1 / segmentAngle)) % 20).toNat]? = some n := by
  obtain ⟨hq0, hq20, -⟩ := quotient_range h0 h2
  obtain ⟨hr0, hr20⟩ := goRound_range hq0 hq20
  obtain ⟨hmod, hi0, hi20⟩ := segmentIndex_range hr0
  obtain ⟨n, hn, h1, h20⟩ := board_index hi0 hi20
  refine ⟨n, ?_, h1, h20, by rw [← hmod]; exact hn⟩
  unfold getNumberFromAngle
  simp only [hr, hl, if_pos hi0, hn]

/-- Whatever number `getNumberFromAngle` returns is a number of the board. -/
theorem getNumberFromAngle_board {fuel : Nat} {a : ℚ} {n : Int}
    (h : getNumberFromAngle fuel a = some (.ok n)) : 1 ≤ n ∧ n ≤ 20 := by
  unfold getNumberFromAngle at h
  split at h
  · cases h
  · split at h
    · cases h
    · simp only at h
      split at h
      · split at h
        · rename_i number hb
          simp only [Option.some.injEq, Except.ok.injEq] at h
          subst h
          exact board_numbers _ (List.getElem?_mem hb)
        · simp at h
      · simp at h

theorem determineHit_ring {fuel : Nat} {radius angle : ℚ} (h1 : ¬ radius ≤ DoubleBullRadius)
    (h2 : ¬ radius ≤ SingleBullRadius) (h3 : ¬ radius > BoardRadius) (n : Int)
    (hn : getNumberFromAngle fuel angle = some (.ok n)) :
    determineHit fuel radius angle =
      some (.ok { Number := n, Multiplier := ringOf radius, Score := n * ringOf radius }) := by
  unfold determineHit
  rw [if_neg h1, if_neg h2, if_neg h3, hn]
  rfl

theorem ringOf_cases (radius : ℚ) :
    ringOf radius = Single ∨ ringOf radius = Double ∨ ringOf radius = Triple := by
  unfold ringOf
  split_ifs
  · exact Or.inr (Or.inl rfl)
  · exact Or.inr (Or.inr rfl)
  · exact Or.inl rfl

/-- What an outcome of C18 has to satisfy. -/
theorem outcome_cases {fuel : Nat} {radius angle : ℚ} {d : DartResult}
    (h : determineHit fuel radius angle = some (.ok d)) :
    d = { Number := Bullseye, Multiplier := Double, Score := 50 } ∨
    d = { Number := Bullseye, Multiplier := Single, Score := 25 } ∨
    d = { Number := 0, Multiplier := Miss, Score := 0 } ∨
    ∃ n, 1 ≤ n ∧ n ≤ 20 ∧
      d = { Number := n, Multiplier := ringOf radius, Score := n * ringOf radius } := by
  by_cases h1 : radius ≤ DoubleBullRadius
  · unfold determineHit at h
    rw [if_pos h1] at h
    simp only [Option.some.injEq, Except.ok.injEq] at h
    exact Or.inl h.symm
  by_cases h2 : radius ≤ SingleBullRadius
  · unfold determineHit at h
    rw [if_neg h1, if_pos h2] at h
    simp only [Option.some.injEq, Except.ok.injEq] at h
    exact Or.inr (Or.inl h.symm)
  by_cases h3 : radius > BoardRadius
  · unfold determineHit at h
    rw [if_neg h1, if_neg h2, if_pos h3] at h
    simp only [Option.some.injEq, Except.ok.injEq] at h
    exact Or.inr (Or.inr (Or.inl h.symm))
  cases hg : getNumberFromAngle fuel angle with
  | none =>
    unfold determineHit at h
    rw [if_neg h1, if_neg h2, if_neg h3, hg] at h
    cases h
  | some res =>
    cases res with
    | error e =>
      unfold determineHit at h
      rw [if_neg h1, if_neg h2, if_neg h3, hg] at h
      simp at h
    | ok n =>
      rw [determineHit_ring h1 h2 h3 n hg] at h
      simp only [Option.some.injEq, Except.ok.injEq] at h
      obtain ⟨hn1, hn20⟩ := getNumberFromAngle_board hg
      exact Or.inr (Or.inr (Or.inr ⟨n, hn1, hn20, h.symm⟩))

theorem outcome_valid {fuel : Nat} {radius angle : ℚ} {d : DartResult}
    (h : determineHit fuel radius angle = some (.ok d)) :
    ValidOutcome d ∧ ¬ (d.Multiplier = Triple ∧ d.Number = 25) ∧
      (d.Score = 0 ∨ d.Score = 25 ∨ d.Score = 50 ∨
        ∃ n m : Int, 1 ≤ n ∧ n ≤ 20 ∧ 1 ≤ m ∧ m ≤ 3 ∧ d.Score = n * m) := by
  rcases outcome_cases h with rfl | rfl | rfl | ⟨n, hn1, hn20, rfl⟩
  · refine ⟨⟨by decide, Or.inr (Or.inr ⟨Or.inr rfl, rfl⟩)⟩, ?_, Or.inr (Or.inr (Or.inl rfl))⟩
    rintro ⟨hm, -⟩
    exact absurd hm (by decide)
  · refine ⟨⟨by decide, Or.inr (Or.inr ⟨Or.inl rfl, rfl⟩)⟩, ?_, Or.inr (Or.inl rfl)⟩
    rintro ⟨hm, -⟩
    exact absurd hm (by decide)
  · refine ⟨⟨by decide, Or.inl ⟨rfl, rfl⟩⟩, ?_, Or.inl rfl⟩
    rintro ⟨hm, -⟩
    exact absurd hm (by decide)
  · refine ⟨⟨rfl, Or.inr (Or.inl ⟨ringOf_cases radius, hn1, hn20⟩)⟩, ?_, ?_⟩
    · rintro ⟨-, h25⟩
      have h25 : n = 25 := h25
      omega
    · refine Or.inr (Or.inr (Or.inr ⟨n, ringOf radius, hn1, hn20, ?_, ?_, rfl⟩))
      · rcases ringOf_cases radius with h | h | h <;> rw [h] <;> decide
      · rcases ringOf_cases radius with h | h | h <;> rw [h] <;> decide

/-- For a landing angle `determineHit` returns an outcome. -/
theorem determineHit_returns (fuel : Nat) (radius : ℚ) {angle : ℚ} (hlo : -piF ≤ angle)
    (hhi : angle ≤ piF) : ∃ d, determineHit (fuel + 1) radius angle = some (.ok d) := by
  by_cases h1 : radius ≤ DoubleBullRadius
  · exact ⟨_, by unfold determineHit; rw [if_pos h1]⟩
  by_cases h2 : radius ≤ SingleBullRadius
  · exact ⟨_, by unfold determineHit; rw [if_neg h1, if_pos h2]⟩
  by_cases h3 : radius > BoardRadius
  · exact ⟨_, by unfold determineHit; rw [if_neg h1, if_neg h2, if_pos h3]⟩
  obtain ⟨r, a1, hr, hl, h0, h2p, -⟩ := normalise_landing fuel hlo hhi
  obtain ⟨n, hn, -⟩ := getNumberFromAngle_of_normalised hr hl h0 h2p
  exact ⟨_, determineHit_ring h1 h2 h3 n hn⟩

/-- Both returns of `ThrowDart` are `determineHit` at a landing point whose
    angle comes from `math.Atan2`. -/
theorem throwDart_lands {ρ : Type} (env : ThrowEnv ρ) (angleMap : AngleMap) (fuel : Nat)
    (rng : ρ) (target : DartTarget) (spread : ℚ) :
    ∃ radius angle, -piF ≤ angle ∧ angle ≤ piF ∧
      (ThrowDart env angleMap fuel rng target spread).1 = determineHit fuel radius angle := by
  unfold ThrowDart
  split_ifs
  · exact ⟨_, _, (env.atan2_range _ _).1, (env.atan2_range _ _).2, rfl⟩
  · exact ⟨_, _, (env.atan2_range _ _).1, (env.atan2_range _ _).2, rfl⟩

/-- C18: whatever outcome `determineHit` returns, for any radius and angle,
    has `Score = Number × Multiplier` with ring and number Miss with 0, or
    Single, Double or Triple with a number from 1 to 20, or Single or Double
    with 25: the score is 0, 25, 50 or `n × m` with `n` in 1..20 and `m` in
    1..3, and never a Triple 25.  For a landing angle, from -π to π as
    `math.Atan2` gives it, `determineHit` does return an outcome after at
    most one pass of each loop; and so `ThrowDart` returns such an outcome for
    every target, every spread and every random source. -/
theorem determineHit_outcome_valid (fuel : Nat) (radius angle : ℚ) :
    (∀ d, determineHit fuel radius angle = some (.ok d) →
      ValidOutcome d ∧ ¬ (d.Multiplier = Triple ∧ d.Number = 25) ∧
      (d.Score = 0 ∨ d.Score = 25 ∨ d.Score = 50 ∨
        ∃ n m : Int, 1 ≤ n ∧ n ≤ 20 ∧ 1 ≤ m ∧ m ≤ 3 ∧ d.Score = n * m)) ∧
    (-piF ≤ angle → angle ≤ piF →
      ∃ d, determineHit (fuel + 1) radius angle = some (.ok d)) ∧
    ∀ (ρ : Type) (env : ThrowEnv ρ) (angleMap : AngleMap) (rng : ρ) (target : DartTarget)
      (spread : ℚ),
      ∃ d, (ThrowDart env angleMap (fuel + 1) rng target spread).1 = some (.ok d) ∧
        ValidOutcome d ∧ ¬ (d.Multiplier = Triple ∧ d.Number = 25) ∧
        (d.Score = 0 ∨ d.Score = 25 ∨ d.Score = 50 ∨
          ∃ n m : Int, 1 ≤ n ∧ n ≤ 20 ∧ 1 ≤ m ∧ m ≤ 3 ∧ d.Score = n * m) := by
  refine ⟨fun d h => outcome_valid h, fun hlo hhi => determineHit_returns fuel radius hlo hhi, ?_⟩
  intro ρ env angleMap rng target spread
  obtain ⟨r, a, hlo, hhi, hra⟩ := throwDart_lands env angleMap (fuel + 1) rng target spread
  obtain ⟨d, hd⟩ := determineHit_returns fuel r hlo hhi
  exact ⟨d, by rw [hra, hd], outcome_valid hd⟩

/-- Witness for C18: a landing point in the Triple ring, straight up, and a
    throw that lands there. -/
theorem determineHit_outcome_valid_witness :
    (∃ d, determineHit 1 103 0 = some (.ok d)) ∧
    ∃ d, (ThrowDart (straightUpEnv 103) newAngleMap 1 () T20.toDartTarget 0).1 = some (.ok d) ∧
      ValidOutcome d ∧ ¬ (d.Multiplier = Triple ∧ d.Number = 25) ∧
      (d.Score = 0 ∨ d.Score = 25 ∨ d.Score = 50 ∨
        ∃ n m : Int, 1 ≤ n ∧ n ≤ 20 ∧ 1 ≤ m ∧ m ≤ 3 ∧ d.Score = n * m) :=
  ⟨(determineHit_outcome_valid 0 103 0).2.1 (by norm_num [piF]) (by norm_num [piF]),
    (determineHit_outcome_valid 0 103 0).2.2 Unit (straightUpEnv 103) newAngleMap ()
      T20.toDartTarget 0⟩

/-- C19: `determineHit` classifies by the radius alone, with the float64
    values of 6.35 and 15.9 as thresholds: up to the first it is Double 25 for
    50; above that and up to the second it is Single 25 for 25; above 170 it
    is a Miss with number 0 and score 0; for every other radius the ring is
    Double from 162 to 170, Triple from 99 to 107 and Single otherwise, and
    the score is the number found from the angle times the ring's multiplier,
    a number that is found for every landing angle. -/
theorem determineHit_by_radius (fuel : Nat) (radius angle : ℚ) :
    (roundF64 6.35 = DoubleBullRadius ∧ roundF64 15.9 = SingleBullRadius) ∧
    (radius ≤ DoubleBullRadius →
      determineHit fuel radius angle =
        some (.ok { Multiplier := Double, Number := 25, Score := 50 })) ∧
    (DoubleBullRadius < radius → radius ≤ SingleBullRadius →
      determineHit fuel radius angle =
        some (.ok { Multiplier := Single, Number := 25, Score := 25 })) ∧
    (170 < radius →
      determineHit fuel radius angle =
        some (.ok { Multiplier := Miss, Number := 0, Score := 0 })) ∧
    (SingleBullRadius < radius → radius ≤ 170 →
      (∀ n, getNumberFromAngle fuel angle = some (.ok n) →
        determineHit fuel radius angle =
          some (.ok { Multiplier := ringOf radius, Number := n, Score := n * ringOf radius })) ∧
      (-piF ≤ angle → angle ≤ piF →
        ∃ n, getNumberFromAngle (fuel + 1) angle = some (.ok n) ∧
          determineHit (fuel + 1) radius angle =
            some (.ok { Multiplier := ringOf radius, Number := n,
                        Score := n * ringOf radius }))) := by
  have hd : DoubleBullRadius < SingleBullRadius := by
    unfold DoubleBullRadius SingleBullRadius
    norm_num
  have hs : SingleBullRadius < 170 := by
    unfold SingleBullRadius
    norm_num
  refine ⟨bull_radii_rounded, ?_, ?_, ?_, ?_⟩
  · intro h1
    unfold determineHit
    rw [if_pos h1]
    rfl
  · intro hlo hhi
    unfold determineHit
    rw [if_neg (not_le.mpr hlo), if_pos hhi]
    rfl
  · intro h
    have h1 : ¬ radius ≤ DoubleBullRadius := not_le.mpr (by linarith)
    have h2 : ¬ radius ≤ SingleBullRadius := not_le.mpr (by linarith)
    have h3 : radius > BoardRadius := by
      unfold BoardRadius
      exact h
    unfold determineHit
    rw [if_neg h1, if_neg h2, if_pos h3]
  · intro hlo hhi
    have h1 : ¬ radius ≤ DoubleBullRadius := not_le.mpr (by linarith)
    have h2 : ¬ radius ≤ SingleBullRadius := not_le.mpr hlo
    have h3 : ¬ radius > BoardRadius := by
      unfold BoardRadius
      exact not_lt.mpr hhi
    refine ⟨fun n hn => determineHit_ring h1 h2 h3 n hn, fun halo hahi => ?_⟩
    obtain ⟨r, a1, hr, hl, h0, h2p, -⟩ := normalise_landing fuel halo hahi
    obtain ⟨n, hn, -⟩ := getNumberFromAngle_of_normalised hr hl h0 h2p
    exact ⟨n, hn, determineHit_ring h1 h2 h3 n hn⟩

/-- Witness for C19: a landing point at radius 100 is in the Triple ring. -/
theorem determineHit_by_radius_witness :
    ∃ n, getNumberFromAngle 1 0 = some (.ok n) ∧
      determineHit 1 100 0 =
        some (.ok { Multiplier := ringOf 100, Number := n, Score := n * ringOf 100 }) :=
  ((determineHit_by_radius 0 100 0).2.2.2.2 (by norm_num [SingleBullRadius])
    (by norm_num)).2 (by norm_num [piF]) (by norm_num [piF])

/-- The centre that the rounded quotient names is within half a sector width
    and the two roundings of the angle. -/
theorem centre_distance {a1 : ℚ} (h0 : 0 ≤ a1) (h2 : a1 < twoPi) :
    |a1 - goRound (roundF64 (a1 / segmentAngle)) * segmentAngle| ≤
      segmentAngle / 2 + 1 / 2 ^ 50 := by
  obtain ⟨hq0, -, herr⟩ := quotient_range h0 h2
  have hs := segmentAngle_pos
  have hs1 : segmentAngle < 1 / 2 := by
    unfold segmentAngle
    norm_num
  have hround := abs_sub_round (roundF64 (a1 / segmentAngle))
  rw [goRound_of_nonneg hq0]
  set c := roundF64 (a1 / segmentAngle) with hc
  have hsplit : a1 - round c * segmentAngle =
      (a1 / segmentAngle - c) * segmentAngle + (c - round c) * segmentAngle := by
    field_simp
    ring
  have he1 : |(a1 / segmentAngle - c) * segmentAngle| ≤ 1 / 2 ^ 49 * segmentAngle := by
    rw [abs_mul, abs_of_pos hs, abs_sub_comm]
    exact mul_le_mul_of_nonneg_right herr (le_of_lt hs)
  have he2 : |(c - round c) * segmentAngle| ≤ 1 / 2 * segmentAngle := by
    rw [abs_mul, abs_of_pos hs]
    exact mul_le_mul_of_nonneg_right hround (le_of_lt hs)
  rw [hsplit]
  have htri := abs_add ((a1 / segmentAngle - c) * segmentAngle) ((c - round c) * segmentAngle)
  have hsmall : (1 : ℚ) / 2 ^ 49 * segmentAngle ≤ 1 / 2 ^ 50 := by
    have : (1 : ℚ) / 2 ^ 50 = 1 / 2 ^ 49 * (1 / 2) := by norm_num
    rw [this]
    exact mul_le_mul_of_nonneg_left (le_of_lt hs1) (by norm_num)
  linarith

/-- C20, as amended: for every angle from -π to π `getNumberFromAngle`
    comes to its end after at most one pass of each loop and returns
    `Board[k]` with `k = q mod 20`, where `q` is the float64 quotient of the
    normalised angle by the sector width, rounded; the normalised angle is in
    `[0, 2π)`, `q` is from 0 to 20, so `k` is an index from 0 to 19 (20 wraps
    to 0) and the number is from 1 to 20.  Of all sector centres, `q` is the
    nearest to the computed quotient; to the angle itself, moved by a whole
    turn where the normalisation did so, its centre is nearest up to the
    rounding of the sum and of the quotient: not further than half a sector
    width and `2^-49`. -/
theorem getNumberFromAngle_nearest_computed (fuel : Nat) (a : ℚ) (hlo : -piF ≤ a)
    (hhi : a ≤ piF) :
    ∃ (a1 c : ℚ) (q n : Int),
      0 ≤ a1 ∧ a1 < twoPi ∧
      ((0 ≤ a ∧ a1 = a) ∨
        (a < 0 ∧ roundF64 (a + twoPi) < twoPi ∧ a1 = roundF64 (a + twoPi)) ∨
        (a < 0 ∧ roundF64 (a + twoPi) = twoPi ∧ a1 = 0)) ∧
      c = roundF64 (a1 / segmentAngle) ∧ 0 ≤ c ∧ c ≤ 20 ∧
      q = goRound c ∧ 0 ≤ q ∧ q ≤ 20 ∧
      0 ≤ q % 20 ∧ q % 20 < 20 ∧ (q = 20 → q % 20 = 0) ∧
      Board[(q % 20).toNat]? = some n ∧
      getNumberFromAngle (fuel + 1) a = some (.ok n) ∧ 1 ≤ n ∧ n ≤ 20 ∧
      (∀ j : Int, |c - q| ≤ |c - j|) ∧
      ∃ turns : Int, (turns = 0 ∨ turns = 1) ∧
        |a + turns * twoPi - q * segmentAngle| ≤ segmentAngle / 2 + 1 / 2 ^ 49 := by
  obtain ⟨r, a1, hr, hl, h0, h2, hcase⟩ := normalise_landing fuel hlo hhi
  obtain ⟨hq0, hq20, -⟩ := quotient_range h0 h2
  obtain ⟨hr0, hr20⟩ := goRound_range hq0 hq20
  obtain ⟨n, hn, h1, h20, hb⟩ := getNumberFromAngle_of_normalised hr hl h0 h2
  have hdist := centre_distance h0 h2
  have hs := segmentAngle_pos
  refine ⟨a1, roundF64 (a1 / segmentAngle), goRound (roundF64 (a1 / segmentAngle)), n,
    h0, h2, hcase, rfl, hq0, hq20, rfl, hr0, hr20, ?_, ?_, ?_, hb, hn, h1, h20, ?_, ?_⟩
  · omega
  · omega
  · intro h
    omega
  · intro j
    rw [goRound_of_nonneg hq0]
    exact round_le _ j
  · rcases hcase with ⟨-, ha1⟩ | ⟨hneg, -, ha1⟩ | ⟨hneg, heq, ha1⟩
    · refine ⟨0, Or.inl rfl, ?_⟩
      subst ha1
      have h49 : (1 : ℚ) / 2 ^ 50 ≤ 1 / 2 ^ 49 := by norm_num
      push_cast
      rw [zero_mul, add_zero]
      linarith
    · refine ⟨1, Or.inr rfl, ?_⟩
      obtain ⟨-, -, herr⟩ := raised_range hlo hneg
      rw [← ha1] at herr
      push_cast
      rw [one_mul]
      have hsplit : a + twoPi - goRound (roundF64 (a1 / segmentAngle)) * segmentAngle =
          (a1 - goRound (roundF64 (a1 / segmentAngle)) * segmentAngle) - (a1 - (a + twoPi)) := by
        ring
      rw [hsplit]
      have htri := abs_sub (a1 - goRound (roundF64 (a1 / segmentAngle)) * segmentAngle)
        (a1 - (a + twoPi))
      have h49 : (1 : ℚ) / 2 ^ 50 + 1 / 2 ^ 51 ≤ 1 / 2 ^ 49 := by norm_num
      linarith
    · refine ⟨0, Or.inl rfl, ?_⟩
      obtain ⟨-, -, herr⟩ := raised_range hlo hneg
      rw [heq] at herr
      have hq : goRound (roundF64 (a1 / segmentAngle)) = 0 := by
        rw [ha1, zero_div, roundF64_zero]
        simp [goRound]
      rw [hq]
      push_cast
      rw [zero_mul, zero_mul, add_zero, sub_zero]
      have habs : |a| = |twoPi - (a + twoPi)| := by
        rw [show twoPi - (a + twoPi) = -a by ring, abs_neg]
      rw [habs]
      have h49 : (1 : ℚ) / 2 ^ 51 ≤ 1 / 2 ^ 49 := by norm_num
      linarith

/-- Witness for C20 at the angle -1/2. -/
theorem getNumberFromAngle_nearest_computed_witness :
    ∃ (a1 c : ℚ) (q n : Int),
      0 ≤ a1 ∧ a1 < twoPi ∧
      ((0 ≤ (-1 / 2 : ℚ) ∧ a1 = -1 / 2) ∨
        ((-1 / 2 : ℚ) < 0 ∧ roundF64 (-1 / 2 + twoPi) < twoPi ∧
          a1 = roundF64 (-1 / 2 + twoPi)) ∨
        ((-1 / 2 : ℚ) < 0 ∧ roundF64 (-1 / 2 + twoPi) = twoPi ∧ a1 = 0)) ∧
      c = roundF64 (a1 / segmentAngle) ∧ 0 ≤ c ∧ c ≤ 20 ∧
      q = goRound c ∧ 0 ≤ q ∧ q ≤ 20 ∧
      0 ≤ q % 20 ∧ q % 20 < 20 ∧ (q = 20 → q % 20 = 0) ∧
      Board[(q % 20).toNat]? = some n ∧
      getNumberFromAngle 1 (-1 / 2) = some (.ok n) ∧ 1 ≤ n ∧ n ≤ 20 ∧
      (∀ j : Int, |c - q| ≤ |c - j|) ∧
      ∃ turns : Int, (turns = 0 ∨ turns = 1) ∧
        |-1 / 2 + turns * twoPi - q * segmentAngle| ≤ segmentAngle / 2 + 1 / 2 ^ 49 :=
  getNumberFromAngle_nearest_computed 0 (-1 / 2) (by norm_num [piF]) (by norm_num [piF])

/-- C20, the counterexample: at the float64 angle -0.15707963267948968 the
    sum with `2π` rounds up to 19.5 sector widths, which `math.Round` takes
    to 20, so the function returns 20; the angle itself is nearer to the
    centre of 5, the sector before. -/
theorem rounded_sum_picks_farther_centre :
    -piF ≤ tieAngle ∧ tieAngle ≤ piF ∧ roundF64 tieAngle = tieAngle ∧
    (∀ fuel, getNumberFromAngle (fuel + 1) tieAngle = some (.ok 20)) ∧
    Board[19]? = some 5 ∧ Board[0]? = some 20 ∧
    |tieAngle + twoPi - 19 * segmentAngle| < |tieAngle + twoPi - 20 * segmentAngle| ∧
    |tieAngle - -1 * segmentAngle| < |tieAngle - 0 * segmentAngle| ∧
    ∀ j : Int, |tieAngle + twoPi - 19 * segmentAngle| ≤ |tieAngle + twoPi - j * segmentAngle| := by
  have hsum : roundF64 (tieAngle + twoPi) = 6897381808227729 / 1125899906842624 := by
    unfold tieAngle twoPi
    rw [roundF64_eval 2 6897381808227729 (by norm_num) (by norm_num) (by norm_num)
      (by norm_num [abs_lt])]
    norm_num
  have hquot : roundF64 ((6897381808227729 : ℚ) / 1125899906842624 / segmentAngle) = 39 / 2 := by
    unfold segmentAngle
    rw [roundF64_eval 4 5488762045857792 (by norm_num) (by norm_num) (by norm_num)
      (by norm_num [abs_lt])]
    norm_num
  have hseg : tieAngle + twoPi - 19 * segmentAngle = 5659390201622751 / 36028797018963968 := by
    unfold tieAngle twoPi segmentAngle
    norm_num
  have hseg20 : tieAngle + twoPi - 20 * segmentAngle = -5659390201622753 / 36028797018963968 := by
    unfold tieAngle twoPi segmentAngle
    norm_num
  have habs19 : |tieAngle + twoPi - 19 * segmentAngle| = 5659390201622751 / 36028797018963968 := by
    rw [hseg, abs_of_pos (by norm_num)]
  refine ⟨by norm_num [piF, tieAngle], by norm_num [piF, tieAngle], ?_, ?_, rfl, rfl, ?_, ?_, ?_⟩
  · have hpos : roundF64 ((5659390201622753 : ℚ) / 36028797018963968) =
        5659390201622753 / 36028797018963968 := by
      rw [roundF64_eval (-3) 5659390201622753 (by norm_num) (by norm_num) (by norm_num)
        (by norm_num [abs_lt])]
      norm_num
    have hneg : tieAngle = -((5659390201622753 : ℚ) / 36028797018963968) := by
      unfold tieAngle
      norm_num
    rw [hneg, roundF64_neg (by norm_num), hpos]
  · intro fuel
    have hneg : tieAngle < 0 := by
      unfold tieAngle
      norm_num
    have hr : raiseAngle (fuel + 1) tieAngle = some (6897381808227729 / 1125899906842624) := by
      rw [raiseAngle, if_pos hneg, hsum, raiseAngle_of_nonneg fuel (by norm_num)]
    have hl : lowerAngle (fuel + 1) (6897381808227729 / 1125899906842624) =
        some (6897381808227729 / 1125899906842624) :=
      lowerAngle_of_lt _ (by norm_num [twoPi])
    obtain ⟨n, hn, -, -, hb⟩ := getNumberFromAngle_of_normalised hr hl (by norm_num)
      (by norm_num [twoPi])
    rw [hquot] at hb
    have hround : goRound (39 / 2 : ℚ) = 20 := by
      rw [goRound_of_nonneg (by norm_num), round_eq]
      norm_num
    rw [hround] at hb
    have h20 : n = 20 := by
      simp [Board] at hb
      exact hb.symm
    rw [hn, h20]
  · rw [habs19, hseg20, abs_of_neg (by norm_num)]
    norm_num
  · have h1 : tieAngle - -1 * segmentAngle = 5659390201622751 / 36028797018963968 := by
      unfold tieAngle segmentAngle
      norm_num
    have h2 : tieAngle - 0 * segmentAngle = -5659390201622753 / 36028797018963968 := by
      unfold tieAngle
      norm_num
    rw [h1, h2, abs_of_pos (by norm_num), abs_of_neg (by norm_num)]
    norm_num
  · intro j
    have hs := segmentAngle_pos
    rw [habs19]
    rcases le_or_lt j 19 with hj | hj
    · have hj1 : (j : ℚ) ≤ 19 := by exact_mod_cast hj
      have hle := le_abs_self (tieAngle + twoPi - j * segmentAngle)
      have hmul : (j : ℚ) * segmentAngle ≤ 19 * segmentAngle :=
        mul_le_mul_of_nonneg_right hj1 (le_of_lt hs)
      linarith
    · have hj1 : (20 : ℚ) ≤ j := by exact_mod_cast hj
      have hle := neg_le_abs (tieAngle + twoPi - j * segmentAngle)
      have hmul : 20 * segmentAngle ≤ (j : ℚ) * segmentAngle :=
        mul_le_mul_of_nonneg_right hj1 (le_of_lt hs)
      linarith

/-! ## Board and angle table -/

theorem board_perm : Board.Perm ((List.range' 1 20).map Int.ofNat) := by
  decide

theorem board_nodup : Board.Nodup := by
  decide

set_option maxRecDepth 100000 in
theorem angle_of_position :
    ∀ i ∈ List.range 20,
      ∃ n, Board[i]? = some n ∧ getAngleForNumber newAngleMap n = (i : ℚ) * segmentAngle := by
  intro i hi
  simp only [List.mem_range] at hi
  interval_cases i <;>
    exact ⟨_, rfl, by
      simp [getAngleForNumber, newAngleMap, initializeDartboard, AngleMap.find, AngleMap.assign,
        Board, List.enum, List.enumFrom, Bullseye, List.lookup]⟩

theorem angle_at {i : Nat} (hi : i < 20) :
    ∃ n, Board[i]? = some n ∧ getAngleForNumber newAngleMap n = (i : ℚ) * segmentAngle :=
  angle_of_position i (List.mem_range.mpr hi)

theorem position_of_number {n : Int} (h1 : 1 ≤ n) (h20 : n ≤ 20) :
    ∃ i, i < 20 ∧ Board[i]? = some n := by
  have hmem : n ∈ Board := by
    rw [board_perm.mem_iff, List.mem_map]
    refine ⟨n.toNat, ?_, Int.toNat_of_nonneg (by omega)⟩
    rw [List.mem_range']
    exact ⟨n.toNat - 1, by omega, by omega⟩
  obtain ⟨i, hi, hn⟩ := List.getElem_of_mem hmem
  refine ⟨i, by rw [board_length] at hi; exact hi, ?_⟩
  rw [List.getElem?_eq_getElem hi, hn]

/-- C21: `Board` has 20 entries, a permutation of 1..20; on the angle table
    that `initializeDartboard` builds, `getAngleForNumber (Board[i])` is `i`
    sector widths for every position `i` from 0 to 19, the sector width being
    a twentieth of 2π; hence the angles of the numbers 1..20 are pairwise
    distinct.  `getAngleForNumber` only reads the table, so a repeated call
    gives the same value. -/
theorem board_angle_table :
    Board.length = 20 ∧ Board.Perm ((List.range' 1 20).map Int.ofNat) ∧
    segmentAngle * 20 = twoPi ∧
    (∀ i : Nat, i < 20 →
      ∃ n, Board[i]? = some n ∧ getAngleForNumber newAngleMap n = (i : ℚ) * segmentAngle) ∧
    (∀ n m : Int, 1 ≤ n → n ≤ 20 → 1 ≤ m → m ≤ 20 → n ≠ m →
      getAngleForNumber newAngleMap n ≠ getAngleForNumber newAngleMap m) := by
  refine ⟨rfl, board_perm, twenty_segments, fun i hi => angle_at hi, ?_⟩
  intro n m hn1 hn20 hm1 hm20 hne heq
  obtain ⟨i, hi, hin⟩ := position_of_number hn1 hn20
  obtain ⟨j, hj, hjm⟩ := position_of_number hm1 hm20
  obtain ⟨n1, hn, han⟩ := angle_at hi
  obtain ⟨m1, hm, ham⟩ := angle_at hj
  rw [hin] at hn
  rw [hjm] at hm
  cases hn
  cases hm
  rw [han, ham] at heq
  have hs := segmentAngle_pos
  have hij : (i : ℚ) = j := by
    have := mul_right_cancel₀ (ne_of_gt hs) heq
    exact this
  have hij2 : i = j := by exact_mod_cast hij
  subst hij2
  rw [hin] at hjm
  cases hjm
  exact hne rfl

/-- Witness for C21: position 1 holds the number 1, one sector width from
    the top, and the angles of 1 and 20 differ. -/
theorem board_angle_table_witness :
    (∃ n, Board[1]? = some n ∧ getAngleForNumber newAngleMap n = ((1 : Nat) : ℚ) * segmentAngle) ∧
      getAngleForNumber newAngleMap 1 ≠ getAngleForNumber newAngleMap 20 :=
  ⟨board_angle_table.2.2.2.1 1 (by decide),
    board_angle_table.2.2.2.2 1 20 (by decide) (by decide) (by decide) (by decide) (by decide)⟩

/-! ## Start and rotation -/

/-- C22: `Start` returns an error exactly when the game has no players, and
    succeeds otherwise; it has no assignment, so the game is as before in both
    cases. -/
theorem start_fails_iff_no_players {ρ : Type} (g : Game ρ) :
    ((∃ e, g.Start = .error e) ↔ g.Players = []) ∧
    (g.Start = .ok () ↔ g.Players ≠ []) := by
  unfold Game.Start
  by_cases h : g.Players.length = 0
  · have hnil : g.Players = [] := List.length_eq_zero.mp h
    rw [if_pos h]
    exact ⟨⟨fun _ => hnil, fun _ => ⟨_, rfl⟩⟩, ⟨fun hc => (by cases hc), fun hc => absurd hnil hc⟩⟩
  · have hne : g.Players ≠ [] := fun hc => h (by rw [hc]; rfl)
    rw [if_neg h]
    refine ⟨⟨?_, fun hc => absurd hc hne⟩, ⟨fun _ => hne, fun _ => rfl⟩⟩
    rintro ⟨e, he⟩
    cases he

theorem nextPlayer_eq {ρ : Type} (g : Game ρ) (hn : 1 ≤ g.Players.length)
    (h0 : 0 ≤ g.CurrentPlayer) :
    g.NextPlayer =
      .ok { g with CurrentPlayer := (g.CurrentPlayer + 1) % (g.Players.length : Int) } := by
  have ht : Int.tmod (g.CurrentPlayer + 1) (g.Players.length : Int) =
      (g.CurrentPlayer + 1) % (g.Players.length : Int) :=
    Int.tmod_eq_emod (by omega) (by omega)
  unfold Game.NextPlayer
  rw [if_neg (by omega), ht]

theorem emod_index_range (a : Int) (n : Nat) (hn : 1 ≤ n) :
    0 ≤ a % (n : Int) ∧ a % (n : Int) < n := by
  have hpos : (0 : Int) < n := by omega
  exact ⟨Int.emod_nonneg a (ne_of_gt hpos), Int.emod_lt_of_pos a hpos⟩

theorem nextPlayerTimes_eq {ρ : Type} (k : Nat) :
    ∀ g : Game ρ, 1 ≤ g.Players.length → 0 ≤ g.CurrentPlayer →
      g.CurrentPlayer < g.Players.length →
      nextPlayerTimes k g =
        .ok { g with CurrentPlayer := (g.CurrentPlayer + k) % (g.Players.length : Int) } := by
  induction k with
  | zero =>
    intro g hn h0 hlt
    have hmod : (g.CurrentPlayer + ((0 : Nat) : Int)) % (g.Players.length : Int) =
        g.CurrentPlayer := by
      rw [Nat.cast_zero, add_zero]
      exact Int.emod_eq_of_lt h0 hlt
    rw [hmod]
    rfl
  | succ k ih =>
    intro g hn h0 hlt
    obtain ⟨hr0, hrlt⟩ := emod_index_range (g.CurrentPlayer + 1) g.Players.length hn
    rw [nextPlayerTimes, nextPlayer_eq g hn h0]
    simp only
    rw [ih { g with CurrentPlayer := (g.CurrentPlayer + 1) % (g.Players.length : Int) } hn hr0
      hrlt]
    simp only [Int.emod_add_emod]
    have hk : g.CurrentPlayer + 1 + (k : Int) = g.CurrentPlayer + ((k + 1 : Nat) : Int) := by
      push_cast
      ring
    rw [hk]

/-- Where a turn that returned a result leaves the rotation: the roster keeps
    its length, and the index stays or moves on by one, cyclically. -/
theorem playTurn_rotation {ρ : Type} {g g1 : Game ρ} {r : TurnResult}
    (h : g.PlayTurn = .ok (some r, g1)) :
    g1.Players.length = g.Players.length ∧ 0 ≤ g.CurrentPlayer ∧
      g.CurrentPlayer < g.Players.length ∧
      (g1.CurrentPlayer = g.CurrentPlayer ∨
        g1.CurrentPlayer = (g.CurrentPlayer + 1) % (g.Players.length : Int)) := by
  obtain ⟨p, d1, d2, d3, s1, s2, s3, hp, -, -, heq⟩ := playTurn_cases h
  obtain ⟨hc0, hclt, -⟩ := current_index_lt hp
  unfold turnOutcome at heq
  simp only at heq
  split_ifs at heq <;>
    simp only [Prod.mk.injEq, Option.some.injEq] at heq <;>
    obtain ⟨rfl, rfl⟩ := heq
  · exact ⟨List.length_set _ _ _, hc0, hclt, Or.inl rfl⟩
  · exact ⟨List.length_set _ _ _, hc0, hclt, Or.inl rfl⟩
  · exact ⟨List.length_set _ _ _, hc0, hclt, Or.inl rfl⟩
  · exact ⟨List.length_set _ _ _, hc0, hclt, Or.inl rfl⟩
  · exact ⟨List.length_set _ _ _, hc0, hclt, Or.inl rfl⟩
  · exact ⟨List.length_set _ _ _, hc0, hclt, Or.inl rfl⟩
  · refine ⟨List.length_set _ _ _, hc0, hclt, Or.inr ?_⟩
    show Int.tmod (g.CurrentPlayer + 1) ((g.Players.set _ _).length : Int) = _
    rw [List.length_set]
    exact Int.tmod_eq_emod (by omega) (by omega)

theorem reachable_rotating_index {ρ : Type} {start : Int} {g : Game ρ}
    (hr : ReachableRotating start g) :
    0 ≤ g.CurrentPlayer ∧ (g.Players.length = 0 → g.CurrentPlayer = 0) ∧
      (1 ≤ g.Players.length → g.CurrentPlayer < g.Players.length) := by
  induction hr with
  | new id sim => exact ⟨le_refl _, fun _ => rfl, fun h => by simp [New01Game] at h⟩
  | @addPlayer g profile _ ih =>
    obtain ⟨h0, hz, hlt⟩ := ih
    have hlen : (g.AddPlayer profile).Players.length = g.Players.length + 1 := by
      simp [Game.AddPlayer]
    refine ⟨h0, fun h => ?_, fun _ => ?_⟩
    · rw [hlen] at h
      omega
    · rw [hlen]
      show g.CurrentPlayer < _
      by_cases hn : g.Players.length = 0
      · have := hz hn
        omega
      · have := hlt (by omega)
        omega
  | @nextPlayer g g1 _ hstep ih =>
    obtain ⟨h0, -, -⟩ := ih
    unfold Game.NextPlayer at hstep
    by_cases hn : g.Players.length = 0
    · rw [if_pos hn] at hstep
      cases hstep
    · have ht : Int.tmod (g.CurrentPlayer + 1) (g.Players.length : Int) =
          (g.CurrentPlayer + 1) % (g.Players.length : Int) :=
        Int.tmod_eq_emod (by omega) (by omega)
      rw [if_neg hn, ht] at hstep
      simp only [Except.ok.injEq] at hstep
      obtain ⟨hr0, hrlt⟩ := emod_index_range (g.CurrentPlayer + 1) g.Players.length (by omega)
      rw [← hstep]
      exact ⟨hr0, fun h => absurd h hn, fun _ => hrlt⟩
  | @playTurn g g1 res _ hstep ih =>
    cases res with
    | none =>
      rw [playTurn_none_eq hstep]
      exact ih
    | some r =>
      obtain ⟨hlen, hc0, hclt, hcp⟩ := playTurn_rotation hstep
      have hn : 1 ≤ g.Players.length := by omega
      obtain ⟨hr0, hrlt⟩ := emod_index_range (g.CurrentPlayer + 1) g.Players.length hn
      rw [hlen]
      rcases hcp with hcp | hcp
      · rw [hcp]
        exact ⟨hc0, fun h => by omega, fun _ => hclt⟩
      · rw [hcp]
        exact ⟨hr0, fun h => by omega, fun _ => hrlt⟩

/-- C23: for a game with `n ≥ 1` players and `0 ≤ CurrentPlayer < n`,
    `NextPlayer` sets `CurrentPlayer` to `(CurrentPlayer + 1) mod n` and
    changes nothing else, and `n` successive calls give the game back; in
    every state reachable through `AddPlayer`, `NextPlayer` and `PlayTurn`
    that has a player, `CurrentPlayer` is a valid index into `Players`. -/
theorem nextPlayer_cycles {ρ : Type} :
    (∀ g : Game ρ, 1 ≤ g.Players.length → 0 ≤ g.CurrentPlayer →
      g.CurrentPlayer < g.Players.length →
      g.NextPlayer =
        .ok { g with CurrentPlayer := (g.CurrentPlayer + 1) % (g.Players.length : Int) } ∧
      nextPlayerTimes g.Players.length g = .ok g) ∧
    (∀ (start : Int) (g : Game ρ), ReachableRotating start g → 1 ≤ g.Players.length →
      0 ≤ g.CurrentPlayer ∧ g.CurrentPlayer < g.Players.length ∧
        ∃ p, g.Players[g.CurrentPlayer.toNat]? = some p) := by
  constructor
  · intro g hn h0 hlt
    refine ⟨nextPlayer_eq g hn h0, ?_⟩
    rw [nextPlayerTimes_eq g.Players.length g hn h0 hlt]
    have hmod : (g.CurrentPlayer + (g.Players.length : Int)) % (g.Players.length : Int) =
        g.CurrentPlayer := by
      rw [Int.add_emod_self]
      exact Int.emod_eq_of_lt h0 hlt
    rw [hmod]
  · intro start g hr hn
    obtain ⟨h0, -, hlt⟩ := reachable_rotating_index hr
    have hlt2 := hlt hn
    have hi : g.CurrentPlayer.toNat < g.Players.length := by omega
    exact ⟨h0, hlt2, g.Players.get ⟨g.CurrentPlayer.toNat, hi⟩, List.getElem?_eq_getElem hi⟩

/-- Witness for C23: two players, after one `NextPlayer` call and after
    two. -/
theorem nextPlayer_cycles_witness :
    (duoGame 501 []).NextPlayer = .ok { duoGame 501 [] with CurrentPlayer := 1 } ∧
      nextPlayerTimes 2 (duoGame 501 []) = .ok (duoGame 501 []) :=
  (nextPlayer_cycles.1 (duoGame 501 []) (by decide) (by decide) (by decide))

/-! ## Averages and spread -/

/-- C24, the code at the failing inputs: with 100 points from 4 throws
    `CurrentThreeDA` is 100 where three times the points per dart, the API's
    `AverageScore`, is 75; with 40 points from 2 throws it divides by zero
    where the API reports 60. -/
theorem currentThreeDA_truncates_throws :
    Player.CurrentThreeDAValue
        { toPlayerProfile := simProfile, spread := 0.0, CurrentScore := 401, Turns := 0,
          TotalPoints := 100, Throws := 4 } = some 100 ∧
      AverageScore
        { toPlayerProfile := simProfile, spread := 0.0, CurrentScore := 401, Turns := 0,
          TotalPoints := 100, Throws := 4 } = 75 ∧
      Player.CurrentThreeDAValue
        { toPlayerProfile := simProfile, spread := 0.0, CurrentScore := 40, Turns := 0,
          TotalPoints := 40, Throws := 2 } = none ∧
      AverageScore
        { toPlayerProfile := simProfile, spread := 0.0, CurrentScore := 40, Turns := 0,
          TotalPoints := 40, Throws := 2 } = 60 := by
  refine ⟨?_, ?_, ?_, ?_⟩
  · simp [Player.CurrentThreeDAValue, Int.tdiv]
  · simp [AverageScore]
    norm_num
  · simp [Player.CurrentThreeDAValue, Int.tdiv]
  · simp [AverageScore]
    norm_num

theorem calculateSpread_of_ne {t : ℚ} (h : t + 20 ≠ 0) :
    calculateSpread t = max 5 (min 50 (1800 / (t + 20))) := by
  unfold calculateSpread
  simp only [if_neg h]
  by_cases h5 : 1800 / (t + 20) < 5
  · rw [if_pos h5, if_neg (by norm_num), min_eq_right (by linarith), max_eq_left (by linarith)]
  · rw [if_neg h5]
    by_cases h50 : 1800 / (t + 20) > 50
    · rw [if_pos h50, min_eq_left (by linarith), max_eq_right (by norm_num)]
    · rw [if_neg h50, min_eq_right (by linarith), max_eq_right (by linarith)]

/-- C25: for every skill rating `calculateSpread` stays from 5 to 50, and it
    is 1800 / (t + 20) clamped to that range. -/
theorem calculateSpread_bounded (t : ℚ) :
    5 ≤ calculateSpread t ∧ calculateSpread t ≤ 50 ∧
      (t + 20 ≠ 0 → calculateSpread t = max 5 (min 50 (1800 / (t + 20)))) := by
  refine ⟨?_, ?_, fun h => calculateSpread_of_ne h⟩
  · by_cases h : t + 20 = 0
    · unfold calculateSpread
      simp only [if_pos h]
      norm_num
    · rw [calculateSpread_of_ne h]
      exact le_max_left _ _
  · by_cases h : t + 20 = 0
    · unfold calculateSpread
      simp only [if_pos h]
      exact le_refl _
    · rw [calculateSpread_of_ne h]
      exact max_le (by norm_num) (min_le_left _ _)

/-- Witness for C25 at the rating 60. -/
theorem calculateSpread_bounded_witness :
    calculateSpread 60 = max 5 (min 50 (1800 / (60 + 20))) :=
  (calculateSpread_bounded 60).2.2 (by norm_num)

/-- C26: `calculateSpread` is decreasing in the skill rating: for
    `0 ≤ a ≤ b` the spread of `b` is at most the spread of `a`. -/
theorem calculateSpread_antitone (a b : ℚ) (h0 : 0 ≤ a) (hab : a ≤ b) :
    calculateSpread b ≤ calculateSpread a := by
  have ha : a + 20 ≠ 0 := by
    intro h
    linarith
  have hb : b + 20 ≠ 0 := by
    intro h
    linarith
  rw [calculateSpread_of_ne ha, calculateSpread_of_ne hb]
  have hdiv : 1800 / (b + 20) ≤ 1800 / (a + 20) :=
    div_le_div_of_nonneg_left (by norm_num) (by linarith) (by linarith)
  exact max_le_max (le_refl _) (min_le_min (le_refl _) hdiv)

/-- Witness for C26 at the ratings 30 and 60. -/
theorem calculateSpread_antitone_witness : calculateSpread 60 ≤ calculateSpread 30 :=
  calculateSpread_antitone 30 60 (by norm_num) (by norm_num)

/-! ## The score panic -/

theorem getCurrentPlayer_error {ρ : Type} {g : Game ρ} {e : String}
    (h : g.GetCurrentPlayer = .error e) : e = "index out of range" := by
  unfold Game.GetCurrentPlayer at h
  by_cases hl : g.Players.length = 0
  · rw [if_pos hl] at h
    cases h
  · rw [if_neg hl] at h
    by_cases hc : 0 ≤ g.CurrentPlayer
    · rw [if_pos hc] at h
      cases hq : g.Players[g.CurrentPlayer.toNat]? with
      | none =>
        rw [hq] at h
        simp only [Except.error.injEq] at h
        exact h.symm
      | some q =>
        rw [hq] at h
        cases h
    · rw [if_neg hc] at h
      simp only [Except.error.injEq] at h
      exact h.symm

theorem playTurn_ok_of_scores {ρ : Type} {g : Game ρ} {p : Player}
    (hp : g.GetCurrentPlayer = .ok (some p)) (h2 : 2 ≤ p.CurrentScore) :
    ∃ res g1, g.PlayTurn = .ok (res, g1) := by
  by_cases hreal : p.GetType = RealPlayer
  · exact ⟨none, g, playTurn_real g p hp hreal⟩
  · obtain ⟨d1, s1, h1⟩ := simulatorReturns_exists g p g.Simulator.rng p.CurrentScore
    obtain ⟨d2, s2, hd2⟩ := simulatorReturns_exists g p s1 (p.CurrentScore - d1.Score)
    obtain ⟨d3, s3, hd3⟩ :=
      simulatorReturns_exists g p s2 (p.CurrentScore - d1.Score - d2.Score)
    exact ⟨_, _, playTurn_eq g p d1 d2 d3 s1 s2 s3 hp hreal h2 h1 hd2 hd3⟩

/-- C27: in a game created on a starting score of at least 2 and played only
    through `AddPlayer` and `PlayTurn`, every player's remaining score is at
    least 2, `PlayTurn` never ends in the panic of `GetNextTarget` (which any
    call with a score below 2 would raise), and whenever there is a current
    player the call returns. -/
theorem score_panic_unreachable {ρ : Type} (start : Int) (g : Game ρ) (h2 : 2 ≤ start)
    (hr : ReachableVia noSubmission start g) :
    (∀ p ∈ g.Players, 2 ≤ p.CurrentScore) ∧
    g.PlayTurn ≠ .error scorePanic ∧
    (∀ p, g.GetCurrentPlayer = .ok (some p) → ∃ res g1, g.PlayTurn = .ok (res, g1)) := by
  have hinv := (reachable_simulated_scores h2 hr).2
  have hok : ∀ p, g.GetCurrentPlayer = .ok (some p) → ∃ res g1, g.PlayTurn = .ok (res, g1) :=
    fun p hp => playTurn_ok_of_scores hp (hinv p (current_mem_players hp))
  refine ⟨hinv, ?_, hok⟩
  intro hpanic
  cases hc : g.GetCurrentPlayer with
  | error e =>
    have he := getCurrentPlayer_error hc
    unfold Game.PlayTurn at hpanic
    rw [hc] at hpanic
    simp only [Except.error.injEq] at hpanic
    rw [he] at hpanic
    exact absurd hpanic (by decide)
  | ok o =>
    cases o with
    | none =>
      unfold Game.PlayTurn at hpanic
      rw [hc] at hpanic
      simp only [Except.error.injEq] at hpanic
      exact absurd hpanic (by decide)
    | some p =>
      obtain ⟨res, g1, hres⟩ := hok p hc
      rw [hres] at hpanic
      cases hpanic

/-- Witness for C27: one simulated player on 501 and three Triple 20. -/
theorem score_panic_unreachable_witness :
    (soloGame 501 [T20, T20, T20]).PlayTurn ≠ .error scorePanic :=
  (score_panic_unreachable 501 (soloGame 501 [T20, T20, T20]) (by decide)
    (ReachableVia.addPlayer simProfile
      (ReachableVia.new 0 (tapeSimulator [T20, T20, T20])))).2.1

/-! ## The aim point -/

theorem getNumberFromAngle_at_centre (fuel : Nat) {i : Nat} {n : Int} (hi : i < 20)
    (hn : Board[i]? = some n) :
    getNumberFromAngle fuel ((i : ℚ) * segmentAngle) = some (.ok n) := by
  have hs := segmentAngle_pos
  have h0 : (0 : ℚ) ≤ (i : ℚ) * segmentAngle := mul_nonneg (Nat.cast_nonneg i) (le_of_lt hs)
  have hlt : (i : ℚ) * segmentAngle < twoPi := by
    rw [← twenty_segments, mul_comm segmentAngle 20]
    have : (i : ℚ) < 20 := by exact_mod_cast hi
    exact mul_lt_mul_of_pos_right this hs
  obtain ⟨n1, hn1, -, -, hb⟩ := getNumberFromAngle_of_normalised
    (raiseAngle_of_nonneg fuel h0) (lowerAngle_of_lt fuel hlt) h0 hlt
  rw [mul_div_assoc, div_self (ne_of_gt hs), mul_one,
    roundF64_natCast i (lt_trans hi (by norm_num)),
    goRound_of_nonneg (Nat.cast_nonneg i), round_natCast] at hb
  have hmod : ((i : Int) % 20).toNat = i := by omega
  rw [hmod, hn] at hb
  cases hb
  exact hn1

theorem ringOf_targetRadius {m : Multiplier} (hm : m = Single ∨ m = Double ∨ m = Triple) :
    ringOf (getTargetRadius m) = m ∧ ¬ getTargetRadius m ≤ DoubleBullRadius ∧
      ¬ getTargetRadius m ≤ SingleBullRadius ∧ ¬ getTargetRadius m > BoardRadius := by
  rcases hm with rfl | rfl | rfl
  · refine ⟨?_, ?_, ?_, ?_⟩ <;>
      norm_num [ringOf, getTargetRadius, Single, Double, Triple, TripleInnerRadius,
        TripleOuterRadius, DoubleInnerRadius, DoubleOuterRadius, DoubleBullRadius,
        SingleBullRadius, BoardRadius]
  · refine ⟨?_, ?_, ?_, ?_⟩ <;>
      norm_num [ringOf, getTargetRadius, Single, Double, Triple, TripleInnerRadius,
        TripleOuterRadius, DoubleInnerRadius, DoubleOuterRadius, DoubleBullRadius,
        SingleBullRadius, BoardRadius]
  · refine ⟨?_, ?_, ?_, ?_⟩ <;>
      norm_num [ringOf, getTargetRadius, Single, Double, Triple, TripleInnerRadius,
        TripleOuterRadius, DoubleInnerRadius, DoubleOuterRadius, DoubleBullRadius,
        SingleBullRadius, BoardRadius]

/-- C28: for every number from 1 to 20 and every ring Single, Double or
    Triple, the aim point itself is classified as the target aimed at:
    `determineHit (getTargetRadius m) (getAngleForNumber n)` is ring `m`,
    number `n`, score `n × m`; neither loop of `getNumberFromAngle` takes a
    pass, so this holds with any `fuel`. -/
theorem aim_point_hits_target (fuel : Nat) (n : Int) (m : Multiplier) (h1 : 1 ≤ n)
    (h20 : n ≤ 20) (hm : m = Single ∨ m = Double ∨ m = Triple) :
    determineHit fuel (getTargetRadius m) (getAngleForNumber newAngleMap n) =
      some (.ok { Multiplier := m, Number := n, Score := n * m }) := by
  obtain ⟨i, hi, hin⟩ := position_of_number h1 h20
  obtain ⟨n1, hn1, hangle⟩ := angle_at hi
  rw [hin] at hn1
  cases hn1
  obtain ⟨hring, hr1, hr2, hr3⟩ := ringOf_targetRadius hm
  rw [hangle, determineHit_ring hr1 hr2 hr3 n (getNumberFromAngle_at_centre fuel hi hin), hring]

/-- Witness for C28: aiming at Triple 20, with no pass of a loop to spare. -/
theorem aim_point_hits_target_witness :
    determineHit 0 (getTargetRadius Triple) (getAngleForNumber newAngleMap 20) =
      some (.ok { Multiplier := Triple, Number := 20, Score := 20 * Triple }) :=
  aim_point_hits_target 0 20 Triple (by decide) (by decide) (Or.inr (Or.inr rfl))

/-! ## Profiles from `NewPlayer` -/

theorem getCurrentPlayer_first {ρ : Type} {g : Game ρ} (hc : g.CurrentPlayer = 0)
    (hne : g.Players ≠ []) : ∃ p, p ∈ g.Players ∧ g.GetCurrentPlayer = .ok (some p) := by
  cases hpl : g.Players with
  | nil => exact absurd hpl hne
  | cons p rest =>
    refine ⟨p, List.mem_cons_self _ _, ?_⟩
    unfold Game.GetCurrentPlayer
    rw [hpl, hc]
    simp

theorem real_roster_turn {ρ : Type} {g : Game ρ} (hc : g.CurrentPlayer = 0)
    (hall : ∀ p ∈ g.Players, p.PlayerType = RealPlayer) :
    (g.Players ≠ [] → g.PlayTurn = .ok (none, g)) ∧
    (g.Players = [] →
      g.PlayTurn = .error "invalid memory address or nil pointer dereference") := by
  constructor
  · intro hne
    obtain ⟨p, hmem, hp⟩ := getCurrentPlayer_first hc hne
    exact playTurn_real g p hp (hall p hmem)
  · intro hnil
    unfold Game.PlayTurn Game.GetCurrentPlayer
    rw [hnil]
    rfl

theorem reachable_newPlayers_real {ρ : Type} {start : Int} {g : Game ρ}
    (hr : ReachableNewPlayers start g) :
    g.CurrentPlayer = 0 ∧ ∀ p ∈ g.Players, p.PlayerType = RealPlayer := by
  induction hr with
  | new id sim =>
    refine ⟨rfl, ?_⟩
    intro p hp
    simp [New01Game] at hp
  | addPlayer id name threeDA scoringPreference _ ih =>
    refine ⟨ih.1, ?_⟩
    intro p hp
    unfold Game.AddPlayer at hp
    simp only [List.mem_append, List.mem_singleton] at hp
    rcases hp with hp | hp
    · exact ih.2 p hp
    · rw [hp]
      rfl
  | @playTurn g g1 res _ hstep ih =>
    obtain ⟨hreal, hempty⟩ := real_roster_turn ih.1 ih.2
    by_cases hne : g.Players = []
    · rw [hempty hne] at hstep
      cases hstep
    · rw [hreal hne] at hstep
      simp only [Except.ok.injEq, Prod.mk.injEq] at hstep
      rw [← hstep.2]
      exact ih

/-- C29: every profile from `NewPlayer` has `PlayerType` `RealPlayer`,
    whatever the name, rating and preference; so in a game whose players all
    came from `NewPlayer` profiles every `PlayTurn` call that returns returns
    no result and leaves the game, simulator included, as it was: with a
    player it returns nil, with none it panics on the nil player. -/
theorem newPlayer_is_real {ρ : Type} :
    (∀ id name threeDA scoringPreference,
      (NewPlayer id name threeDA scoringPreference).PlayerType = RealPlayer) ∧
    ∀ (start : Int) (g : Game ρ), ReachableNewPlayers start g →
      (∀ res g1, g.PlayTurn = .ok (res, g1) → res = none ∧ g1 = g) ∧
      (g.Players ≠ [] → g.PlayTurn = .ok (none, g)) ∧
      (g.Players = [] →
        g.PlayTurn = .error "invalid memory address or nil pointer dereference") := by
  refine ⟨fun _ _ _ _ => rfl, ?_⟩
  intro start g hr
  obtain ⟨hc, hall⟩ := reachable_newPlayers_real hr
  obtain ⟨hreal, hempty⟩ := real_roster_turn hc hall
  refine ⟨?_, hreal, hempty⟩
  intro res g1 h
  by_cases hne : g.Players = []
  · rw [hempty hne] at h
    cases h
  · rw [hreal hne] at h
    simp only [Except.ok.injEq, Prod.mk.injEq] at h
    exact ⟨h.1.symm, h.2.symm⟩

/-- Witness for C29: the game of `main`, 401 with Alice and Anthony. -/
theorem newPlayer_is_real_witness : mainGame.PlayTurn = .ok (none, mainGame) :=
  ((newPlayer_is_real.2 401 mainGame
    (ReachableNewPlayers.addPlayer 2 "Anthony" 50.0 TwentiesScoringPreference
      (ReachableNewPlayers.addPlayer 1 "Alice" 32.0 TwentiesScoringPreference
        (ReachableNewPlayers.new 0 (tapeSimulator [T20, T20, T20]))))).2.1
    (by simp [mainGame, Game.AddPlayer]))

/-! ## The result record -/

/-- C30: every result that `PlayTurn` returns holds one to three outcomes,
    three if it is a Scoring result; the `TotalScore` of a Scoring or Win
    result is the sum of the scores of all its outcomes, that of a Bust result
    the sum of the scores of all but the last. -/
theorem result_totals {ρ : Type} (g g1 : Game ρ) (r : TurnResult)
    (h : g.PlayTurn = .ok (some r, g1)) :
    1 ≤ r.Results.length ∧ r.Results.length ≤ 3 ∧
    (r.Typ = ScoringTurn → r.Results.length = 3) ∧
    (r.Typ = ScoringTurn ∨ r.Typ = WinTurn →
      r.TotalScore = (r.Results.map (fun d => d.Score)).sum) ∧
    (r.Typ = BustTurn →
      r.TotalScore = (r.Results.dropLast.map (fun d => d.Score)).sum) := by
  obtain ⟨p, d1, d2, d3, s1, s2, s3, -, -, -, heq⟩ := playTurn_cases h
  unfold turnOutcome at heq
  simp only at heq
  split_ifs at heq <;>
    simp only [Prod.mk.injEq, Option.some.injEq] at heq <;>
    obtain ⟨rfl, rfl⟩ := heq
  · refine ⟨by simp [bustResult], by simp [bustResult], ?_, ?_, ?_⟩
    · intro ht; exact absurd ht bust_ne_scoring
    · rintro (ht | ht)
      · exact absurd ht bust_ne_scoring
      · exact absurd ht bust_ne_win
    · intro _; simp [bustResult]
  · refine ⟨by simp [winResult], by simp [winResult], ?_, ?_, ?_⟩
    · intro ht; exact absurd ht win_ne_scoring
    · intro _; simp [winResult]
    · intro ht; exact absurd ht win_ne_bust
  · refine ⟨by simp [bustResult], by simp [bustResult], ?_, ?_, ?_⟩
    · intro ht; exact absurd ht bust_ne_scoring
    · rintro (ht | ht)
      · exact absurd ht bust_ne_scoring
      · exact absurd ht bust_ne_win
    · intro _; simp [bustResult]
  · refine ⟨by simp [winResult], by simp [winResult], ?_, ?_, ?_⟩
    · intro ht; exact absurd ht win_ne_scoring
    · intro _; simp [winResult]
    · intro ht; exact absurd ht win_ne_bust
  · refine ⟨by simp [bustResult], by simp [bustResult], ?_, ?_, ?_⟩
    · intro ht; exact absurd ht bust_ne_scoring
    · rintro (ht | ht)
      · exact absurd ht bust_ne_scoring
      · exact absurd ht bust_ne_win
    · intro _; simp [bustResult]
  · refine ⟨by simp [winResult], by simp [winResult], ?_, ?_, ?_⟩
    · intro ht; exact absurd ht win_ne_scoring
    · intro _; simp [winResult]; ring
    · intro ht; exact absurd ht win_ne_bust
  · refine ⟨by simp [scoringResult], by simp [scoringResult], ?_, ?_, ?_⟩
    · intro _; simp [scoringResult]
    · intro _; simp [scoringResult]; ring
    · intro ht; exact absurd ht scoring_ne_bust

/-- Witness for C30: the Bust from 41 with Single 20, Single 20 holds two
    outcomes and a total of 20. -/
theorem result_totals_witness :
    ∃ r g1, (soloGame 41 [S20, S20, S1]).PlayTurn = .ok (some r, g1) ∧
      r.Typ = BustTurn ∧ r.Results.length = 2 ∧ r.TotalScore = 20 ∧
      (r.Typ = BustTurn →
        r.TotalScore = (r.Results.dropLast.map (fun d => d.Score)).sum) :=
  ⟨_, _, rfl, rfl, rfl, rfl,
    (result_totals (soloGame 41 [S20, S20, S1]) _ _ rfl).2.2.2.2⟩

end Dartbuddy
